import Mathlib

/-!
Dispatch engine: officers, incidents and the event handlers.

A shallow embedding of `main.go` / `models.go`.

* Go pointers (`*Officer`, `*Incident`) are addresses (`Nat`) into two heaps; `nil` is
  `none`.  Objects are never freed, so an entity removed from a list can still be
  referenced by a back-reference.
* Go `int` is the 64-bit two's complement integer: arithmetic in `distance` wraps.
* A handler either returns the next store or panics (`none`); a panic in the consumer
  goroutine ends the process.
-/

namespace Dispatch

/-! ## models.go -/

/-- The struct `Location`. -/
structure Location where
  X : Int
  Y : Int
  deriving DecidableEq, Repr

/-- The struct `Officer`; `Incident` is the pointer `*Incident` (`none` is nil). -/
structure Officer where
  ID : Int
  BadgeName : String
  Loc : Location
  Incident : Option Nat
  deriving DecidableEq, Repr

/-- The struct `Incident`; `Officer` is the pointer `*Officer` (`none` is nil). -/
structure Incident where
  ID : Int
  CodeName : String
  Loc : Location
  OfficerId : Int
  Officer : Option Nat
  deriving DecidableEq, Repr

/-! ## Machine arithmetic used by `distance` -/

/-- Two's complement wrap-around of a mathematical integer into the Go `int` range
`[-2^63, 2^63)`. -/
def wrap64 (z : Int) : Int := (z + 2 ^ 63) % 2 ^ 64 - 2 ^ 63

/-- Number of binary digits of `n`, for `n < 2 ^ fuel`. -/
def bitLen : Nat → Nat → Nat
  | 0, _ => 0
  | fuel + 1, n => if n = 0 then 0 else bitLen fuel (n / 2) + 1

/-- The conversion `float64(n)` of a nonnegative `int`: the value of the nearest float64
(53 significant bits, ties to even), which is again an integer. -/
def toFloat64 (n : Nat) : Nat :=
  let p := bitLen 64 n
  if p ≤ 53 then n
  else
    let q := 2 ^ (p - 53)
    let lo := n / q
    let r := n % q
    if 2 * r < q then lo * q
    else if q < 2 * r then (lo + 1) * q
    else if lo % 2 = 0 then lo * q else (lo + 1) * q

/-- Binary search for the integer square root: with `r * r ≤ t < (r + 2 ^ b) * (r + 2 ^ b)`
on entry, returns `⌊√t⌋`. -/
def isqrtAux (t : Nat) : Nat → Nat → Nat
  | 0, r => r
  | b + 1, r => if (r + 2 ^ b) * (r + 2 ^ b) ≤ t then isqrtAux t b (r + 2 ^ b) else isqrtAux t b r

/-- Integer square root `⌊√t⌋` for `t < 2 ^ 108`. -/
def isqrt (t : Nat) : Nat := isqrtAux t 54 0

/-- The integer nearest to `√t` (never a tie, `√t` is an integer or irrational). -/
def roundSqrt (t : Nat) : Nat :=
  let s := isqrt t
  if s * s + s < t then s + 1 else s

/-- The float64 `math.Sqrt(x)` for a float64 `x` with nonnegative integer value `m ≤ 2^63`,
in units of `2^-52`: with `2^e ≤ √m < 2^(e+1)` the result is `√m` rounded to the nearest
multiple of `2^(e-52)` (53 significant bits). -/
def sqrtUnits (m : Nat) : Nat :=
  let e := (bitLen 64 m - 1) / 2
  roundSqrt (m * 4 ^ (52 - e)) * 2 ^ e

/-- A float64 as returned by `distance`: NaN, or the nonnegative value `units / 2^52`. -/
inductive F64 where
  | nan
  | fin (units : Nat)
  deriving DecidableEq, Repr

/-- Go's `<` on float64: false when an operand is NaN. -/
def F64.lt : F64 → F64 → Bool
  | .fin a, .fin b => decide (a < b)
  | _, _ => false

/-- Go's `<=` on float64: false when an operand is NaN. -/
def F64.le : F64 → F64 → Bool
  | .fin a, .fin b => decide (a ≤ b)
  | _, _ => false

/-- The expression `math.Sqrt(float64(n))` for an `int` value `n`: NaN for negative `n`. -/
def sqrtFloat64 (n : Int) : F64 :=
  if n < 0 then .nan else .fin (sqrtUnits (toFloat64 n.toNat))

/-- The function `distance`:
`a := loc1.X - loc2.X; b := loc1.Y - loc2.Y; return math.Sqrt(float64(a*a + b*b))`,
every `int` operation wrapping. -/
def distance (loc1 loc2 : Location) : F64 :=
  let a := wrap64 (loc1.X - loc2.X)
  let b := wrap64 (loc1.Y - loc2.Y)
  sqrtFloat64 (wrap64 (wrap64 (a * a) + wrap64 (b * b)))

/-! ## Decoded events -/

/-- A value stored in an `interface{}` by `json.Unmarshal`: nil, bool, float64, string,
`[]interface{}` or `map[string]interface{}`.  A number is modelled by its integer value. -/
inductive JVal where
  | null
  | bool (b : Bool)
  | num (n : Int)
  | str (s : String)
  | arr (xs : List JVal)
  | obj (kvs : List (String × JVal))

/-- The decoded `map[string]interface{}`, as an association list. -/
abbrev Event := List (String × JVal)

/-- The map index `event[k]`; a missing key yields the nil interface (`none`). -/
def Event.get (event : Event) (k : String) : Option JVal := List.lookup k event

/-- The type assertion `v.(float64)`: `none` is the run-time panic. -/
def asFloat64 : Option JVal → Option Int
  | some (.num n) => some n
  | _ => none

/-- The type assertion `v.(string)`: `none` is the run-time panic. -/
def asString : Option JVal → Option String
  | some (.str s) => some s
  | _ => none

/-- The type assertion `v.(map[string]interface{})`: `none` is the run-time panic. -/
def asMap : Option JVal → Option Event
  | some (.obj kvs) => some kvs
  | _ => none

/-- The conversion `int(x)` of an integer-valued float64: exact inside the `int` range;
outside it Go leaves the result to the implementation (amd64 yields `-2^63`). -/
def toInt (n : Int) : Int := if -2 ^ 63 ≤ n ∧ n < 2 ^ 63 then n else -2 ^ 63


/-! ## The store: the globals `officers`, `incidents` and the objects they point to -/

/-- The program state.  `officerAt a` is the `Officer` object at address `a`, fresh objects
are allocated at `nextOfficer` (and likewise for incidents); `officers` and `incidents`
are the two global slices of pointers. -/
structure Store where
  officerAt : Nat → Officer
  incidentAt : Nat → Incident
  nextOfficer : Nat
  nextIncident : Nat
  officers : List Nat
  incidents : List Nat

/-- The state at process start: both slices nil, nothing allocated. -/
def emptyStore : Store where
  officerAt := fun _ => ⟨0, "", ⟨0, 0⟩, none⟩
  incidentAt := fun _ => ⟨0, "", ⟨0, 0⟩, 0, none⟩
  nextOfficer := 0
  nextIncident := 0
  officers := []
  incidents := []

/-- The assignment `o.Incident = v` through the non-nil pointer `o`. -/
def Store.setOfficerIncident (s : Store) (o : Nat) (v : Option Nat) : Store :=
  { s with officerAt := Function.update s.officerAt o { s.officerAt o with Incident := v } }

/-- The assignment `o.Loc.X = x` through the non-nil pointer `o`. -/
def Store.setOfficerLocX (s : Store) (o : Nat) (x : Int) : Store :=
  let old := s.officerAt o
  { s with officerAt := Function.update s.officerAt o { old with Loc := { old.Loc with X := x } } }

/-- The assignment `o.Loc.Y = y` through the non-nil pointer `o`. -/
def Store.setOfficerLocY (s : Store) (o : Nat) (y : Int) : Store :=
  let old := s.officerAt o
  { s with officerAt := Function.update s.officerAt o { old with Loc := { old.Loc with Y := y } } }

/-- The assignment `i.Officer = v` through the non-nil pointer `i`. -/
def Store.setIncidentOfficer (s : Store) (i : Nat) (v : Option Nat) : Store :=
  { s with incidentAt := Function.update s.incidentAt i { s.incidentAt i with Officer := v } }

/-- The assignment `i.OfficerId = v` through the non-nil pointer `i`. -/
def Store.setIncidentOfficerId (s : Store) (i : Nat) (v : Int) : Store :=
  { s with incidentAt := Function.update s.incidentAt i { s.incidentAt i with OfficerId := v } }

/-- The allocation `&Officer{ID: id, BadgeName: badge}` at the next free address. -/
def Store.newOfficer (s : Store) (id : Int) (badge : String) : Store :=
  { s with
    officerAt := Function.update s.officerAt s.nextOfficer ⟨id, badge, ⟨0, 0⟩, none⟩
    nextOfficer := s.nextOfficer + 1 }

/-- The allocation `&Incident{ID: id, CodeName: code, Loc: loc}` at the next free address. -/
def Store.newIncident (s : Store) (id : Int) (code : String) (loc : Location) : Store :=
  { s with
    incidentAt := Function.update s.incidentAt s.nextIncident ⟨id, code, loc, 0, none⟩
    nextIncident := s.nextIncident + 1 }

/-! ## main.go -/

/-- The function `findOfficer`: the first pointer in `officers` whose object has the id. -/
def findOfficer (s : Store) (id : Int) : Option Nat :=
  s.officers.find? (fun o => decide ((s.officerAt o).ID = id))

/-- The function `removeOfficer`; `make(.., 0, len(officers)-1)` panics on an empty slice. -/
def removeOfficer (s : Store) (id : Int) : Option Store :=
  if s.officers.length = 0 then none
  else some { s with officers := s.officers.filter (fun o => decide ((s.officerAt o).ID ≠ id)) }

/-- The function `findFirstAvailableIncident`. -/
def findFirstAvailableIncident (s : Store) : Option Nat :=
  s.incidents.find? (fun i => (s.incidentAt i).Officer.isNone)

/-- The function `findIncidentByID`. -/
def findIncidentByID (s : Store) (id : Int) : Option Nat :=
  s.incidents.find? (fun i => decide ((s.incidentAt i).ID = id))

/-- One iteration of the loop of `nearestAvailableOfficer`, `res` being the best so far. -/
def nearestStep (s : Store) (loc : Location) (res : Option Nat) (officer : Nat) : Option Nat :=
  if (s.officerAt officer).Incident.isNone then
    match res with
    | none => some officer
    | some r =>
      if (distance loc (s.officerAt officer).Loc).lt (distance loc (s.officerAt r).Loc)
      then some officer else some r
  else res

/-- The function `nearestAvailableOfficer`. -/
def nearestAvailableOfficer (s : Store) (loc : Location) : Option Nat :=
  s.officers.foldl (nearestStep s loc) none

/-- The function `removeIncident`, called with a non-nil pointer;
`make(.., 0, len(incidents)-1)` panics on an empty slice. -/
def removeIncident (s : Store) (incident : Nat) : Option Store :=
  if s.incidents.length = 0 then none
  else some { s with incidents :=
    s.incidents.filter (fun i => decide ((s.incidentAt i).ID ≠ (s.incidentAt incident).ID)) }

/-- The function `assignOfficerToIncident`, called with two non-nil pointers. -/
def assignOfficerToIncident (s : Store) (incident officer : Nat) : Store :=
  ((s.setIncidentOfficerId incident (s.officerAt officer).ID).setIncidentOfficer incident
    (some officer)).setOfficerIncident officer (some incident)

/-- The function `processOfficerGoesOffline`. -/
def processOfficerGoesOffline (s : Store) (event : Event) : Option Store := do
  let offID := toInt (← asFloat64 (event.get "officerId"))
  match findOfficer s offID with
  | none => some s
  | some officer =>
    match (s.officerAt officer).Incident with
    | none => removeOfficer s offID
    | some inc =>
      removeOfficer
        (((s.setIncidentOfficer inc none).setIncidentOfficerId inc 0).setOfficerIncident
          officer none) offID

/-- The function `processLocationUpdated`; `findOfficer` may return nil, and the
assignments through `officer.Loc` then panic. -/
def processLocationUpdated (s : Store) (event : Event) : Option Store := do
  let ofID := toInt (← asFloat64 (event.get "officerId"))
  let found := findOfficer s ofID
  let locMap ← asMap (event.get "loc")
  let x ← asFloat64 (locMap.get "x")
  let officer ← found
  let y ← asFloat64 (locMap.get "y")
  some ((s.setOfficerLocX officer (toInt x)).setOfficerLocY officer (toInt y))

/-- Lines 186-193 of `processOfficerGoesOnline`: the officer found by `findOfficer`, or a
new one appended to `officers`, together with the store at that point. -/
def onlineOfficer (s : Store) (event : Event) : Option (Store × Nat) := do
  let id := toInt (← asFloat64 (event.get "officerId"))
  match findOfficer s id with
  | some officer => some (s, officer)
  | none =>
    let badge ← asString (event.get "badgeName")
    let s1 := s.newOfficer id badge
    some ({ s1 with officers := s1.officers ++ [s.nextOfficer] }, s.nextOfficer)

/-- The function `processOfficerGoesOnline`. -/
def processOfficerGoesOnline (s : Store) (event : Event) : Option Store := do
  let (s1, officer) ← onlineOfficer s event
  match findFirstAvailableIncident s1 with
  | none => some s1
  | some firstAvailableIncident => some (assignOfficerToIncident s1 firstAvailableIncident officer)

/-- The function `processIncidentResolved`: `incident.Officer.Incident = nil` dereferences
both `incident` and `incident.Officer` without a nil check. -/
def processIncidentResolved (s : Store) (event : Event) : Option Store := do
  let id := toInt (← asFloat64 (event.get "incidentId"))
  let incident ← findIncidentByID s id
  let officer ← (s.incidentAt incident).Officer
  removeIncident (s.setOfficerIncident officer none) incident

/-! ### The re-encoding of `processIncidentOccurred`

`processIncidentOccurred` passes the decoded map through `json.Marshal` and decodes the
bytes with `json.Unmarshal` into a struct.  `json.Marshal` writes the keys of a map in
increasing byte order and a float64 with the fewest digits that parse back to it;
`json.Unmarshal` stores a key in the struct field whose name equals it up to letter case,
a later key overwriting an earlier one, leaves a field alone on `null`, and reports an
error for a value of the wrong JSON type or a number that does not fit `int`. -/

/-- The decimal with `j` trailing zeros for the float64 `n`: the multiple of `10 ^ j` just
below or just above `n` that parses back to `n` (`toFloat64`), the nearer one if both do
(half to even); `none` if neither does. -/
def shortestAt (n j : Nat) : Option Nat :=
  let p := 10 ^ j
  let lo := n / p * p
  let hi := lo + p
  if toFloat64 lo = n then
    if toFloat64 hi = n ∧ (hi - n < n - lo ∨ (hi - n = n - lo ∧ n / p % 2 = 1)) then some hi
    else some lo
  else if toFloat64 hi = n then some hi else none

/-- Search for the decimal with the most trailing zeros, from `10 ^ j` downwards. -/
def shortestFrom (n : Nat) : Nat → Nat
  | 0 => n
  | j + 1 =>
    match shortestAt n (j + 1) with
    | some c => c
    | none => shortestFrom n j

/-- The integer that `json.Marshal` prints for the integer-valued float64 `n < 2 ^ 63`
(`strconv.AppendFloat(b, f, 'f', -1, 64)`): the decimal with the fewest significant digits
that parses back to `n`, the nearest to `n` among those. -/
def shortestDecimal (n : Nat) : Nat := shortestFrom n 18

/-- A JSON number stored into an `int` field: the printed decimal read back with
`strconv.ParseInt`, an error (`none`) if it does not fit 64 bits.  A float64 of
magnitude `2 ^ 63` or more is printed as a decimal (or in exponent form) that does not
fit. -/
def reencodeInt (n : Int) : Option Int :=
  if n.natAbs < 2 ^ 63 then
    let m : Int := shortestDecimal n.natAbs
    let r := if n < 0 then -m else m
    if -2 ^ 63 ≤ r ∧ r < 2 ^ 63 then some r else none
  else none

/-- Code point of a character with the ASCII capital letters folded to lower case. -/
def foldCode (c : Char) : Nat :=
  if 65 ≤ c.toNat ∧ c.toNat ≤ 90 then c.toNat + 32 else c.toNat

/-- The field match of `json.Unmarshal` for a field name made of ASCII letters other than
`k` and `s`: the key equals the name up to the case of ASCII letters. -/
def equalFold (key name : String) : Bool := key.data.map foldCode == name.data.map foldCode

/-- Lexicographic order on code point sequences. -/
def lexLe : List Nat → List Nat → Bool
  | [], _ => true
  | _ :: _, [] => false
  | a :: as, b :: bs => a < b || (a == b && lexLe as bs)

/-- The order in which `json.Marshal` writes the keys of a map (byte order of the UTF-8
encodings, which is the order of the code point sequences). -/
def keyLe (a b : String) : Bool := lexLe (a.data.map Char.toNat) (b.data.map Char.toNat)

/-- The keys of the map, each once, in the order `json.Marshal` writes them. -/
def Event.sortedKeys (e : Event) : List String :=
  ((e.map Prod.fst).dedup).insertionSort (fun a b => keyLe a b = true)

/-- The keys that `json.Unmarshal` stores in the field `name`, in the order it meets
them. -/
def Event.matching (e : Event) (name : String) : List String :=
  e.sortedKeys.filter (fun k => equalFold k name)

/-- One JSON value stored by `json.Unmarshal` in an `int` field holding `old`: null leaves
the field alone, a number is re-read from its printed form, a value of another type is an
error (`none`). -/
def decodeIntInto (old : Int) : Option JVal → Option Int
  | none => some old
  | some .null => some old
  | some (.num n) => reencodeInt n
  | some _ => none

/-- The `int` field `name` after decoding the object `o`, the field holding `init`
before. -/
def decodeInt (o : Event) (name : String) (init : Int) : Option Int :=
  (o.matching name).foldlM (fun old k => decodeIntInto old (o.get k)) init

/-- One JSON value stored by `json.Unmarshal` in a `string` field holding `old`. -/
def decodeStringInto (old : String) : Option JVal → Option String
  | none => some old
  | some .null => some old
  | some (.str s) => some s
  | some _ => none

/-- The `string` field `name` after decoding the object `o`. -/
def decodeString (o : Event) (name : String) (init : String) : Option String :=
  (o.matching name).foldlM (fun old k => decodeStringInto old (o.get k)) init

/-- One JSON value stored by `json.Unmarshal` in a `Location` field holding `old`: an
object sets the fields `x` and `y` it has and keeps the others. -/
def decodeLocationInto (old : Location) : Option JVal → Option Location
  | none => some old
  | some .null => some old
  | some (.obj kvs) => do
    let x ← decodeInt kvs "x" old.X
    let y ← decodeInt kvs "y" old.Y
    some ⟨x, y⟩
  | some _ => none

/-- The `Location` field `name` after decoding the object `o`. -/
def decodeLocation (o : Event) (name : String) (init : Location) : Option Location :=
  (o.matching name).foldlM (fun old k => decodeLocationInto old (o.get k)) init

/-- The re-encoding of the event into the anonymous struct
`{IncidentID int; CodeName string; Loc Location}` in `processIncidentOccurred`
(`json.Marshal` then `json.Unmarshal`); `none` is `err != nil`. -/
def decodeIncidentOccurred (event : Event) : Option (Int × String × Location) := do
  let id ← decodeInt event "incidentId" 0
  let code ← decodeString event "codeName" ""
  let loc ← decodeLocation event "loc" ⟨0, 0⟩
  some (id, code, loc)

/-- Lines 266-281 of `processIncidentOccurred`: the new incident, linked to the nearest
available officer if there is one. -/
def matchIncident (s : Store) (id : Int) (code : String) (loc : Location) : Store :=
  let s1 := s.newIncident id code loc
  match nearestAvailableOfficer s1 loc with
  | none => s1
  | some officer => assignOfficerToIncident s1 s.nextIncident officer

/-- The function `processIncidentOccurred`; it never panics. -/
def processIncidentOccurred (s : Store) (event : Event) : Store :=
  match decodeIncidentOccurred event with
  | none => s
  | some (id, code, loc) =>
    let s2 := matchIncident s id code loc
    { s2 with incidents := s2.incidents ++ [s.nextIncident] }

/-- The value of `eventType, _ := event["type"].(string)`. -/
def eventType (event : Event) : String :=
  match event.get "type" with
  | some (.str t) => t
  | _ => ""

/-- The function `processIncidentRaw` on a payload: `none` is a payload on which
`json.Unmarshal` fails, `some event` the decoded object. -/
def processIncidentRaw (s : Store) (data : Option Event) : Option Store :=
  match data with
  | none => some s
  | some event =>
    let t := eventType event
    if t = "IncidentOccurred" then some (processIncidentOccurred s event)
    else if t = "IncidentResolved" then processIncidentResolved s event
    else if t = "OfficerGoesOnline" then processOfficerGoesOnline s event
    else if t = "OfficerLocationUpdated" then processLocationUpdated s event
    else if t = "OfficerGoesOffline" then processOfficerGoesOffline s event
    else some s

/-- The consumer loop of `StartReceiver` on a finite run of payloads: each is handed to
`processIncidentRaw`; a panic ends the run. -/
def runEvents (s : Store) : List (Option Event) → Option Store
  | [] => some s
  | d :: ds => (processIncidentRaw s d).bind (fun s1 => runEvents s1 ds)

/-- States reachable from the empty store by payloads handled without a panic. -/
inductive Reachable : Store → Prop where
  | init : Reachable emptyStore
  | step {s s1 : Store} (d : Option Event) :
      Reachable s → processIncidentRaw s d = some s1 → Reachable s1

/-! ### Events used in the scenarios -/

/-- The event `{"type":"IncidentOccurred","incidentId":id,"codeName":code,"loc":{"x":x,"y":y}}`. -/
def incidentOccurred (id : Int) (code : String) (x y : Int) : Event :=
  [("type", .str "IncidentOccurred"), ("incidentId", .num id), ("codeName", .str code),
   ("loc", .obj [("x", .num x), ("y", .num y)])]

/-- The event `{"type":"IncidentResolved","incidentId":id}`. -/
def incidentResolved (id : Int) : Event :=
  [("type", .str "IncidentResolved"), ("incidentId", .num id)]

/-- The event `{"type":"OfficerGoesOnline","officerId":id,"badgeName":badge}`. -/
def officerGoesOnline (id : Int) (badge : String) : Event :=
  [("type", .str "OfficerGoesOnline"), ("officerId", .num id), ("badgeName", .str badge)]

/-- The event `{"type":"OfficerLocationUpdated","officerId":id,"loc":{"x":x,"y":y}}`. -/
def officerLocationUpdated (id x y : Int) : Event :=
  [("type", .str "OfficerLocationUpdated"), ("officerId", .num id),
   ("loc", .obj [("x", .num x), ("y", .num y)])]

/-- The event `{"type":"OfficerGoesOffline","officerId":id}`. -/
def officerGoesOffline (id : Int) : Event :=
  [("type", .str "OfficerGoesOffline"), ("officerId", .num id)]

/-- The officer objects in `officers`, in order. -/
def Store.liveOfficers (s : Store) : List Officer := s.officers.map s.officerAt

/-- The incident objects in `incidents`, in order. -/
def Store.liveIncidents (s : Store) : List Incident := s.incidents.map s.incidentAt

/-- The ids of the officers in `officers`, in order. -/
def Store.officerIDs (s : Store) : List Int := s.officers.map (fun o => (s.officerAt o).ID)

/-- The ids of the incidents in `incidents`, in order. -/
def Store.incidentIDs (s : Store) : List Int := s.incidents.map (fun i => (s.incidentAt i).ID)

/-! ## Predicates on stores -/

/-- Every pointer in `officers` is an allocated address and the ids are pairwise distinct. -/
structure OfficersOK (s : Store) : Prop where
  fresh : ∀ o ∈ s.officers, o < s.nextOfficer
  nodup : s.officerIDs.Nodup

/-- An operation that allocates no officer, overwrites no officer id and at most drops
entries from `officers`. -/
structure OfficerFrame (s s1 : Store) : Prop where
  ids : ∀ a, (s1.officerAt a).ID = (s.officerAt a).ID
  next : s1.nextOfficer = s.nextOfficer
  sub : s1.officers.Sublist s.officers

/-- Every pointer in `incidents` is an allocated address and the ids are pairwise distinct. -/
structure IncidentsOK (s : Store) : Prop where
  fresh : ∀ i ∈ s.incidents, i < s.nextIncident
  nodup : s.incidentIDs.Nodup

/-- An operation that allocates no incident, overwrites no incident id and at most drops
entries from `incidents`. -/
structure IncidentFrame (s s1 : Store) : Prop where
  ids : ∀ a, (s1.incidentAt a).ID = (s.incidentAt a).ID
  next : s1.nextIncident = s.nextIncident
  sub : s1.incidents.Sublist s.incidents

/-- The payload is an `IncidentOccurred` event that decodes to the id of an incident
already in `incidents`. -/
def reusesIncidentID (s : Store) (d : Option Event) : Bool :=
  match d with
  | none => false
  | some event =>
    decide (eventType event = "IncidentOccurred") &&
      match decodeIncidentOccurred event with
      | none => false
      | some (id, _, _) => decide (id ∈ s.incidentIDs)

/-- States reachable from the empty store by payloads none of which is an
`IncidentOccurred` that decodes to the id of an incident then in `incidents`. -/
inductive ReachableFreshIDs : Store → Prop where
  | init : ReachableFreshIDs emptyStore
  | step {s s1 : Store} (d : Option Event) :
      ReachableFreshIDs s → reusesIncidentID s d = false →
      processIncidentRaw s d = some s1 → ReachableFreshIDs s1


/-- The two back-references agree on the live entities: `o.Incident` is `i` exactly when
`i.Officer` is `o`. -/
def Symmetric (s : Store) : Prop :=
  ∀ o ∈ s.officers, ∀ i ∈ s.incidents,
    (s.officerAt o).Incident = some i ↔ (s.incidentAt i).Officer = some o

/-- No live entity refers to an entity outside the two lists: neither through a
back-reference nor through a non-zero `OfficerId`. -/
def NoDangling (s : Store) : Prop :=
  (∀ o ∈ s.officers, ∀ i, (s.officerAt o).Incident = some i → i ∈ s.incidents) ∧
  (∀ i ∈ s.incidents, ∀ o, (s.incidentAt i).Officer = some o → o ∈ s.officers) ∧
  (∀ i ∈ s.incidents, (s.incidentAt i).OfficerId ≠ 0 →
    (s.incidentAt i).OfficerId ∈ s.officerIDs)

/-- The exact square of the Euclidean distance between two locations. -/
def sqDist (p q : Location) : Int := (p.X - q.X) ^ 2 + (p.Y - q.Y) ^ 2

/-- What the loop of `nearestAvailableOfficer` has established once it has visited the
officers `seen`, with `res` the best so far: `res` is nil only if no visited officer is
unassigned; otherwise `res` is an unassigned visited officer, no unassigned officer
visited before it is at a distance `<=` its own, and none visited after it is at a
distance `<` its own. -/
def Earliest (s : Store) (loc : Location) (seen : List Nat) : Option Nat → Prop
  | none => ∀ o ∈ seen, (s.officerAt o).Incident ≠ none
  | some r => (s.officerAt r).Incident = none ∧ ∃ front back, seen = front ++ r :: back ∧
      (∀ o ∈ front, (s.officerAt o).Incident = none →
        (distance loc (s.officerAt o).Loc).le (distance loc (s.officerAt r).Loc) = false) ∧
      (∀ o ∈ back, (s.officerAt o).Incident = none →
        (distance loc (s.officerAt o).Loc).lt (distance loc (s.officerAt r).Loc) = false)

/-- The claim about `nearestAvailableOfficer`, with exact Euclidean distances (compared
through their squares): nil exactly when no officer in the list is unassigned; otherwise
an unassigned officer of the list than which no unassigned officer of the list is nearer. -/
def NearestCorrect (s : Store) (loc : Location) : Prop :=
  (nearestAvailableOfficer s loc = none ↔ ∀ o ∈ s.officers, (s.officerAt o).Incident ≠ none) ∧
  ∀ r, nearestAvailableOfficer s loc = some r →
    r ∈ s.officers ∧ (s.officerAt r).Incident = none ∧
    ∀ o ∈ s.officers, (s.officerAt o).Incident = none →
      ¬ sqDist loc (s.officerAt o).Loc < sqDist loc (s.officerAt r).Loc

/-- Officer `o` is unassigned and no unassigned officer of the list is at a smaller
Euclidean distance from `loc`, the distances compared through their exact squares. -/
def atMinimalEuclidean (s : Store) (loc : Location) (o : Nat) : Bool :=
  (s.officerAt o).Incident.isNone &&
    s.officers.all (fun o1 => !(s.officerAt o1).Incident.isNone ||
      decide (sqDist loc (s.officerAt o).Loc ≤ sqDist loc (s.officerAt o1).Loc))

/-- The claim about ties: the result of `nearestAvailableOfficer` is the first officer of
the list that is unassigned and at the minimal Euclidean distance from `loc`. -/
def EarliestNearest (s : Store) (loc : Location) : Prop :=
  nearestAvailableOfficer s loc = s.officers.find? (atMinimalEuclidean s loc)

/-! ### Concrete runs -/

/-- Scenario A: one incident, nobody online. -/
def runA : List (Option Event) := [some (incidentOccurred 10 "code" 12 123124)]

/-- Scenario B: scenario A, then officer 5 goes online. -/
def runB : List (Option Event) := runA ++ [some (officerGoesOnline 5 "B5")]

/-- An officer is linked to incident 1, a second incident occurs, and the same officer
announces itself online again. -/
def runBeforeReassign : List (Option Event) :=
  [some (incidentOccurred 1 "a" 0 0), some (officerGoesOnline 5 "B5"),
   some (incidentOccurred 2 "b" 0 0)]

/-- The run `runBeforeReassign` followed by the second `OfficerGoesOnline` of officer 5. -/
def runReassign : List (Option Event) := runBeforeReassign ++ [some (officerGoesOnline 5 "B5")]

/-- The run `runReassign` followed by officer 5 going offline. -/
def runDangling : List (Option Event) := runReassign ++ [some (officerGoesOffline 5)]

/-- Two `IncidentOccurred` events with the same `incidentId`. -/
def runDuplicate : List (Option Event) :=
  [some (incidentOccurred 10 "code" 12 123124), some (incidentOccurred 10 "code" 12 123124)]

/-- An `IncidentOccurred` event whose id is under the key `incidentid`. -/
def incidentOccurredLower (id : Int) (code : String) (x y : Int) : Event :=
  [("type", .str "IncidentOccurred"), ("incidentid", .num id), ("codeName", .str code),
   ("loc", .obj [("x", .num x), ("y", .num y)])]

/-- Two `IncidentOccurred` events with the same id, the second under the key
`incidentid`. -/
def runDuplicateLower : List (Option Event) :=
  [some (incidentOccurred 10 "code" 12 123124),
   some (incidentOccurredLower 10 "code" 12 123124)]

/-- Officers 5 and 6 go online, officer 5 twice. -/
def runOfficers : List (Option Event) :=
  [some (officerGoesOnline 5 "B5"), some (officerGoesOnline 6 "B6"),
   some (officerGoesOnline 5 "B5x")]

/-- The store a run ends in (the empty store if the run panics). -/
def storeAfter (run : List (Option Event)) : Store := (runEvents emptyStore run).getD emptyStore

/-- No payload of the run, handled in turn from `s`, panics or is an `IncidentOccurred`
that decodes to the id of an incident then in `incidents`. -/
def freshRun (s : Store) : List (Option Event) → Bool
  | [] => true
  | d :: ds =>
    !reusesIncidentID s d &&
      match processIncidentRaw s d with
      | none => false
      | some s1 => freshRun s1 ds

/-- Incidents 10 and 11 occur, officer 5 goes online, incident 10 is resolved and a new
incident reuses the id 10. -/
def runFresh : List (Option Event) :=
  [some (incidentOccurred 10 "code" 12 123124), some (incidentOccurred 11 "code" 1 2),
   some (officerGoesOnline 5 "B5"), some (incidentResolved 10),
   some (incidentOccurred 10 "code" 3 4)]

/-- Officer 1 at `(1, 0)` and officer 2 at `(2^32, 0)`, both unassigned. -/
def runFar : List (Option Event) :=
  [some (officerGoesOnline 1 "B1"), some (officerLocationUpdated 1 1 0),
   some (officerGoesOnline 2 "B2"), some (officerLocationUpdated 2 4294967296 0)]

/-- Officers 1 at `(1, 0)`, 2 at `(2^32, 0)` and 3 at `(0, 1)` are online. -/
def runFarTie : List (Option Event) :=
  [some (officerGoesOnline 1 "B1"), some (officerLocationUpdated 1 1 0),
   some (officerGoesOnline 2 "B2"), some (officerLocationUpdated 2 4294967296 0),
   some (officerGoesOnline 3 "B3"), some (officerLocationUpdated 3 0 1)]

/-- Officer 1 at `(0, 0)` and officer 2 at `(10, 0)`, both unassigned. -/
def runNear : List (Option Event) :=
  [some (officerGoesOnline 1 "B1"), some (officerGoesOnline 2 "B2"),
   some (officerLocationUpdated 2 10 0)]

/-- Officer 1 at `(3, 4)` and officer 2 at `(5, 0)`, both unassigned and both at distance 5
from the origin. -/
def runTie : List (Option Event) :=
  [some (officerGoesOnline 1 "B1"), some (officerLocationUpdated 1 3 4),
   some (officerGoesOnline 2 "B2"), some (officerLocationUpdated 2 5 0)]

/-- Officers 5 and 6 are online. -/
def runTwoOfficers : List (Option Event) :=
  [some (officerGoesOnline 5 "B5"), some (officerGoesOnline 6 "B6")]

/-- The value lies in the range of Go `int`. -/
def inIntRange (n : Int) : Prop := -2 ^ 63 ≤ n ∧ n < 2 ^ 63

/-- A well-formed `IncidentOccurred` event: `incidentId` a number, `codeName` a string and
`loc` an object with numbers `x` and `y`, the numbers integers in the `int` range. -/
def IsIncidentOccurred (event : Event) (id : Int) (code : String) (loc : Location) : Prop :=
  event.get "incidentId" = some (.num id) ∧ event.get "codeName" = some (.str code) ∧
    (∃ kvs, event.get "loc" = some (.obj kvs) ∧ Event.get kvs "x" = some (.num loc.X) ∧
      Event.get kvs "y" = some (.num loc.Y)) ∧
    inIntRange id ∧ inIntRange loc.X ∧ inIntRange loc.Y

/-- The integer has magnitude below `2 ^ 53`. -/
def safeInt (n : Int) : Prop := -2 ^ 53 < n ∧ n < 2 ^ 53

/-- No key of the object other than `name` itself equals `name` up to letter case. -/
def soleKey (o : Event) (name : String) : Prop :=
  ∀ k ∈ o.map Prod.fst, equalFold k name = true → k = name

/-- A well-formed `IncidentOccurred` event whose numbers have magnitude below `2 ^ 53` and
in which no other key equals `incidentId`, `codeName` or `loc`, or `x` or `y` inside
`loc`, up to letter case. -/
def IsPlainIncidentOccurred (event : Event) (id : Int) (code : String) (loc : Location) :
    Prop :=
  event.get "incidentId" = some (.num id) ∧ event.get "codeName" = some (.str code) ∧
    (∃ kvs, event.get "loc" = some (.obj kvs) ∧ Event.get kvs "x" = some (.num loc.X) ∧
      Event.get kvs "y" = some (.num loc.Y) ∧ soleKey kvs "x" ∧ soleKey kvs "y") ∧
    soleKey event "incidentId" ∧ soleKey event "codeName" ∧ soleKey event "loc" ∧
    safeInt id ∧ safeInt loc.X ∧ safeInt loc.Y

/-- An `IncidentOccurred` event with both an `incidentId` and an `incidentid` key. -/
def eventTwoIncidentIds : Event :=
  [("type", .str "IncidentOccurred"), ("incidentId", .num 7), ("incidentid", .num 8),
   ("codeName", .str "code"), ("loc", .obj [("x", .num 12), ("y", .num 123124)])]

/-- The postcondition of `processIncidentOccurred`, from the store `s` to the store `s1`,
for an event carrying `id`, `code` and `loc`; the new incident is the object at the
address `s.nextIncident`. -/
def IncidentOccurredPost (s s1 : Store) (id : Int) (code : String) (loc : Location) : Prop :=
  s1.incidents = s.incidents ++ [s.nextIncident] ∧ s.nextIncident ∉ s.incidents ∧
    s1.liveIncidents = s.liveIncidents ++ [s1.incidentAt s.nextIncident] ∧
    (∀ a, a ≠ s.nextIncident → s1.incidentAt a = s.incidentAt a) ∧
    (s1.incidentAt s.nextIncident).ID = id ∧
    (s1.incidentAt s.nextIncident).CodeName = code ∧
    (s1.incidentAt s.nextIncident).Loc = loc ∧
    s1.officers = s.officers ∧
    (∀ o, nearestAvailableOfficer s loc = some o →
      (s1.incidentAt s.nextIncident).Officer = some o ∧
      (s1.incidentAt s.nextIncident).OfficerId = (s.officerAt o).ID ∧
      (s1.officerAt o).Incident = some s.nextIncident ∧
      (s1.officerAt o).ID = (s.officerAt o).ID ∧
      (s1.officerAt o).BadgeName = (s.officerAt o).BadgeName ∧
      (s1.officerAt o).Loc = (s.officerAt o).Loc ∧
      ∀ a, a ≠ o → s1.officerAt a = s.officerAt a) ∧
    (nearestAvailableOfficer s loc = none →
      (s1.incidentAt s.nextIncident).Officer = none ∧
      (s1.incidentAt s.nextIncident).OfficerId = 0 ∧ s1.officerAt = s.officerAt)

/-- The postcondition of `processOfficerGoesOnline` for an officer that was not known,
from the store `s` to the store `s1`; the new officer is the object at the address
`s.nextOfficer`. -/
def NewOfficerPost (s s1 : Store) (id : Int) (badge : String) : Prop :=
  s1.officers = s.officers ++ [s.nextOfficer] ∧ s.nextOfficer ∉ s.officers ∧
    s1.liveOfficers = s.liveOfficers ++ [s1.officerAt s.nextOfficer] ∧
    (∀ a, a ≠ s.nextOfficer → s1.officerAt a = s.officerAt a) ∧
    (s1.officerAt s.nextOfficer).ID = id ∧
    (s1.officerAt s.nextOfficer).BadgeName = badge ∧
    s1.incidents = s.incidents ∧
    (∀ front i back, s.incidents = front ++ i :: back → (s.incidentAt i).Officer = none →
      (∀ j ∈ front, (s.incidentAt j).Officer ≠ none) →
      (s1.incidentAt i).Officer = some s.nextOfficer ∧ (s1.incidentAt i).OfficerId = id ∧
      (s1.officerAt s.nextOfficer).Incident = some i ∧
      (s1.incidentAt i).ID = (s.incidentAt i).ID ∧
      (s1.incidentAt i).CodeName = (s.incidentAt i).CodeName ∧
      (s1.incidentAt i).Loc = (s.incidentAt i).Loc ∧
      ∀ a, a ≠ i → s1.incidentAt a = s.incidentAt a) ∧
    ((∀ j ∈ s.incidents, (s.incidentAt j).Officer ≠ none) →
      (s1.officerAt s.nextOfficer).Incident = none ∧ s1.incidentAt = s.incidentAt)

/-- The field is present with a JSON type other than number (null counts as absent). -/
def wrongNumber : Option JVal → Bool
  | some (.bool _) => true
  | some (.str _) => true
  | some (.arr _) => true
  | some (.obj _) => true
  | _ => false

/-- The field is present with a JSON type other than string (null counts as absent). -/
def wrongString : Option JVal → Bool
  | some (.bool _) => true
  | some (.num _) => true
  | some (.arr _) => true
  | some (.obj _) => true
  | _ => false

/-- The field is present with a JSON type other than object (null counts as absent). -/
def wrongObject : Option JVal → Bool
  | some (.bool _) => true
  | some (.num _) => true
  | some (.str _) => true
  | some (.arr _) => true
  | _ => false

/-- Some required field of an `IncidentOccurred` event (`incidentId`, `codeName`, `loc`,
`loc.x`, `loc.y`) is present with the wrong JSON type. -/
def illTypedIncidentOccurred (event : Event) : Bool :=
  wrongNumber (event.get "incidentId") || wrongString (event.get "codeName") ||
    wrongObject (event.get "loc") ||
    match event.get "loc" with
    | some (.obj kvs) => wrongNumber (Event.get kvs "x") || wrongNumber (Event.get kvs "y")
    | _ => false

/-- An `IncidentOccurred` event without `incidentId`. -/
def eventNoIncidentId : Event :=
  [("type", .str "IncidentOccurred"), ("codeName", .str "code"),
   ("loc", .obj [("x", .num 12), ("y", .num 123124)])]

/-- An `OfficerGoesOffline` event without `officerId`. -/
def eventNoOfficerId : Event := [("type", .str "OfficerGoesOffline")]

/-- An `OfficerGoesOnline` event whose `officerId` is a string. -/
def eventStringOfficerId : Event :=
  [("type", .str "OfficerGoesOnline"), ("officerId", .str "5"), ("badgeName", .str "B5")]

/-- An `IncidentOccurred` event whose `incidentId` is a string. -/
def eventStringIncidentId : Event :=
  [("type", .str "IncidentOccurred"), ("incidentId", .str "10"), ("codeName", .str "code"),
   ("loc", .obj [("x", .num 12), ("y", .num 123124)])]

/-- The string is one of the five event names of the `switch` in `processIncidentRaw`. -/
def recognisedType (t : String) : Bool :=
  t == "IncidentOccurred" || t == "IncidentResolved" || t == "OfficerGoesOnline" ||
    t == "OfficerLocationUpdated" || t == "OfficerGoesOffline"

/-- The payload does not decode as a JSON object, or decodes to an object whose `type` is
absent, not a string, or a string other than the five event names. -/
def unrecognised : Option Event → Bool
  | none => true
  | some event =>
    match event.get "type" with
    | some (.str t) => !recognisedType t
    | _ => true

/-- Every incident object mirrors its back-reference in `OfficerId`: 0 when `Officer` is
nil, and otherwise the id of the officer object pointed to, an allocated one. -/
def Mirrored (s : Store) : Prop :=
  ∀ i, ((s.incidentAt i).Officer = none → (s.incidentAt i).OfficerId = 0) ∧
    ∀ o, (s.incidentAt i).Officer = some o →
      o < s.nextOfficer ∧ (s.incidentAt i).OfficerId = (s.officerAt o).ID

/-- Incident 10 is linked to officer 5, who goes offline; officer 6 goes online and takes
incident 10; incident 11 then finds nobody available. -/
def runMirror : List (Option Event) :=
  [some (incidentOccurred 10 "code" 12 123124), some (officerGoesOnline 5 "B5"),
   some (officerGoesOffline 5), some (officerGoesOnline 6 "B6"),
   some (incidentOccurred 11 "code" 1 2)]

/-- The relationship invariant: officer ids pairwise distinct, incident ids pairwise
distinct, the two back-references agree on the live entities, and every non-nil
back-reference of a live entity points to a live entity. -/
structure RelInv (s : Store) : Prop where
  officerIDs : s.officerIDs.Nodup
  incidentIDs : s.incidentIDs.Nodup
  sym : Symmetric s
  officerLinks : ∀ o ∈ s.officers, ∀ i, (s.officerAt o).Incident = some i → i ∈ s.incidents
  incidentLinks : ∀ i ∈ s.incidents, ∀ o, (s.incidentAt i).Officer = some o → o ∈ s.officers

/-- Every pointer in the two lists is an allocated address (below the next free one). -/
structure Allocated (s : Store) : Prop where
  officers : ∀ o ∈ s.officers, o < s.nextOfficer
  incidents : ∀ i ∈ s.incidents, i < s.nextIncident

/-- Each non-nil back-reference of a live entity points to a live entity whose own
back-reference points back. -/
structure Linked (s : Store) : Prop where
  fromOfficer : ∀ o ∈ s.officers, ∀ i, (s.officerAt o).Incident = some i →
    i ∈ s.incidents ∧ (s.incidentAt i).Officer = some o
  fromIncident : ∀ i ∈ s.incidents, ∀ o, (s.incidentAt i).Officer = some o →
    o ∈ s.officers ∧ (s.officerAt o).Incident = some i

/-- Exclusion (b): the payload is an `OfficerGoesOnline` event naming an officer of the
list that has an assigned incident. -/
def reonlineAssigned (s : Store) (d : Option Event) : Bool :=
  match d with
  | none => false
  | some event =>
    decide (eventType event = "OfficerGoesOnline") &&
      match asFloat64 (event.get "officerId") with
      | none => false
      | some n =>
        match findOfficer s (toInt n) with
        | none => false
        | some o => (s.officerAt o).Incident.isSome

/-- Exclusion (c): the payload is an `IncidentResolved` event naming no incident of the
list, or one whose `Officer` is nil. -/
def resolvesUnassigned (s : Store) (d : Option Event) : Bool :=
  match d with
  | none => false
  | some event =>
    decide (eventType event = "IncidentResolved") &&
      match asFloat64 (event.get "incidentId") with
      | none => false
      | some n =>
        match findIncidentByID s (toInt n) with
        | none => true
        | some i => (s.incidentAt i).Officer.isNone

/-- The payload is an `OfficerLocationUpdated` event naming no officer of the list. -/
def updatesUnknownOfficer (s : Store) (d : Option Event) : Bool :=
  match d with
  | none => false
  | some event =>
    decide (eventType event = "OfficerLocationUpdated") &&
      match asFloat64 (event.get "officerId") with
      | none => false
      | some n => (findOfficer s (toInt n)).isNone

/-- The field is a number with an integer value in the `int` range. -/
def isNumber : Option JVal → Bool
  | some (.num n) => decide (-2 ^ 63 ≤ n ∧ n < 2 ^ 63)
  | _ => false

/-- The field is a string. -/
def isString : Option JVal → Bool
  | some (.str _) => true
  | _ => false

/-- The field is an object `{x, y}` of two numbers. -/
def isLocation : Option JVal → Bool
  | some (.obj kvs) => isNumber (Event.get kvs "x") && isNumber (Event.get kvs "y")
  | _ => false

/-- A well-formed event: `type` is one of the five event names and the fields required
for it are present with the right JSON types. -/
def wellFormedEvent (event : Event) : Bool :=
  if eventType event = "IncidentOccurred" then
    isNumber (event.get "incidentId") && isString (event.get "codeName") &&
      isLocation (event.get "loc")
  else if eventType event = "IncidentResolved" then isNumber (event.get "incidentId")
  else if eventType event = "OfficerGoesOnline" then
    isNumber (event.get "officerId") && isString (event.get "badgeName")
  else if eventType event = "OfficerLocationUpdated" then
    isNumber (event.get "officerId") && isLocation (event.get "loc")
  else if eventType event = "OfficerGoesOffline" then isNumber (event.get "officerId")
  else false

/-- The payload is a well-formed event outside the exclusions (a), (b), (c) and is not an
`OfficerLocationUpdated` naming an unknown officer. -/
def admissible (s : Store) (d : Option Event) : Bool :=
  match d with
  | none => false
  | some event =>
    wellFormedEvent event && !reusesIncidentID s d && !reonlineAssigned s d &&
      !resolvesUnassigned s d && !updatesUnknownOfficer s d

/-- Every payload of the run, handled in turn from `s`, is admissible and handled without
a panic. -/
def admissibleRun (s : Store) : List (Option Event) → Bool
  | [] => true
  | d :: ds =>
    admissible s d &&
      match processIncidentRaw s d with
      | none => false
      | some s1 => admissibleRun s1 ds

/-- States reachable from the empty store by admissible payloads. -/
inductive ReachableAdmissible : Store → Prop where
  | init : ReachableAdmissible emptyStore
  | step {s s1 : Store} (d : Option Event) :
      ReachableAdmissible s → admissible s d = true →
      processIncidentRaw s d = some s1 → ReachableAdmissible s1

/-! ## Frame lemmas: what each assignment leaves alone -/

section frame
variable (s : Store) (a b : Nat)

@[simp] theorem setOfficerIncident_officers (v : Option Nat) :
    (s.setOfficerIncident a v).officers = s.officers := rfl
@[simp] theorem setOfficerIncident_incidents (v : Option Nat) :
    (s.setOfficerIncident a v).incidents = s.incidents := rfl
@[simp] theorem setOfficerIncident_incidentAt (v : Option Nat) :
    (s.setOfficerIncident a v).incidentAt = s.incidentAt := rfl
@[simp] theorem setOfficerIncident_nextOfficer (v : Option Nat) :
    (s.setOfficerIncident a v).nextOfficer = s.nextOfficer := rfl
@[simp] theorem setOfficerIncident_nextIncident (v : Option Nat) :
    (s.setOfficerIncident a v).nextIncident = s.nextIncident := rfl
theorem setOfficerIncident_officerAt (v : Option Nat) :
    (s.setOfficerIncident a v).officerAt b =
      if b = a then { s.officerAt a with Incident := v } else s.officerAt b := by
  simp only [Store.setOfficerIncident, Function.update_apply]
@[simp] theorem setOfficerIncident_ID (v : Option Nat) :
    ((s.setOfficerIncident a v).officerAt b).ID = (s.officerAt b).ID := by
  rw [setOfficerIncident_officerAt]; split <;> simp_all
@[simp] theorem setOfficerIncident_BadgeName (v : Option Nat) :
    ((s.setOfficerIncident a v).officerAt b).BadgeName = (s.officerAt b).BadgeName := by
  rw [setOfficerIncident_officerAt]; split <;> simp_all
@[simp] theorem setOfficerIncident_Loc (v : Option Nat) :
    ((s.setOfficerIncident a v).officerAt b).Loc = (s.officerAt b).Loc := by
  rw [setOfficerIncident_officerAt]; split <;> simp_all
@[simp] theorem setOfficerIncident_Incident (v : Option Nat) :
    ((s.setOfficerIncident a v).officerAt b).Incident =
      if b = a then v else (s.officerAt b).Incident := by
  rw [setOfficerIncident_officerAt]; split <;> simp_all

@[simp] theorem setOfficerLocX_officers (x : Int) :
    (s.setOfficerLocX a x).officers = s.officers := rfl
@[simp] theorem setOfficerLocX_incidents (x : Int) :
    (s.setOfficerLocX a x).incidents = s.incidents := rfl
@[simp] theorem setOfficerLocX_incidentAt (x : Int) :
    (s.setOfficerLocX a x).incidentAt = s.incidentAt := rfl
@[simp] theorem setOfficerLocX_nextOfficer (x : Int) :
    (s.setOfficerLocX a x).nextOfficer = s.nextOfficer := rfl
@[simp] theorem setOfficerLocX_nextIncident (x : Int) :
    (s.setOfficerLocX a x).nextIncident = s.nextIncident := rfl
theorem setOfficerLocX_officerAt (x : Int) :
    (s.setOfficerLocX a x).officerAt b =
      if b = a then { s.officerAt a with Loc := { (s.officerAt a).Loc with X := x } }
      else s.officerAt b := by
  simp only [Store.setOfficerLocX, Function.update_apply]
@[simp] theorem setOfficerLocX_ID (x : Int) :
    ((s.setOfficerLocX a x).officerAt b).ID = (s.officerAt b).ID := by
  rw [setOfficerLocX_officerAt]; split <;> simp_all
@[simp] theorem setOfficerLocX_BadgeName (x : Int) :
    ((s.setOfficerLocX a x).officerAt b).BadgeName = (s.officerAt b).BadgeName := by
  rw [setOfficerLocX_officerAt]; split <;> simp_all
@[simp] theorem setOfficerLocX_Incident (x : Int) :
    ((s.setOfficerLocX a x).officerAt b).Incident = (s.officerAt b).Incident := by
  rw [setOfficerLocX_officerAt]; split <;> simp_all
@[simp] theorem setOfficerLocX_Loc (x : Int) :
    ((s.setOfficerLocX a x).officerAt b).Loc =
      if b = a then { (s.officerAt a).Loc with X := x } else (s.officerAt b).Loc := by
  rw [setOfficerLocX_officerAt]; split <;> simp_all

@[simp] theorem setOfficerLocY_officers (y : Int) :
    (s.setOfficerLocY a y).officers = s.officers := rfl
@[simp] theorem setOfficerLocY_incidents (y : Int) :
    (s.setOfficerLocY a y).incidents = s.incidents := rfl
@[simp] theorem setOfficerLocY_incidentAt (y : Int) :
    (s.setOfficerLocY a y).incidentAt = s.incidentAt := rfl
@[simp] theorem setOfficerLocY_nextOfficer (y : Int) :
    (s.setOfficerLocY a y).nextOfficer = s.nextOfficer := rfl
@[simp] theorem setOfficerLocY_nextIncident (y : Int) :
    (s.setOfficerLocY a y).nextIncident = s.nextIncident := rfl
theorem setOfficerLocY_officerAt (y : Int) :
    (s.setOfficerLocY a y).officerAt b =
      if b = a then { s.officerAt a with Loc := { (s.officerAt a).Loc with Y := y } }
      else s.officerAt b := by
  simp only [Store.setOfficerLocY, Function.update_apply]
@[simp] theorem setOfficerLocY_ID (y : Int) :
    ((s.setOfficerLocY a y).officerAt b).ID = (s.officerAt b).ID := by
  rw [setOfficerLocY_officerAt]; split <;> simp_all
@[simp] theorem setOfficerLocY_BadgeName (y : Int) :
    ((s.setOfficerLocY a y).officerAt b).BadgeName = (s.officerAt b).BadgeName := by
  rw [setOfficerLocY_officerAt]; split <;> simp_all
@[simp] theorem setOfficerLocY_Incident (y : Int) :
    ((s.setOfficerLocY a y).officerAt b).Incident = (s.officerAt b).Incident := by
  rw [setOfficerLocY_officerAt]; split <;> simp_all
@[simp] theorem setOfficerLocY_Loc (y : Int) :
    ((s.setOfficerLocY a y).officerAt b).Loc =
      if b = a then { (s.officerAt a).Loc with Y := y } else (s.officerAt b).Loc := by
  rw [setOfficerLocY_officerAt]; split <;> simp_all

@[simp] theorem setIncidentOfficer_officers (v : Option Nat) :
    (s.setIncidentOfficer a v).officers = s.officers := rfl
@[simp] theorem setIncidentOfficer_incidents (v : Option Nat) :
    (s.setIncidentOfficer a v).incidents = s.incidents := rfl
@[simp] theorem setIncidentOfficer_officerAt (v : Option Nat) :
    (s.setIncidentOfficer a v).officerAt = s.officerAt := rfl
@[simp] theorem setIncidentOfficer_nextOfficer (v : Option Nat) :
    (s.setIncidentOfficer a v).nextOfficer = s.nextOfficer := rfl
@[simp] theorem setIncidentOfficer_nextIncident (v : Option Nat) :
    (s.setIncidentOfficer a v).nextIncident = s.nextIncident := rfl
theorem setIncidentOfficer_incidentAt (v : Option Nat) :
    (s.setIncidentOfficer a v).incidentAt b =
      if b = a then { s.incidentAt a with Officer := v } else s.incidentAt b := by
  simp only [Store.setIncidentOfficer, Function.update_apply]
@[simp] theorem setIncidentOfficer_ID (v : Option Nat) :
    ((s.setIncidentOfficer a v).incidentAt b).ID = (s.incidentAt b).ID := by
  rw [setIncidentOfficer_incidentAt]; split <;> simp_all
@[simp] theorem setIncidentOfficer_CodeName (v : Option Nat) :
    ((s.setIncidentOfficer a v).incidentAt b).CodeName = (s.incidentAt b).CodeName := by
  rw [setIncidentOfficer_incidentAt]; split <;> simp_all
@[simp] theorem setIncidentOfficer_Loc (v : Option Nat) :
    ((s.setIncidentOfficer a v).incidentAt b).Loc = (s.incidentAt b).Loc := by
  rw [setIncidentOfficer_incidentAt]; split <;> simp_all
@[simp] theorem setIncidentOfficer_OfficerId (v : Option Nat) :
    ((s.setIncidentOfficer a v).incidentAt b).OfficerId = (s.incidentAt b).OfficerId := by
  rw [setIncidentOfficer_incidentAt]; split <;> simp_all
@[simp] theorem setIncidentOfficer_Officer (v : Option Nat) :
    ((s.setIncidentOfficer a v).incidentAt b).Officer =
      if b = a then v else (s.incidentAt b).Officer := by
  rw [setIncidentOfficer_incidentAt]; split <;> simp_all

@[simp] theorem setIncidentOfficerId_officers (v : Int) :
    (s.setIncidentOfficerId a v).officers = s.officers := rfl
@[simp] theorem setIncidentOfficerId_incidents (v : Int) :
    (s.setIncidentOfficerId a v).incidents = s.incidents := rfl
@[simp] theorem setIncidentOfficerId_officerAt (v : Int) :
    (s.setIncidentOfficerId a v).officerAt = s.officerAt := rfl
@[simp] theorem setIncidentOfficerId_nextOfficer (v : Int) :
    (s.setIncidentOfficerId a v).nextOfficer = s.nextOfficer := rfl
@[simp] theorem setIncidentOfficerId_nextIncident (v : Int) :
    (s.setIncidentOfficerId a v).nextIncident = s.nextIncident := rfl
theorem setIncidentOfficerId_incidentAt (v : Int) :
    (s.setIncidentOfficerId a v).incidentAt b =
      if b = a then { s.incidentAt a with OfficerId := v } else s.incidentAt b := by
  simp only [Store.setIncidentOfficerId, Function.update_apply]
@[simp] theorem setIncidentOfficerId_ID (v : Int) :
    ((s.setIncidentOfficerId a v).incidentAt b).ID = (s.incidentAt b).ID := by
  rw [setIncidentOfficerId_incidentAt]; split <;> simp_all
@[simp] theorem setIncidentOfficerId_CodeName (v : Int) :
    ((s.setIncidentOfficerId a v).incidentAt b).CodeName = (s.incidentAt b).CodeName := by
  rw [setIncidentOfficerId_incidentAt]; split <;> simp_all
@[simp] theorem setIncidentOfficerId_Loc (v : Int) :
    ((s.setIncidentOfficerId a v).incidentAt b).Loc = (s.incidentAt b).Loc := by
  rw [setIncidentOfficerId_incidentAt]; split <;> simp_all
@[simp] theorem setIncidentOfficerId_Officer (v : Int) :
    ((s.setIncidentOfficerId a v).incidentAt b).Officer = (s.incidentAt b).Officer := by
  rw [setIncidentOfficerId_incidentAt]; split <;> simp_all
@[simp] theorem setIncidentOfficerId_OfficerId (v : Int) :
    ((s.setIncidentOfficerId a v).incidentAt b).OfficerId =
      if b = a then v else (s.incidentAt b).OfficerId := by
  rw [setIncidentOfficerId_incidentAt]; split <;> simp_all

@[simp] theorem newOfficer_officers (id : Int) (badge : String) :
    (s.newOfficer id badge).officers = s.officers := rfl
@[simp] theorem newOfficer_incidents (id : Int) (badge : String) :
    (s.newOfficer id badge).incidents = s.incidents := rfl
@[simp] theorem newOfficer_incidentAt (id : Int) (badge : String) :
    (s.newOfficer id badge).incidentAt = s.incidentAt := rfl
@[simp] theorem newOfficer_nextOfficer (id : Int) (badge : String) :
    (s.newOfficer id badge).nextOfficer = s.nextOfficer + 1 := rfl
@[simp] theorem newOfficer_nextIncident (id : Int) (badge : String) :
    (s.newOfficer id badge).nextIncident = s.nextIncident := rfl
theorem newOfficer_officerAt (id : Int) (badge : String) :
    (s.newOfficer id badge).officerAt b =
      if b = s.nextOfficer then ⟨id, badge, ⟨0, 0⟩, none⟩ else s.officerAt b := by
  simp only [Store.newOfficer, Function.update_apply]

@[simp] theorem newIncident_officers (id : Int) (code : String) (loc : Location) :
    (s.newIncident id code loc).officers = s.officers := rfl
@[simp] theorem newIncident_incidents (id : Int) (code : String) (loc : Location) :
    (s.newIncident id code loc).incidents = s.incidents := rfl
@[simp] theorem newIncident_officerAt (id : Int) (code : String) (loc : Location) :
    (s.newIncident id code loc).officerAt = s.officerAt := rfl
@[simp] theorem newIncident_nextOfficer (id : Int) (code : String) (loc : Location) :
    (s.newIncident id code loc).nextOfficer = s.nextOfficer := rfl
@[simp] theorem newIncident_nextIncident (id : Int) (code : String) (loc : Location) :
    (s.newIncident id code loc).nextIncident = s.nextIncident + 1 := rfl
theorem newIncident_incidentAt (id : Int) (code : String) (loc : Location) :
    (s.newIncident id code loc).incidentAt b =
      if b = s.nextIncident then ⟨id, code, loc, 0, none⟩ else s.incidentAt b := by
  simp only [Store.newIncident, Function.update_apply]

@[simp] theorem assign_officers : (assignOfficerToIncident s a b).officers = s.officers := rfl
@[simp] theorem assign_incidents : (assignOfficerToIncident s a b).incidents = s.incidents := rfl
@[simp] theorem assign_nextOfficer :
    (assignOfficerToIncident s a b).nextOfficer = s.nextOfficer := rfl
@[simp] theorem assign_nextIncident :
    (assignOfficerToIncident s a b).nextIncident = s.nextIncident := rfl
@[simp] theorem assign_officerAt_ID (c : Nat) :
    ((assignOfficerToIncident s a b).officerAt c).ID = (s.officerAt c).ID := by
  simp [assignOfficerToIncident]
@[simp] theorem assign_officerAt_BadgeName (c : Nat) :
    ((assignOfficerToIncident s a b).officerAt c).BadgeName = (s.officerAt c).BadgeName := by
  simp [assignOfficerToIncident]
@[simp] theorem assign_officerAt_Loc (c : Nat) :
    ((assignOfficerToIncident s a b).officerAt c).Loc = (s.officerAt c).Loc := by
  simp [assignOfficerToIncident]
@[simp] theorem assign_officerAt_Incident (c : Nat) :
    ((assignOfficerToIncident s a b).officerAt c).Incident =
      if c = b then some a else (s.officerAt c).Incident := by
  simp [assignOfficerToIncident]
@[simp] theorem assign_incidentAt_ID (c : Nat) :
    ((assignOfficerToIncident s a b).incidentAt c).ID = (s.incidentAt c).ID := by
  simp [assignOfficerToIncident]
@[simp] theorem assign_incidentAt_CodeName (c : Nat) :
    ((assignOfficerToIncident s a b).incidentAt c).CodeName = (s.incidentAt c).CodeName := by
  simp [assignOfficerToIncident]
@[simp] theorem assign_incidentAt_Loc (c : Nat) :
    ((assignOfficerToIncident s a b).incidentAt c).Loc = (s.incidentAt c).Loc := by
  simp [assignOfficerToIncident]
@[simp] theorem assign_incidentAt_Officer (c : Nat) :
    ((assignOfficerToIncident s a b).incidentAt c).Officer =
      if c = a then some b else (s.incidentAt c).Officer := by
  simp [assignOfficerToIncident]
@[simp] theorem assign_incidentAt_OfficerId (c : Nat) :
    ((assignOfficerToIncident s a b).incidentAt c).OfficerId =
      if c = a then (s.officerAt b).ID else (s.incidentAt c).OfficerId := by
  simp [assignOfficerToIncident]

end frame

theorem findOfficer_none {s : Store} {id : Int} (h : findOfficer s id = none) :
    id ∉ s.officerIDs := by
  unfold findOfficer at h
  rw [List.find?_eq_none] at h
  intro hmem
  obtain ⟨o, ho, rfl⟩ := List.mem_map.mp hmem
  exact h o ho (by simp)

theorem runEvents_reachable {s : Store} (hs : Reachable s) :
    ∀ (ds : List (Option Event)) {s1 : Store}, runEvents s ds = some s1 → Reachable s1 := by
  intro ds
  induction ds generalizing s with
  | nil => intro s1 h; simp [runEvents] at h; subst h; exact hs
  | cons d ds ih =>
    intro s1 h
    simp only [runEvents] at h
    cases hd : processIncidentRaw s d with
    | none => rw [hd] at h; simp at h
    | some s2 =>
      rw [hd] at h
      exact ih (Reachable.step d hs hd) h

/-! ## Officer ids stay pairwise distinct -/

theorem officerFrame_refl (s : Store) : OfficerFrame s s :=
  ⟨fun _ => rfl, rfl, List.Sublist.refl _⟩

theorem officerFrame_trans {s s1 s2 : Store} (h1 : OfficerFrame s s1) (h2 : OfficerFrame s1 s2) :
    OfficerFrame s s2 :=
  ⟨fun a => (h2.ids a).trans (h1.ids a), h2.next.trans h1.next, h2.sub.trans h1.sub⟩

theorem officerFrame_ok {s s1 : Store} (h : OfficerFrame s s1) (hs : OfficersOK s) :
    OfficersOK s1 := by
  refine ⟨fun o ho => ?_, ?_⟩
  · rw [h.next]; exact hs.fresh o (h.sub.subset ho)
  · have : s1.officerIDs = s1.officers.map (fun o => (s.officerAt o).ID) := by
      unfold Store.officerIDs
      exact List.map_congr_left (fun o _ => h.ids o)
    rw [this]
    exact hs.nodup.sublist (h.sub.map _)

theorem frame_assign (s : Store) (i o : Nat) : OfficerFrame s (assignOfficerToIncident s i o) :=
  ⟨fun a => assign_officerAt_ID s i o a, rfl, List.Sublist.refl _⟩

theorem frame_removeOfficer {s s1 : Store} {id : Int} (h : removeOfficer s id = some s1) :
    OfficerFrame s s1 := by
  unfold removeOfficer at h
  split at h
  · simp at h
  · simp only [Option.some.injEq] at h
    subst h
    exact ⟨fun _ => rfl, rfl, List.filter_sublist _⟩

theorem frame_removeIncident {s s1 : Store} {i : Nat} (h : removeIncident s i = some s1) :
    OfficerFrame s s1 := by
  unfold removeIncident at h
  split at h
  · simp at h
  · simp only [Option.some.injEq] at h
    subst h
    exact ⟨fun _ => rfl, rfl, List.Sublist.refl _⟩

theorem frame_matchIncident (s : Store) (id : Int) (code : String) (loc : Location) :
    OfficerFrame s (matchIncident s id code loc) := by
  unfold matchIncident
  simp only []
  split
  · exact ⟨fun _ => rfl, rfl, List.Sublist.refl _⟩
  · exact ⟨fun a => by simp, rfl, List.Sublist.refl _⟩

theorem frame_processIncidentOccurred (s : Store) (event : Event) :
    OfficerFrame s (processIncidentOccurred s event) := by
  unfold processIncidentOccurred
  split
  · exact officerFrame_refl s
  · have h := frame_matchIncident s ‹_› ‹_› ‹_›
    exact ⟨h.ids, h.next, h.sub⟩

theorem frame_processIncidentResolved {s s1 : Store} {event : Event}
    (h : processIncidentResolved s event = some s1) : OfficerFrame s s1 := by
  unfold processIncidentResolved at h
  simp only [Option.bind_eq_bind, Option.bind_eq_some] at h
  obtain ⟨n, -, incident, -, officer, -, h⟩ := h
  refine officerFrame_trans ?_ (frame_removeIncident h)
  exact ⟨fun a => by simp, rfl, List.Sublist.refl _⟩

theorem frame_processLocationUpdated {s s1 : Store} {event : Event}
    (h : processLocationUpdated s event = some s1) : OfficerFrame s s1 := by
  unfold processLocationUpdated at h
  simp only [Option.bind_eq_bind, Option.bind_eq_some, Option.some.injEq] at h
  obtain ⟨n, -, locMap, -, x, -, officer, -, y, -, h⟩ := h
  subst h
  exact ⟨fun a => by simp, rfl, List.Sublist.refl _⟩

theorem frame_processOfficerGoesOffline {s s1 : Store} {event : Event}
    (h : processOfficerGoesOffline s event = some s1) : OfficerFrame s s1 := by
  unfold processOfficerGoesOffline at h
  simp only [Option.bind_eq_bind, Option.bind_eq_some] at h
  obtain ⟨n, -, h⟩ := h
  split at h
  · simp only [Option.some.injEq] at h; subst h; exact officerFrame_refl s
  · split at h
    · exact frame_removeOfficer h
    · refine officerFrame_trans ?_ (frame_removeOfficer h)
      exact ⟨fun a => by simp, rfl, List.Sublist.refl _⟩

theorem ok_onlineOfficer {s s1 : Store} {event : Event} {officer : Nat} (hs : OfficersOK s)
    (h : onlineOfficer s event = some (s1, officer)) : OfficersOK s1 := by
  unfold onlineOfficer at h
  simp only [Option.bind_eq_bind, Option.bind_eq_some] at h
  obtain ⟨n, -, h⟩ := h
  split at h
  · simp only [Option.some.injEq, Prod.mk.injEq] at h
    obtain ⟨rfl, -⟩ := h
    exact hs
  · rename_i hfind
    simp only [Option.bind_eq_some, Option.some.injEq, Prod.mk.injEq] at h
    obtain ⟨badge, -, rfl, -⟩ := h
    have hnew : s.nextOfficer ∉ s.officers := fun hm => Nat.lt_irrefl _ (hs.fresh _ hm)
    refine ⟨fun o ho => ?_, ?_⟩
    · simp only [newOfficer_officers, List.mem_append, List.mem_singleton] at ho
      rcases ho with ho | rfl
      · exact Nat.lt_succ_of_lt (hs.fresh o ho)
      · exact Nat.lt_succ_self _
    · have hold : (s.officers.map fun o => ((s.newOfficer (toInt n) badge).officerAt o).ID)
          = s.officerIDs := by
        unfold Store.officerIDs
        refine List.map_congr_left (fun o ho => ?_)
        rw [newOfficer_officerAt, if_neg (fun (e : o = s.nextOfficer) => hnew (e ▸ ho))]
      simp only [Store.officerIDs, newOfficer_officers, List.map_append, List.map_cons,
        List.map_nil]
      rw [hold, newOfficer_officerAt, if_pos rfl]
      exact List.Nodup.append hs.nodup (List.nodup_singleton _)
        (List.disjoint_singleton.mpr (findOfficer_none hfind))

theorem ok_processOfficerGoesOnline {s s1 : Store} {event : Event} (hs : OfficersOK s)
    (h : processOfficerGoesOnline s event = some s1) : OfficersOK s1 := by
  unfold processOfficerGoesOnline at h
  simp only [Option.bind_eq_bind, Option.bind_eq_some] at h
  obtain ⟨⟨s2, officer⟩, hup, h⟩ := h
  have h2 := ok_onlineOfficer hs hup
  simp only [] at h
  split at h
  · simp only [Option.some.injEq] at h; subst h; exact h2
  · simp only [Option.some.injEq] at h; subst h
    exact officerFrame_ok (frame_assign s2 _ officer) h2

theorem ok_processIncidentRaw {s s1 : Store} {d : Option Event} (hs : OfficersOK s)
    (h : processIncidentRaw s d = some s1) : OfficersOK s1 := by
  unfold processIncidentRaw at h
  split at h
  · simp only [Option.some.injEq] at h; subst h; exact hs
  · simp only [] at h
    split_ifs at h
    · simp only [Option.some.injEq] at h; subst h
      exact officerFrame_ok (frame_processIncidentOccurred s _) hs
    · exact officerFrame_ok (frame_processIncidentResolved h) hs
    · exact ok_processOfficerGoesOnline hs h
    · exact officerFrame_ok (frame_processLocationUpdated h) hs
    · exact officerFrame_ok (frame_processOfficerGoesOffline h) hs
    · simp only [Option.some.injEq] at h; subst h; exact hs

theorem reachable_officersOK {s : Store} (h : Reachable s) : OfficersOK s := by
  induction h with
  | init => exact ⟨fun o ho => by simp [emptyStore] at ho, by simp [Store.officerIDs, emptyStore]⟩
  | step d _ hstep ih => exact ok_processIncidentRaw ih hstep

/-! ## Incident ids -/

theorem incidentFrame_refl (s : Store) : IncidentFrame s s :=
  ⟨fun _ => rfl, rfl, List.Sublist.refl _⟩

theorem incidentFrame_trans {s s1 s2 : Store} (h1 : IncidentFrame s s1)
    (h2 : IncidentFrame s1 s2) : IncidentFrame s s2 :=
  ⟨fun a => (h2.ids a).trans (h1.ids a), h2.next.trans h1.next, h2.sub.trans h1.sub⟩

theorem incidentFrame_ok {s s1 : Store} (h : IncidentFrame s s1) (hs : IncidentsOK s) :
    IncidentsOK s1 := by
  refine ⟨fun i hi => ?_, ?_⟩
  · rw [h.next]; exact hs.fresh i (h.sub.subset hi)
  · have : s1.incidentIDs = s1.incidents.map (fun i => (s.incidentAt i).ID) := by
      unfold Store.incidentIDs
      exact List.map_congr_left (fun i _ => h.ids i)
    rw [this]
    exact hs.nodup.sublist (h.sub.map _)

theorem iframe_removeOfficer {s s1 : Store} {id : Int} (h : removeOfficer s id = some s1) :
    IncidentFrame s s1 := by
  unfold removeOfficer at h
  split at h
  · simp at h
  · simp only [Option.some.injEq] at h
    subst h
    exact ⟨fun _ => rfl, rfl, List.Sublist.refl _⟩

theorem iframe_removeIncident {s s1 : Store} {i : Nat} (h : removeIncident s i = some s1) :
    IncidentFrame s s1 := by
  unfold removeIncident at h
  split at h
  · simp at h
  · simp only [Option.some.injEq] at h
    subst h
    exact ⟨fun _ => rfl, rfl, List.filter_sublist _⟩

theorem iframe_processIncidentResolved {s s1 : Store} {event : Event}
    (h : processIncidentResolved s event = some s1) : IncidentFrame s s1 := by
  unfold processIncidentResolved at h
  simp only [Option.bind_eq_bind, Option.bind_eq_some] at h
  obtain ⟨n, -, incident, -, officer, -, h⟩ := h
  refine incidentFrame_trans ?_ (iframe_removeIncident h)
  exact ⟨fun a => by simp, rfl, List.Sublist.refl _⟩

theorem iframe_processLocationUpdated {s s1 : Store} {event : Event}
    (h : processLocationUpdated s event = some s1) : IncidentFrame s s1 := by
  unfold processLocationUpdated at h
  simp only [Option.bind_eq_bind, Option.bind_eq_some, Option.some.injEq] at h
  obtain ⟨n, -, locMap, -, x, -, officer, -, y, -, h⟩ := h
  subst h
  exact ⟨fun a => by simp, rfl, List.Sublist.refl _⟩

theorem iframe_processOfficerGoesOffline {s s1 : Store} {event : Event}
    (h : processOfficerGoesOffline s event = some s1) : IncidentFrame s s1 := by
  unfold processOfficerGoesOffline at h
  simp only [Option.bind_eq_bind, Option.bind_eq_some] at h
  obtain ⟨n, -, h⟩ := h
  split at h
  · simp only [Option.some.injEq] at h; subst h; exact incidentFrame_refl s
  · split at h
    · exact iframe_removeOfficer h
    · refine incidentFrame_trans ?_ (iframe_removeOfficer h)
      exact ⟨fun a => by simp, rfl, List.Sublist.refl _⟩

theorem iframe_onlineOfficer {s s1 : Store} {event : Event} {officer : Nat}
    (h : onlineOfficer s event = some (s1, officer)) : IncidentFrame s s1 := by
  unfold onlineOfficer at h
  simp only [Option.bind_eq_bind, Option.bind_eq_some] at h
  obtain ⟨n, -, h⟩ := h
  split at h
  · simp only [Option.some.injEq, Prod.mk.injEq] at h
    obtain ⟨rfl, -⟩ := h
    exact incidentFrame_refl s
  · simp only [Option.bind_eq_some, Option.some.injEq, Prod.mk.injEq] at h
    obtain ⟨badge, -, rfl, -⟩ := h
    exact ⟨fun _ => rfl, rfl, List.Sublist.refl _⟩

theorem iframe_processOfficerGoesOnline {s s1 : Store} {event : Event}
    (h : processOfficerGoesOnline s event = some s1) : IncidentFrame s s1 := by
  unfold processOfficerGoesOnline at h
  simp only [Option.bind_eq_bind, Option.bind_eq_some] at h
  obtain ⟨⟨s2, officer⟩, hup, h⟩ := h
  have h2 := iframe_onlineOfficer hup
  simp only [] at h
  split at h
  · simp only [Option.some.injEq] at h; subst h; exact h2
  · simp only [Option.some.injEq] at h; subst h
    exact incidentFrame_trans h2 ⟨fun a => by simp, rfl, List.Sublist.refl _⟩

theorem matchIncident_incidents (s : Store) (id : Int) (code : String) (loc : Location) :
    (matchIncident s id code loc).incidents = s.incidents := by
  unfold matchIncident
  simp only []
  split <;> simp

theorem matchIncident_nextIncident (s : Store) (id : Int) (code : String) (loc : Location) :
    (matchIncident s id code loc).nextIncident = s.nextIncident + 1 := by
  unfold matchIncident
  simp only []
  split <;> simp

theorem matchIncident_ID (s : Store) (id : Int) (code : String) (loc : Location) (a : Nat) :
    ((matchIncident s id code loc).incidentAt a).ID =
      if a = s.nextIncident then id else (s.incidentAt a).ID := by
  unfold matchIncident
  simp only []
  split <;> simp [newIncident_incidentAt] <;> split <;> rfl

/-- The ids after an `IncidentOccurred` that decodes: the old ids followed by the new one,
whether or not that id is already present. -/
theorem processIncidentOccurred_incidentIDs {s : Store} {event : Event} {id : Int}
    {code : String} {loc : Location} (hs : ∀ i ∈ s.incidents, i < s.nextIncident)
    (hd : decodeIncidentOccurred event = some (id, code, loc)) :
    (processIncidentOccurred s event).incidentIDs = s.incidentIDs ++ [id] := by
  unfold processIncidentOccurred
  rw [hd]
  simp only [Store.incidentIDs, matchIncident_incidents, List.map_append, List.map_cons,
    List.map_nil, matchIncident_ID, if_true]
  congr 1
  refine List.map_congr_left (fun i hi => ?_)
  rw [if_neg (Nat.ne_of_lt (hs i hi))]

theorem processIncidentOccurred_fresh {s : Store} (event : Event)
    (hs : ∀ i ∈ s.incidents, i < s.nextIncident) :
    ∀ i ∈ (processIncidentOccurred s event).incidents,
      i < (processIncidentOccurred s event).nextIncident := by
  unfold processIncidentOccurred
  split
  · exact hs
  · intro i hi
    simp only [matchIncident_incidents, matchIncident_nextIncident, List.mem_append,
      List.mem_singleton] at hi ⊢
    rcases hi with hi | rfl
    · exact Nat.lt_succ_of_lt (hs i hi)
    · exact Nat.lt_succ_self _

theorem iok_processIncidentRaw {s s1 : Store} {d : Option Event} (hs : IncidentsOK s)
    (hd : reusesIncidentID s d = false) (h : processIncidentRaw s d = some s1) :
    IncidentsOK s1 := by
  unfold processIncidentRaw at h
  split at h
  · simp only [Option.some.injEq] at h; subst h; exact hs
  · rename_i event
    simp only [] at h
    split_ifs at h with h1 h2 h3 h4 h5
    · simp only [Option.some.injEq] at h; subst h
      refine ⟨processIncidentOccurred_fresh event hs.fresh, ?_⟩
      cases hdec : decodeIncidentOccurred event with
      | none =>
        unfold processIncidentOccurred
        rw [hdec]
        exact hs.nodup
      | some r =>
        obtain ⟨id, code, loc⟩ := r
        rw [processIncidentOccurred_incidentIDs hs.fresh hdec]
        simp only [reusesIncidentID, h1, hdec, decide_True, Bool.true_and,
          decide_eq_false_iff_not] at hd
        exact List.Nodup.append hs.nodup (List.nodup_singleton _)
          (List.disjoint_singleton.mpr hd)
    · exact incidentFrame_ok (iframe_processIncidentResolved h) hs
    · exact incidentFrame_ok (iframe_processOfficerGoesOnline h) hs
    · exact incidentFrame_ok (iframe_processLocationUpdated h) hs
    · exact incidentFrame_ok (iframe_processOfficerGoesOffline h) hs
    · simp only [Option.some.injEq] at h; subst h; exact hs

theorem reachableFreshIDs_ok {s : Store} (h : ReachableFreshIDs s) : IncidentsOK s := by
  induction h with
  | init =>
    exact ⟨fun i hi => by simp [emptyStore] at hi, by simp [Store.incidentIDs, emptyStore]⟩
  | step d _ hd hstep ih => exact iok_processIncidentRaw ih hd hstep

/-! ## The float64 square root orders small squared distances exactly -/


theorem bitLen_spec : ∀ (fuel n : Nat), n < 2 ^ fuel → 0 < n →
    0 < bitLen fuel n ∧ 2 ^ (bitLen fuel n - 1) ≤ n ∧ n < 2 ^ bitLen fuel n := by
  intro fuel
  induction fuel with
  | zero => intro n h h0; simp at h; omega
  | succ f ih =>
    intro n h h0
    have hn : n ≠ 0 := Nat.pos_iff_ne_zero.mp h0
    simp only [bitLen, if_neg hn]
    have hhalf : n / 2 < 2 ^ f := by
      rw [pow_succ] at h
      omega
    by_cases h2 : n / 2 = 0
    · have h1 : n = 1 := by omega
      subst h1
      have : bitLen f (1 / 2) = 0 := by cases f <;> simp [bitLen]
      rw [this]
      simp
    · obtain ⟨hpos, hlo, hhi⟩ := ih (n / 2) hhalf (Nat.pos_of_ne_zero h2)
      refine ⟨Nat.succ_pos _, ?_, ?_⟩
      · have e : bitLen f (n / 2) + 1 - 1 = (bitLen f (n / 2) - 1) + 1 := by omega
        rw [e, pow_succ]
        omega
      · rw [pow_succ]
        omega

theorem bitLen_zero (fuel : Nat) : bitLen fuel 0 = 0 := by
  cases fuel <;> simp [bitLen]

theorem isqrtAux_spec (t : Nat) : ∀ (b r : Nat), r * r ≤ t → t < (r + 2 ^ b) * (r + 2 ^ b) →
    isqrtAux t b r * isqrtAux t b r ≤ t ∧ t < (isqrtAux t b r + 1) * (isqrtAux t b r + 1) := by
  intro b
  induction b with
  | zero => intro r h1 h2; simpa [isqrtAux] using ⟨h1, h2⟩
  | succ b ih =>
    intro r h1 h2
    simp only [isqrtAux]
    split
    · rename_i hc
      refine ih _ hc ?_
      have : r + 2 ^ b + 2 ^ b = r + 2 ^ (b + 1) := by rw [pow_succ]; omega
      rw [this]; exact h2
    · rename_i hc
      exact ih _ h1 (Nat.lt_of_not_le hc)

theorem isqrt_spec (t : Nat) (h : t < 2 ^ 108) :
    isqrt t * isqrt t ≤ t ∧ t < (isqrt t + 1) * (isqrt t + 1) := by
  unfold isqrt
  refine isqrtAux_spec t 54 0 (by simp) ?_
  have : (0 + 2 ^ 54) * (0 + 2 ^ 54) = 2 ^ 108 := by norm_num
  rw [this]; exact h

theorem roundSqrt_spec (t : Nat) (h : t < 2 ^ 108) :
    roundSqrt t * roundSqrt t ≤ t + roundSqrt t ∧ t ≤ roundSqrt t * roundSqrt t + roundSqrt t := by
  obtain ⟨h1, h2⟩ := isqrt_spec t h
  unfold roundSqrt
  simp only []
  split
  · rename_i hc
    constructor
    · have : (isqrt t + 1) * (isqrt t + 1) = isqrt t * isqrt t + isqrt t + (isqrt t + 1) := by ring
      omega
    · omega
  · rename_i hc
    constructor <;> omega

theorem roundSqrt_lt_of_gap {t1 t2 g : Nat} (h2 : t2 < 2 ^ 108) (hg : t1 + g ≤ t2)
    (hr : 2 * roundSqrt t1 < g) : roundSqrt t1 < roundSqrt t2 := by
  by_contra hcon
  have hle : roundSqrt t2 ≤ roundSqrt t1 := Nat.le_of_not_lt hcon
  have h1 : t1 < 2 ^ 108 := by omega
  have a1 := (roundSqrt_spec t1 h1).1
  have a2 := (roundSqrt_spec t2 h2).2
  have : roundSqrt t2 * roundSqrt t2 ≤ roundSqrt t1 * roundSqrt t1 := Nat.mul_le_mul hle hle
  omega

theorem roundSqrt_lt_two_pow {t : Nat} (h : t + 2 ^ 54 ≤ 2 ^ 106) : roundSqrt t < 2 ^ 53 := by
  by_contra hcon
  have hle : 2 ^ 53 ≤ roundSqrt t := Nat.le_of_not_lt hcon
  have a1 := (roundSqrt_spec t (by omega)).1
  have : 2 ^ 53 * roundSqrt t ≤ roundSqrt t * roundSqrt t := Nat.mul_le_mul_right _ hle
  omega

theorem roundSqrt_ge_two_pow {t : Nat} (h1 : 2 ^ 104 ≤ t) (h2 : t < 2 ^ 108) :
    2 ^ 52 ≤ roundSqrt t := by
  by_contra hcon
  have hle : roundSqrt t ≤ 2 ^ 52 - 1 := by omega
  have a2 := (roundSqrt_spec t h2).2
  have b1 : roundSqrt t * roundSqrt t ≤ (2 ^ 52 - 1) * roundSqrt t := Nat.mul_le_mul_right _ hle
  have b2 : (2 ^ 52 - 1) * roundSqrt t ≤ (2 ^ 52 - 1) * (2 ^ 52 - 1) := Nat.mul_le_mul_left _ hle
  norm_num at b1 b2 hle h1
  omega


theorem four_pow (e : Nat) : 4 ^ e = 2 ^ (2 * e) := by
  rw [pow_mul]; norm_num

theorem sqrtExp_spec {m : Nat} (h0 : 0 < m) (h : m < 2 ^ 52) :
    (bitLen 64 m - 1) / 2 ≤ 25 ∧ 4 ^ ((bitLen 64 m - 1) / 2) ≤ m ∧
      m < 4 ^ ((bitLen 64 m - 1) / 2 + 1) := by
  obtain ⟨hpos, hlo, hhi⟩ := bitLen_spec 64 m (by omega) h0
  generalize bitLen 64 m = L at hpos hlo hhi
  have hL : L - 1 < 52 := (Nat.pow_lt_pow_iff_right (by norm_num)).mp (Nat.lt_of_le_of_lt hlo h)
  refine ⟨by omega, ?_, ?_⟩
  · rw [four_pow]
    exact Nat.le_trans (Nat.pow_le_pow_right (by norm_num) (by omega)) hlo
  · rw [four_pow]
    exact Nat.lt_of_lt_of_le hhi (Nat.pow_le_pow_right (by norm_num) (by omega))

/-- For `0 < m < 2^52` the scaled radicand of `sqrtUnits` lies in `[2^104, 2^106 - 2^54]`. -/
theorem radicand_bounds {m e : Nat} (he : e ≤ 25) (hlo : 4 ^ e ≤ m) (hhi : m < 4 ^ (e + 1)) :
    2 ^ 104 ≤ m * 4 ^ (52 - e) ∧ m * 4 ^ (52 - e) + 4 ^ (52 - e) ≤ 2 ^ 106 ∧
      2 ^ 54 ≤ 4 ^ (52 - e) := by
  have e1 : 4 ^ e * 4 ^ (52 - e) = 2 ^ 104 := by
    rw [← pow_add, four_pow]; congr 1; omega
  have e2 : 4 ^ (e + 1) * 4 ^ (52 - e) = 2 ^ 106 := by
    rw [← pow_add, four_pow]; congr 1; omega
  refine ⟨?_, ?_, ?_⟩
  · rw [← e1]; exact Nat.mul_le_mul_right _ hlo
  · rw [← e2]
    have : (m + 1) * 4 ^ (52 - e) ≤ 4 ^ (e + 1) * 4 ^ (52 - e) := Nat.mul_le_mul_right _ hhi
    rw [Nat.add_mul, Nat.one_mul] at this
    exact this
  · rw [four_pow]; exact Nat.pow_le_pow_right (by norm_num) (by omega)

theorem sqrtUnits_zero : sqrtUnits 0 = 0 := by decide

theorem sqrtUnits_strictMono {n m : Nat} (hnm : n < m) (hm : m < 2 ^ 52) :
    sqrtUnits n < sqrtUnits m := by
  have hm0 : 0 < m := by omega
  obtain ⟨hem, hlom, hhim⟩ := sqrtExp_spec hm0 hm
  obtain ⟨bm1, bm2, bm3⟩ := radicand_bounds hem hlom hhim
  have hrm : 2 ^ 52 ≤ roundSqrt (m * 4 ^ (52 - (bitLen 64 m - 1) / 2)) :=
    roundSqrt_ge_two_pow bm1 (by omega)
  by_cases hn0 : n = 0
  · subst hn0
    rw [sqrtUnits_zero]
    unfold sqrtUnits
    simp only []
    exact Nat.mul_pos (by omega) (Nat.pow_pos (by norm_num))
  · have hn0' : 0 < n := Nat.pos_of_ne_zero hn0
    obtain ⟨hen, hlon, hhin⟩ := sqrtExp_spec hn0' (by omega)
    obtain ⟨bn1, bn2, bn3⟩ := radicand_bounds hen hlon hhin
    have hrn : roundSqrt (n * 4 ^ (52 - (bitLen 64 n - 1) / 2)) < 2 ^ 53 :=
      roundSqrt_lt_two_pow (by omega)
    unfold sqrtUnits
    simp only []
    generalize (bitLen 64 n - 1) / 2 = en at *
    generalize (bitLen 64 m - 1) / 2 = em at *
    have hle : en < em + 1 :=
      (Nat.pow_lt_pow_iff_right (by norm_num : 1 < 4)).mp
        (Nat.lt_of_le_of_lt hlon (Nat.lt_trans hnm hhim))
    by_cases heq : en = em
    · subst heq
      have hgap : n * 4 ^ (52 - en) + 4 ^ (52 - en) ≤ m * 4 ^ (52 - en) := by
        have : (n + 1) * 4 ^ (52 - en) ≤ m * 4 ^ (52 - en) := Nat.mul_le_mul_right _ hnm
        rw [Nat.add_mul, Nat.one_mul] at this
        exact this
      have := roundSqrt_lt_of_gap (by omega) hgap (by omega)
      exact Nat.mul_lt_mul_of_pos_right this (Nat.pow_pos (by norm_num))
    · have hlt : en + 1 ≤ em := by omega
      calc roundSqrt (n * 4 ^ (52 - en)) * 2 ^ en
          < 2 ^ 53 * 2 ^ en := Nat.mul_lt_mul_of_pos_right hrn (Nat.pow_pos (by norm_num))
        _ = 2 ^ 52 * 2 ^ (en + 1) := by rw [pow_succ]; ring
        _ ≤ 2 ^ 52 * 2 ^ em :=
          Nat.mul_le_mul_left _ (Nat.pow_le_pow_right (by norm_num) hlt)
        _ ≤ roundSqrt (m * 4 ^ (52 - em)) * 2 ^ em := Nat.mul_le_mul_right _ hrm

theorem sqrtUnits_lt_iff {n m : Nat} (hn : n < 2 ^ 52) (hm : m < 2 ^ 52) :
    sqrtUnits n < sqrtUnits m ↔ n < m := by
  constructor
  · intro h
    by_contra hcon
    rcases Nat.eq_or_lt_of_le (Nat.le_of_not_lt hcon) with heq | hlt
    · subst heq; exact Nat.lt_irrefl _ h
    · exact Nat.lt_asymm h (sqrtUnits_strictMono hlt hn)
  · intro h; exact sqrtUnits_strictMono h hm

theorem toFloat64_exact {m : Nat} (hm : m < 2 ^ 52) : toFloat64 m = m := by
  unfold toFloat64
  simp only []
  by_cases h0 : m = 0
  · subst h0; simp [bitLen_zero]
  · obtain ⟨_, hlo, _⟩ := bitLen_spec 64 m (by omega) (Nat.pos_of_ne_zero h0)
    have hL : bitLen 64 m - 1 < 52 :=
      (Nat.pow_lt_pow_iff_right (by norm_num)).mp (Nat.lt_of_le_of_lt hlo hm)
    rw [if_pos (by omega)]


theorem wrap64_id {z : Int} (h1 : -2 ^ 63 ≤ z) (h2 : z < 2 ^ 63) : wrap64 z = z := by
  unfold wrap64
  rw [Int.emod_eq_of_lt (by omega) (by omega)]
  omega

theorem coord_bound {a c : Int} (hc : 0 ≤ c) (h : a ^ 2 + c < 2 ^ 52) :
    -2 ^ 26 < a ∧ a < 2 ^ 26 := by
  have h1 : a ^ 2 < (2 ^ 26 : Int) ^ 2 := by norm_num; omega
  exact abs_lt.mp (abs_lt_of_sq_lt_sq h1 (by norm_num))

theorem distance_exact {p q : Location} (h : sqDist p q < 2 ^ 52) :
    distance p q = .fin (sqrtUnits (sqDist p q).toNat) := by
  unfold sqDist at h
  have hx2 : 0 ≤ (p.X - q.X) ^ 2 := sq_nonneg _
  have hy2 : 0 ≤ (p.Y - q.Y) ^ 2 := sq_nonneg _
  obtain ⟨hx1, hx3⟩ := coord_bound hy2 h
  obtain ⟨hy1, hy3⟩ := coord_bound hx2 (by rw [add_comm]; exact h)
  unfold distance
  simp only []
  rw [wrap64_id (z := p.X - q.X) (by omega) (by omega),
    wrap64_id (z := p.Y - q.Y) (by omega) (by omega)]
  have ex : (p.X - q.X) * (p.X - q.X) = (p.X - q.X) ^ 2 := by ring
  have ey : (p.Y - q.Y) * (p.Y - q.Y) = (p.Y - q.Y) ^ 2 := by ring
  rw [ex, ey, wrap64_id (z := (p.X - q.X) ^ 2) (by omega) (by omega),
    wrap64_id (z := (p.Y - q.Y) ^ 2) (by omega) (by omega),
    wrap64_id (z := (p.X - q.X) ^ 2 + (p.Y - q.Y) ^ 2) (by omega) (by omega)]
  unfold sqrtFloat64 sqDist
  rw [if_neg (by omega), toFloat64_exact (by omega)]

theorem distance_lt_iff {p q1 q2 : Location} (h1 : sqDist p q1 < 2 ^ 52)
    (h2 : sqDist p q2 < 2 ^ 52) :
    (distance p q1).lt (distance p q2) = true ↔ sqDist p q1 < sqDist p q2 := by
  have n1 : 0 ≤ sqDist p q1 := add_nonneg (sq_nonneg _) (sq_nonneg _)
  have n2 : 0 ≤ sqDist p q2 := add_nonneg (sq_nonneg _) (sq_nonneg _)
  rw [distance_exact h1, distance_exact h2]
  simp only [F64.lt, decide_eq_true_eq]
  rw [sqrtUnits_lt_iff (by omega) (by omega)]
  omega

theorem distance_le_iff {p q1 q2 : Location} (h1 : sqDist p q1 < 2 ^ 52)
    (h2 : sqDist p q2 < 2 ^ 52) :
    (distance p q1).le (distance p q2) = true ↔ sqDist p q1 ≤ sqDist p q2 := by
  have n1 : 0 ≤ sqDist p q1 := add_nonneg (sq_nonneg _) (sq_nonneg _)
  have n2 : 0 ≤ sqDist p q2 := add_nonneg (sq_nonneg _) (sq_nonneg _)
  rw [distance_exact h1, distance_exact h2]
  simp only [F64.le, decide_eq_true_eq]
  rw [← not_lt, sqrtUnits_lt_iff (by omega) (by omega)]
  omega

/-! ## The loop of `nearestAvailableOfficer` -/


theorem F64.lt_irrefl (a : F64) : a.lt a = false := by
  cases a <;> simp [F64.lt]

theorem F64.le_false_of_lt {a b : F64} (h : a.lt b = true) : b.le a = false := by
  cases a <;> cases b <;> simp_all [F64.lt, F64.le]

theorem F64.lt_false_of_le_false {a b : F64} (h : a.le b = false) : a.lt b = false := by
  cases a <;> cases b <;> simp_all [F64.lt, F64.le]
  omega

theorem F64.le_false_of_le_false {a b c : F64} (h : a.lt b = true) (hc : c.le b = false) :
    c.le a = false := by
  cases a <;> cases b <;> cases c <;> simp_all [F64.lt, F64.le]
  omega

theorem F64.le_false_of_lt_false {a b c : F64} (h : a.lt b = true) (hc : c.lt b = false) :
    c.le a = false := by
  cases a <;> cases b <;> cases c <;> simp_all [F64.lt, F64.le]
  omega

theorem F64.le_of_lt_false {a b c : F64} (hab : a.le b = true) (hc : a.lt c = false)
    (hcc : a.le c = true) : c.le b = true := by
  cases a <;> cases b <;> cases c <;> simp_all [F64.lt, F64.le]
  omega

theorem nearestStep_earliest (s : Store) (loc : Location) (seen : List Nat) (res : Option Nat)
    (x : Nat) (h : Earliest s loc seen res) :
    Earliest s loc (seen ++ [x]) (nearestStep s loc res x) := by
  unfold nearestStep
  by_cases hx : (s.officerAt x).Incident = none
  · rw [hx]
    simp only [Option.isNone_none, if_true]
    cases res with
    | none =>
      refine ⟨hx, seen, [], rfl, ?_, by simp⟩
      intro o ho hav
      exact absurd hav (h o ho)
    | some r =>
      obtain ⟨hr, front, back, rfl, hf, hb⟩ := h
      simp only []
      split
      · rename_i hlt
        refine ⟨hx, front ++ r :: back, [], rfl, ?_, by simp⟩
        intro o ho hav
        rcases List.mem_append.mp ho with ho | ho
        · exact F64.le_false_of_le_false hlt (hf o ho hav)
        · rcases List.mem_cons.mp ho with rfl | ho
          · exact F64.le_false_of_lt hlt
          · exact F64.le_false_of_lt_false hlt (hb o ho hav)
      · rename_i hlt
        refine ⟨hr, front, back ++ [x], by simp, hf, ?_⟩
        intro o ho hav
        rcases List.mem_append.mp ho with ho | ho
        · exact hb o ho hav
        · rw [List.mem_singleton] at ho
          subst ho
          simpa using hlt
  · have hx1 : (s.officerAt x).Incident.isNone = false := by
      cases hinc : (s.officerAt x).Incident with
      | none => exact absurd hinc hx
      | some _ => rfl
    rw [hx1]
    simp only [Bool.false_eq_true, if_false]
    cases res with
    | none =>
      intro o ho
      rcases List.mem_append.mp ho with ho | ho
      · exact h o ho
      · rw [List.mem_singleton] at ho; subst ho; exact hx
    | some r =>
      obtain ⟨hr, front, back, rfl, hf, hb⟩ := h
      refine ⟨hr, front, back ++ [x], by simp, hf, ?_⟩
      intro o ho hav
      rcases List.mem_append.mp ho with ho | ho
      · exact hb o ho hav
      · rw [List.mem_singleton] at ho; subst ho; exact absurd hav hx

theorem foldl_earliest (s : Store) (loc : Location) :
    ∀ (l seen : List Nat) (res : Option Nat), Earliest s loc seen res →
      Earliest s loc (seen ++ l) (l.foldl (nearestStep s loc) res) := by
  intro l
  induction l with
  | nil => intro seen res h; simpa using h
  | cons x l ih =>
    intro seen res h
    have := ih (seen ++ [x]) _ (nearestStep_earliest s loc seen res x h)
    simpa using this

theorem nearest_earliest (s : Store) (loc : Location) :
    Earliest s loc s.officers (nearestAvailableOfficer s loc) := by
  have := foldl_earliest s loc s.officers [] none (by intro o ho; simp at ho)
  simpa using this

/-- With the distances computed by `distance`: the result is nil exactly when no officer
in the list is unassigned, and otherwise an unassigned officer of the list such that no
unassigned officer of the list is at a distance `<` its own. -/
theorem nearest_minimal_computed (s : Store) (loc : Location) :
    (nearestAvailableOfficer s loc = none ↔
      ∀ o ∈ s.officers, (s.officerAt o).Incident ≠ none) ∧
    ∀ r, nearestAvailableOfficer s loc = some r →
      r ∈ s.officers ∧ (s.officerAt r).Incident = none ∧
      ∀ o ∈ s.officers, (s.officerAt o).Incident = none →
        (distance loc (s.officerAt o).Loc).lt (distance loc (s.officerAt r).Loc) = false := by
  have h := nearest_earliest s loc
  cases hres : nearestAvailableOfficer s loc with
  | none =>
    rw [hres] at h
    exact ⟨⟨fun _ => h, fun _ => rfl⟩, fun r hr => by simp at hr⟩
  | some r =>
    rw [hres] at h
    obtain ⟨hr, front, back, hsplit, hf, hb⟩ := h
    have hmem : r ∈ s.officers := by rw [hsplit]; simp
    refine ⟨⟨fun hn => by simp at hn, fun hall => absurd hr (hall r hmem)⟩, ?_⟩
    intro r1 hr1
    simp only [Option.some.injEq] at hr1
    subst hr1
    refine ⟨hmem, hr, ?_⟩
    intro o ho hav
    rw [hsplit] at ho
    rcases List.mem_append.mp ho with ho | ho
    · exact F64.lt_false_of_le_false (hf o ho hav)
    · rcases List.mem_cons.mp ho with rfl | ho
      · exact F64.lt_irrefl _
      · exact hb o ho hav

/-! ## The re-encoding through JSON

A number of magnitude below `2 ^ 53` is read back unchanged; a key that is the only one
matching its field up to letter case decides the field; a value of the wrong JSON type
makes the decoding fail. -/

theorem toFloat64_small {m : Nat} (hm : m < 2 ^ 53) : toFloat64 m = m := by
  unfold toFloat64
  simp only []
  by_cases h0 : m = 0
  · subst h0; simp [bitLen_zero]
  · obtain ⟨_, hlo, _⟩ := bitLen_spec 64 m (by omega) (Nat.pos_of_ne_zero h0)
    have hL : bitLen 64 m - 1 < 53 :=
      (Nat.pow_lt_pow_iff_right (by norm_num : 1 < 2)).mp (lt_of_le_of_lt hlo hm)
    rw [if_pos (by omega)]

theorem toFloat64_large {c : Nat} (h1 : 2 ^ 53 ≤ c) (h2 : c < 2 ^ 64) :
    2 ^ 53 ≤ toFloat64 c := by
  obtain ⟨hpos, hlo, hhi⟩ := bitLen_spec 64 c h2 (by omega)
  have hp : 53 < bitLen 64 c := by
    by_contra hcon
    have : (2 : Nat) ^ bitLen 64 c ≤ 2 ^ 53 := Nat.pow_le_pow_right (by norm_num) (by omega)
    omega
  unfold toFloat64
  simp only []
  rw [if_neg (by omega)]
  generalize hp2 : bitLen 64 c = p at *
  obtain ⟨e, rfl⟩ : ∃ e, p = e + 54 := ⟨p - 54, by omega⟩
  have hq : e + 54 - 53 = e + 1 := by omega
  rw [hq]
  have hpow : (2 : Nat) ^ (e + 54 - 1) = 2 ^ 52 * 2 ^ (e + 1) := by
    rw [← pow_add]; congr 1; omega
  have hqpos : 0 < 2 ^ (e + 1) := Nat.pow_pos (by norm_num)
  have hlo52 : 2 ^ 52 ≤ c / 2 ^ (e + 1) := by
    rw [Nat.le_div_iff_mul_le hqpos]; omega
  have hbase : 2 ^ 53 ≤ 2 ^ 52 * 2 ^ (e + 1) := by
    have : (2 : Nat) ^ 53 = 2 ^ 52 * 2 ^ 1 := by norm_num
    rw [this]
    exact Nat.mul_le_mul_left _ (Nat.pow_le_pow_right (by norm_num) (by omega))
  have hA : 2 ^ 52 * 2 ^ (e + 1) ≤ c / 2 ^ (e + 1) * 2 ^ (e + 1) :=
    Nat.mul_le_mul_right _ hlo52
  have hB : c / 2 ^ (e + 1) * 2 ^ (e + 1) ≤ (c / 2 ^ (e + 1) + 1) * 2 ^ (e + 1) :=
    Nat.mul_le_mul_right _ (by omega)
  split_ifs <;> omega

theorem shortestAt_sound {n j c : Nat} (h : shortestAt n j = some c) :
    toFloat64 c = n ∧ c ≤ n + 10 ^ j := by
  unfold shortestAt at h
  simp only [] at h
  have hlo : n / 10 ^ j * 10 ^ j ≤ n := Nat.div_mul_le_self n (10 ^ j)
  generalize 10 ^ j = p at h hlo ⊢
  generalize n / p * p = lo at h hlo
  split_ifs at h with h1 h2 h3
  · cases h; exact ⟨h2.1, by omega⟩
  · cases h; exact ⟨h1, by omega⟩
  · cases h; exact ⟨h3, by omega⟩

theorem toFloat64_eq_safe {n c : Nat} (hn : n < 2 ^ 53) (hc : c < 2 ^ 64)
    (h : toFloat64 c = n) : c = n := by
  by_cases hc53 : c < 2 ^ 53
  · rw [toFloat64_small hc53] at h; exact h
  · have := toFloat64_large (by omega) hc
    omega

theorem shortestFrom_safe {n : Nat} (hn : n < 2 ^ 53) :
    ∀ j, j ≤ 18 → shortestFrom n j = n := by
  intro j
  induction j with
  | zero => intro _; rfl
  | succ j ih =>
    intro hj
    unfold shortestFrom
    cases hs : shortestAt n (j + 1) with
    | none => exact ih (by omega)
    | some c =>
      obtain ⟨h1, h2⟩ := shortestAt_sound hs
      have hp : 10 ^ (j + 1) ≤ 10 ^ 18 := Nat.pow_le_pow_right (by norm_num) hj
      exact toFloat64_eq_safe hn (by norm_num at hp hn ⊢; omega) h1

theorem shortestDecimal_safe {n : Nat} (hn : n < 2 ^ 53) : shortestDecimal n = n :=
  shortestFrom_safe hn 18 (le_refl _)

theorem reencodeInt_safe {n : Int} (h : -2 ^ 53 < n ∧ n < 2 ^ 53) : reencodeInt n = some n := by
  have hnat : n.natAbs < 2 ^ 53 := by omega
  unfold reencodeInt
  rw [if_pos (by omega)]
  simp only [shortestDecimal_safe hnat]
  have hr : (if n < 0 then -(n.natAbs : Int) else (n.natAbs : Int)) = n := by
    split_ifs <;> omega
  rw [hr, if_pos (by omega)]

theorem mem_sortedKeys {e : Event} {k : String} :
    k ∈ e.sortedKeys ↔ k ∈ e.map Prod.fst := by
  unfold Event.sortedKeys
  rw [(List.perm_insertionSort _ _).mem_iff, List.mem_dedup]

theorem nodup_sortedKeys (e : Event) : e.sortedKeys.Nodup := by
  unfold Event.sortedKeys
  exact (List.perm_insertionSort _ _).nodup_iff.mpr (List.nodup_dedup _)

theorem get_some_mem_keys {e : Event} {k : String} {v : JVal} (h : e.get k = some v) :
    k ∈ e.map Prod.fst := by
  unfold Event.get at h
  induction e with
  | nil => simp [List.lookup] at h
  | cons kv rest ih =>
    obtain ⟨k1, v1⟩ := kv
    by_cases hk : k = k1
    · simp [hk]
    · have hb : (k == k1) = false := by simpa using hk
      rw [List.lookup, hb] at h
      simp only [List.map_cons, List.mem_cons]
      exact Or.inr (ih h)

theorem equalFold_self (k : String) : equalFold k k = true := by
  unfold equalFold
  exact beq_self_eq_true _

theorem mem_matching_self {e : Event} {name : String} {v : JVal} (h : e.get name = some v) :
    name ∈ e.matching name := by
  unfold Event.matching
  rw [List.mem_filter]
  exact ⟨mem_sortedKeys.mpr (get_some_mem_keys h), equalFold_self name⟩

theorem filter_eq_singleton {α : Type} (p : α → Bool) (a : α) :
    ∀ l : List α, l.Nodup → a ∈ l → p a = true → (∀ k ∈ l, p k = true → k = a) →
      l.filter p = [a] := by
  intro l
  induction l with
  | nil => intro _ h; simp at h
  | cons x rest ih =>
    intro hnd hmem hpa hall
    rw [List.nodup_cons] at hnd
    by_cases hx : x = a
    · subst hx
      rw [List.filter_cons_of_pos hpa]
      congr 1
      rw [List.filter_eq_nil_iff]
      intro k hk hpk
      have := hall k (List.mem_cons_of_mem _ hk) hpk
      exact hnd.1 (this ▸ hk)
    · have hpx : ¬ p x = true := fun hp => hx (hall x (List.mem_cons_self _ _) hp)
      rw [List.filter_cons_of_neg hpx]
      refine ih hnd.2 ?_ hpa (fun k hk => hall k (List.mem_cons_of_mem _ hk))
      rcases List.mem_cons.mp hmem with h | h
      · exact absurd h.symm hx
      · exact h

theorem matching_sole {e : Event} {name : String} {v : JVal} (h : e.get name = some v)
    (hsole : soleKey e name) : e.matching name = [name] := by
  unfold Event.matching
  exact filter_eq_singleton _ name _ (nodup_sortedKeys e)
    (mem_sortedKeys.mpr (get_some_mem_keys h)) (equalFold_self name)
    (fun k hk => hsole k (mem_sortedKeys.mp hk))

theorem foldlM_none_of_mem {α β : Type} (f : β → α → Option β) (a : α)
    (hf : ∀ b, f b a = none) : ∀ (l : List α) (init : β), a ∈ l → l.foldlM f init = none := by
  intro l
  induction l with
  | nil => intro _ h; simp at h
  | cons x rest ih =>
    intro init hmem
    rw [List.foldlM_cons]
    rcases List.mem_cons.mp hmem with h | h
    · subst h; rw [hf]; rfl
    · cases hx : f init x with
      | none => rfl
      | some b => exact ih b h

theorem decodeInt_sole {o : Event} {name : String} {n : Int} (init : Int)
    (h : o.get name = some (.num n)) (hsole : soleKey o name)
    (hn : -2 ^ 53 < n ∧ n < 2 ^ 53) : decodeInt o name init = some n := by
  unfold decodeInt
  rw [matching_sole h hsole]
  simp [List.foldlM_cons, h, decodeIntInto, reencodeInt_safe hn]

theorem decodeString_sole {o : Event} {name : String} {t : String} (init : String)
    (h : o.get name = some (.str t)) (hsole : soleKey o name) :
    decodeString o name init = some t := by
  unfold decodeString
  rw [matching_sole h hsole]
  simp [List.foldlM_cons, h, decodeStringInto]

theorem decodeInt_wrong {o : Event} {name : String} (init : Int)
    (h : wrongNumber (o.get name) = true) : decodeInt o name init = none := by
  unfold decodeInt
  cases hv : o.get name with
  | none => rw [hv] at h; simp [wrongNumber] at h
  | some v =>
    refine foldlM_none_of_mem _ name ?_ _ init (mem_matching_self hv)
    intro b
    rw [hv] at h ⊢
    cases v <;> simp [wrongNumber] at h <;> rfl

theorem decodeString_wrong {o : Event} {name : String} (init : String)
    (h : wrongString (o.get name) = true) : decodeString o name init = none := by
  unfold decodeString
  cases hv : o.get name with
  | none => rw [hv] at h; simp [wrongString] at h
  | some v =>
    refine foldlM_none_of_mem _ name ?_ _ init (mem_matching_self hv)
    intro b
    rw [hv] at h ⊢
    cases v <;> simp [wrongString] at h <;> rfl

theorem decodeLocation_wrong {o : Event} {name : String} (init : Location)
    (h : wrongObject (o.get name) = true) : decodeLocation o name init = none := by
  unfold decodeLocation
  cases hv : o.get name with
  | none => rw [hv] at h; simp [wrongObject] at h
  | some v =>
    refine foldlM_none_of_mem _ name ?_ _ init (mem_matching_self hv)
    intro b
    rw [hv] at h ⊢
    cases v <;> simp [wrongObject] at h <;> rfl

theorem decodeLocation_wrong_field {o : Event} {name : String} {kvs : Event} (init : Location)
    (hv : o.get name = some (.obj kvs))
    (h : wrongNumber (Event.get kvs "x") = true ∨ wrongNumber (Event.get kvs "y") = true) :
    decodeLocation o name init = none := by
  unfold decodeLocation
  refine foldlM_none_of_mem _ name ?_ _ init (mem_matching_self hv)
  intro b
  rw [hv]
  unfold decodeLocationInto
  rcases h with h | h
  · simp [decodeInt_wrong _ h]
  · cases decodeInt kvs "x" b.X <;> simp [decodeInt_wrong _ h]

theorem decodeLocation_sole {o : Event} {name : String} {kvs : Event} {loc : Location}
    (init : Location) (h : o.get name = some (.obj kvs)) (hsole : soleKey o name)
    (hx : Event.get kvs "x" = some (.num loc.X)) (hy : Event.get kvs "y" = some (.num loc.Y))
    (hsx : soleKey kvs "x") (hsy : soleKey kvs "y")
    (hnx : -2 ^ 53 < loc.X ∧ loc.X < 2 ^ 53) (hny : -2 ^ 53 < loc.Y ∧ loc.Y < 2 ^ 53) :
    decodeLocation o name init = some loc := by
  unfold decodeLocation
  rw [matching_sole h hsole]
  simp [List.foldlM_cons, h, decodeLocationInto, decodeInt_sole _ hx hsx hnx,
    decodeInt_sole _ hy hsy hny]


/-! ## The claims -/

theorem storeAfter_reachable {run : List (Option Event)} {s : Store}
    (h : runEvents emptyStore run = some s) : Reachable (storeAfter run) := by
  unfold storeAfter
  rw [h]
  exact runEvents_reachable Reachable.init run h

/-- C1 (symmetry invariant), evaluated at the run `runReassign`: the run does not panic,
and in the store it reaches incident `0` (id 1) still has `Officer` pointing to officer `0`
(id 5) while that officer's `Incident` points to incident `1` (id 2). -/
theorem symmetry_broken_by_repeated_online :
    (runEvents emptyStore runReassign).isSome = true ∧ Reachable (storeAfter runReassign) ∧
      (storeAfter runReassign).officers = [0] ∧ (storeAfter runReassign).incidents = [0, 1] ∧
      ((storeAfter runReassign).incidentAt 0).Officer = some 0 ∧
      ((storeAfter runReassign).officerAt 0).Incident = some 1 ∧
      ¬ Symmetric (storeAfter runReassign) := by
  refine ⟨by decide, storeAfter_reachable (s := storeAfter runReassign) (by rfl), by decide,
    by decide, by decide, by decide, ?_⟩
  intro h
  have h1 := (h 0 (by decide) 0 (by decide)).mpr (by decide)
  revert h1
  decide

/-- C2 (no reassignment), evaluated at `runBeforeReassign` followed by a second
`OfficerGoesOnline` of officer 5: before the event officer `0` is linked to incident `0`,
after it the same officer is linked to incident `1`, a different live incident. -/
theorem reassigned_by_repeated_online :
    Reachable (storeAfter runBeforeReassign) ∧
      (storeAfter runBeforeReassign).officers = [0] ∧
      ((storeAfter runBeforeReassign).officerAt 0).Incident = some 0 ∧
      findOfficer (storeAfter runBeforeReassign) 5 = some 0 ∧
      findFirstAvailableIncident (storeAfter runBeforeReassign) = some 1 ∧
      processIncidentRaw (storeAfter runBeforeReassign) (some (officerGoesOnline 5 "B5")) =
        some (assignOfficerToIncident (storeAfter runBeforeReassign) 1 0) ∧
      (assignOfficerToIncident (storeAfter runBeforeReassign) 1 0).officers = [0] ∧
      (assignOfficerToIncident (storeAfter runBeforeReassign) 1 0).incidents = [0, 1] ∧
      ((assignOfficerToIncident (storeAfter runBeforeReassign) 1 0).officerAt 0).Incident
        = some 1 := by
  refine ⟨storeAfter_reachable (s := storeAfter runBeforeReassign) (by rfl), by decide,
    by decide, by decide, by decide, by rfl, by decide, by decide, by decide⟩

/-- C3 (no dangling links), evaluated at the run `runDangling`: after
`OfficerGoesOffline` has removed officer 5 the officers list is empty, yet incident `0`
remains in the incidents list with `Officer` pointing to the removed officer and
`OfficerId` 5. -/
theorem dangling_after_offline :
    (runEvents emptyStore runDangling).isSome = true ∧ Reachable (storeAfter runDangling) ∧
      (storeAfter runDangling).officers = [] ∧ (storeAfter runDangling).incidents = [0, 1] ∧
      ((storeAfter runDangling).incidentAt 0).Officer = some 0 ∧
      ((storeAfter runDangling).incidentAt 0).OfficerId = 5 ∧
      ¬ NoDangling (storeAfter runDangling) := by
  refine ⟨by decide, storeAfter_reachable (s := storeAfter runDangling) (by rfl), by decide,
    by decide, by decide, by decide, ?_⟩
  intro h
  have h1 := h.2.1 0 (by decide) 0 (by decide)
  revert h1
  decide

/-- C4 (nearest-neighbour correctness) fails as stated: with officer 1 at `(1, 0)` and
officer 2 at `(2^32, 0)`, both unassigned, `nearestAvailableOfficer((0, 0))` returns
officer 2, because `a*a` wraps to 0 in `distance`, although officer 1 is nearer. -/
theorem nearest_wrong_when_square_wraps :
    Reachable (storeAfter runFar) ∧ (storeAfter runFar).officers = [0, 1] ∧
      (storeAfter runFar).liveOfficers =
        [⟨1, "B1", ⟨1, 0⟩, none⟩, ⟨2, "B2", ⟨4294967296, 0⟩, none⟩] ∧
      distance ⟨0, 0⟩ ⟨4294967296, 0⟩ = .fin 0 ∧
      distance ⟨0, 0⟩ ⟨1, 0⟩ = .fin (2 ^ 52) ∧
      nearestAvailableOfficer (storeAfter runFar) ⟨0, 0⟩ = some 1 ∧
      sqDist ⟨0, 0⟩ ((storeAfter runFar).officerAt 0).Loc <
        sqDist ⟨0, 0⟩ ((storeAfter runFar).officerAt 1).Loc ∧
      ¬ NearestCorrect (storeAfter runFar) ⟨0, 0⟩ := by
  refine ⟨storeAfter_reachable (s := storeAfter runFar) (by rfl), by decide, by decide,
    by decide, by decide, by decide, by decide, ?_⟩
  intro h
  exact (h.2 1 (by decide)).2.2 0 (by decide) (by decide) (by decide)

/-- C4 as amended: for every officers list and every location `loc` such that every
unassigned officer of the list is at Euclidean distance below `2^26` from `loc` (squared
distance below `2^52`), `nearestAvailableOfficer(loc)` returns nil exactly when no officer
in the list is unassigned, and otherwise an unassigned officer `r` of the list such that no
unassigned officer of the list has a smaller Euclidean distance from `loc` than `r`. -/
theorem nearest_correct_in_range (s : Store) (loc : Location)
    (h : ∀ o ∈ s.officers, (s.officerAt o).Incident = none →
      sqDist loc (s.officerAt o).Loc < 2 ^ 52) :
    NearestCorrect s loc := by
  obtain ⟨h1, h2⟩ := nearest_minimal_computed s loc
  refine ⟨h1, fun r hr => ?_⟩
  obtain ⟨hmem, hav, hmin⟩ := h2 r hr
  refine ⟨hmem, hav, fun o ho hoav hlt => ?_⟩
  have := (distance_lt_iff (h o ho hoav) (h r hmem hav)).mpr hlt
  rw [hmin o ho hoav] at this
  exact Bool.false_ne_true this

/-- C4 as amended, at officers id 1 at `(0, 0)` and id 2 at `(10, 0)` with `loc = (1, 0)`:
the result is the officer with id 1. -/
theorem nearest_correct_in_range_witness :
    NearestCorrect (storeAfter runNear) ⟨1, 0⟩ ∧
      nearestAvailableOfficer (storeAfter runNear) ⟨1, 0⟩ = some 0 ∧
      ((storeAfter runNear).officerAt 0).ID = 1 :=
  ⟨nearest_correct_in_range (storeAfter runNear) ⟨1, 0⟩ (by decide), by decide, by decide⟩

/-- C5 (tie-break determinism) fails as stated: with officer 1 at `(1, 0)`, officer 2 at
`(2^32, 0)` and officer 3 at `(0, 1)`, all unassigned, officers 1 and 3 are at the minimal
distance 1 from `(0, 0)`, and `nearestAvailableOfficer((0, 0))` returns officer 2, whose
`a*a` wraps to 0 in `distance`, not officer 1, the earliest of the two. -/
theorem tie_break_wrong_when_square_wraps :
    Reachable (storeAfter runFarTie) ∧ (storeAfter runFarTie).officers = [0, 1, 2] ∧
      (storeAfter runFarTie).liveOfficers =
        [⟨1, "B1", ⟨1, 0⟩, none⟩, ⟨2, "B2", ⟨4294967296, 0⟩, none⟩, ⟨3, "B3", ⟨0, 1⟩, none⟩] ∧
      atMinimalEuclidean (storeAfter runFarTie) ⟨0, 0⟩ 0 = true ∧
      atMinimalEuclidean (storeAfter runFarTie) ⟨0, 0⟩ 2 = true ∧
      (storeAfter runFarTie).officers.find? (atMinimalEuclidean (storeAfter runFarTie) ⟨0, 0⟩)
        = some 0 ∧
      nearestAvailableOfficer (storeAfter runFarTie) ⟨0, 0⟩ = some 1 ∧
      ¬ EarliestNearest (storeAfter runFarTie) ⟨0, 0⟩ := by
  refine ⟨storeAfter_reachable (s := storeAfter runFarTie) (by rfl), by decide, by decide,
    by decide, by decide, by decide, by decide, ?_⟩
  unfold EarliestNearest
  decide

/-- C5 as amended: for every officers list and every location `loc` such that every
unassigned officer of the list is at Euclidean distance below `2^26` from `loc` (squared
distance below `2^52`), `nearestAvailableOfficer(loc)` returns the officer that occurs
earliest in the list among the unassigned officers at the minimal Euclidean distance from
`loc` (nil if no officer is unassigned). -/
theorem earliest_nearest_in_range (s : Store) (loc : Location)
    (h : ∀ o ∈ s.officers, (s.officerAt o).Incident = none →
      sqDist loc (s.officerAt o).Loc < 2 ^ 52) :
    EarliestNearest s loc := by
  unfold EarliestNearest
  have hE := nearest_earliest s loc
  cases hres : nearestAvailableOfficer s loc with
  | none =>
    rw [hres] at hE
    symm
    rw [List.find?_eq_none]
    intro o ho
    simp only [atMinimalEuclidean, Bool.and_eq_true, Option.isNone_iff_eq_none, not_and]
    intro hav
    exact absurd hav (hE o ho)
  | some r =>
    rw [hres] at hE
    obtain ⟨hr, front, back, hsplit, hf, hb⟩ := hE
    have hmem : r ∈ s.officers := by rw [hsplit]; simp
    have hfront : ∀ o ∈ front, (s.officerAt o).Incident = none →
        ¬ sqDist loc (s.officerAt o).Loc ≤ sqDist loc (s.officerAt r).Loc := by
      intro o ho hoav hle
      have hom : o ∈ s.officers := by rw [hsplit]; simp [ho]
      have := (distance_le_iff (h o hom hoav) (h r hmem hr)).mpr hle
      rw [hf o ho hoav] at this
      exact Bool.false_ne_true this
    have hback : ∀ o ∈ back, (s.officerAt o).Incident = none →
        sqDist loc (s.officerAt r).Loc ≤ sqDist loc (s.officerAt o).Loc := by
      intro o ho hoav
      by_contra hlt
      have hom : o ∈ s.officers := by rw [hsplit]; simp [ho]
      have := (distance_lt_iff (h o hom hoav) (h r hmem hr)).mpr (lt_of_not_le hlt)
      rw [hb o ho hoav] at this
      exact Bool.false_ne_true this
    symm
    rw [List.find?_eq_some]
    refine ⟨?_, front, back, hsplit, ?_⟩
    · simp only [atMinimalEuclidean, Bool.and_eq_true, Option.isNone_iff_eq_none,
        List.all_eq_true, Bool.or_eq_true, Bool.not_eq_true', decide_eq_true_eq]
      refine ⟨hr, fun o ho => ?_⟩
      by_cases hoav : (s.officerAt o).Incident = none
      · right
        rw [hsplit] at ho
        rcases List.mem_append.mp ho with hfm | hbm
        · exact le_of_lt (lt_of_not_le (hfront o hfm hoav))
        · rcases List.mem_cons.mp hbm with e | hbm
          · rw [e]
          · exact hback o hbm hoav
      · left
        cases hinc : (s.officerAt o).Incident with
        | none => exact absurd hinc hoav
        | some _ => rfl
    · intro o ho
      simp only [atMinimalEuclidean, Bool.not_eq_true', Bool.and_eq_false_imp,
        Option.isNone_iff_eq_none]
      intro hoav
      rw [List.all_eq_false]
      refine ⟨r, hmem, ?_⟩
      simp [hr, hfront o ho hoav]

/-- C5 as amended, at officers `[id 1 at (3, 4), id 2 at (5, 0)]`, both at distance 5
from `(0, 0)`: the result is the officer with id 1. -/
theorem earliest_nearest_in_range_witness :
    EarliestNearest (storeAfter runTie) ⟨0, 0⟩ ∧
      sqDist ⟨0, 0⟩ ((storeAfter runTie).officerAt 0).Loc = 25 ∧
      sqDist ⟨0, 0⟩ ((storeAfter runTie).officerAt 1).Loc = 25 ∧
      nearestAvailableOfficer (storeAfter runTie) ⟨0, 0⟩ = some 0 ∧
      ((storeAfter runTie).officerAt 0).ID = 1 :=
  ⟨earliest_nearest_in_range (storeAfter runTie) ⟨0, 0⟩ (by decide),
    by decide, by decide, by decide, by decide⟩

theorem freshRun_reachable {s : Store} (hs : ReachableFreshIDs s) :
    ∀ (ds : List (Option Event)) {s1 : Store}, freshRun s ds = true →
      runEvents s ds = some s1 → ReachableFreshIDs s1 := by
  intro ds
  induction ds generalizing s with
  | nil => intro s1 _ h; simp [runEvents] at h; subst h; exact hs
  | cons d ds ih =>
    intro s1 hf h
    simp only [runEvents] at h
    simp only [freshRun, Bool.and_eq_true, Bool.not_eq_true'] at hf
    cases hd : processIncidentRaw s d with
    | none => rw [hd] at h; simp at h
    | some s2 =>
      rw [hd] at h hf
      exact ih (ReachableFreshIDs.step d hs hf.1 hd) hf.2 h

/-- C6 (incident id uniqueness) fails as stated: after two `IncidentOccurred` events
carrying `incidentId` 10 the reachable store lists two incidents with id 10. -/
theorem duplicate_incident_ids :
    Reachable (storeAfter runDuplicate) ∧ (storeAfter runDuplicate).incidentIDs = [10, 10] ∧
      ¬ (storeAfter runDuplicate).incidentIDs.Nodup := by
  refine ⟨storeAfter_reachable (s := storeAfter runDuplicate) (by rfl), by decide, by decide⟩

/-- C6 as amended: in every state reached from the empty store by events none of which is
an `IncidentOccurred` that decodes, as `processIncidentOccurred` decodes it, to the id of
an incident then in the list, no two entries of the incidents list have the same id. -/
theorem incident_ids_unique_without_reuse (s : Store) (h : ReachableFreshIDs s) :
    s.incidentIDs.Nodup :=
  (reachableFreshIDs_ok h).nodup

/-- C6 as amended, at the run `runFresh` (an id is reused only after its incident was
resolved): the ids are `[11, 10]`.  The run `runDuplicateLower`, whose second event has
the id 10 under the key `incidentid`, reuses the id: it ends with the ids `[10, 10]`. -/
theorem incident_ids_unique_without_reuse_witness :
    (storeAfter runFresh).incidentIDs = [11, 10] ∧ (storeAfter runFresh).incidentIDs.Nodup ∧
      freshRun emptyStore runDuplicateLower = false ∧
      (storeAfter runDuplicateLower).incidentIDs = [10, 10] :=
  ⟨by decide, incident_ids_unique_without_reuse (storeAfter runFresh)
    (freshRun_reachable ReachableFreshIDs.init runFresh (by decide) (by rfl)),
    by decide, by decide⟩

/-- C7 (officer id uniqueness): in every state reachable from the empty store by any
sequence of payloads, no two entries of the officers list have the same id. -/
theorem officer_ids_unique (s : Store) (h : Reachable s) : s.officerIDs.Nodup :=
  (reachable_officersOK h).nodup

/-- C7 at the run `runOfficers` (officer 5 goes online twice): the ids are `[5, 6]`. -/
theorem officer_ids_unique_witness :
    (storeAfter runOfficers).officerIDs = [5, 6] ∧ (storeAfter runOfficers).officerIDs.Nodup :=
  ⟨by decide, officer_ids_unique (storeAfter runOfficers)
    (storeAfter_reachable (s := storeAfter runOfficers) (by rfl))⟩

/-- An `IncidentResolved` whose id is the id of no incident in the list panics: the nil
result of `findIncidentByID` is dereferenced. -/
theorem processIncidentResolved_unknown (s : Store) (event : Event) (n : Int)
    (hev : asFloat64 (event.get "incidentId") = some n) (hn : toInt n ∉ s.incidentIDs) :
    processIncidentResolved s event = none := by
  have hfind : findIncidentByID s (toInt n) = none := by
    unfold findIncidentByID
    rw [List.find?_eq_none]
    intro i hi hp
    exact hn (List.mem_map.mpr ⟨i, hi, by simpa using hp⟩)
  simp [processIncidentResolved, hev, hfind]

/-- An `IncidentResolved` naming an incident whose `Officer` is nil panics:
`incident.Officer.Incident = nil` dereferences the nil pointer. -/
theorem processIncidentResolved_unassigned (s : Store) (event : Event) (n : Int) (i : Nat)
    (hev : asFloat64 (event.get "incidentId") = some n)
    (hfind : findIncidentByID s (toInt n) = some i) (ho : (s.incidentAt i).Officer = none) :
    processIncidentResolved s event = none := by
  simp [processIncidentResolved, hev, hfind, ho]

/-- C8 (IncidentResolved with an unknown id is a no-op), evaluated on the empty store
with `IncidentResolved{incidentId: 10}`: `findIncidentByID` returns nil and the handler
panics instead of returning. -/
theorem resolved_unknown_id_panics :
    findIncidentByID emptyStore 10 = none ∧
      processIncidentResolved emptyStore (incidentResolved 10) = none ∧
      processIncidentRaw emptyStore (some (incidentResolved 10)) = none := by
  refine ⟨by decide, by rfl, by rfl⟩

/-- C9 (IncidentResolved on an unassigned incident), evaluated after scenario A with
`IncidentResolved{incidentId: 10}`: incident 10 is in the list with `Officer` nil, and the
handler panics instead of removing it. -/
theorem resolved_unassigned_panics :
    (storeAfter runA).incidents = [0] ∧ ((storeAfter runA).incidentAt 0).ID = 10 ∧
      ((storeAfter runA).incidentAt 0).Officer = none ∧
      findIncidentByID (storeAfter runA) 10 = some 0 ∧
      processIncidentResolved (storeAfter runA) (incidentResolved 10) = none ∧
      processIncidentRaw (storeAfter runA) (some (incidentResolved 10)) = none := by
  refine ⟨by decide, by decide, by decide, by decide, by rfl, by rfl⟩

theorem find_of_nodup_map {α β : Type} [DecidableEq β] (f : α → β) (l : List α)
    (hl : (l.map f).Nodup) {a : α} (ha : a ∈ l) :
    l.find? (fun x => decide (f x = f a)) = some a := by
  cases h : l.find? (fun x => decide (f x = f a)) with
  | none =>
    rw [List.find?_eq_none] at h
    exact absurd (by simp) (h a ha)
  | some j =>
    have hp := List.find?_some h
    have hj := List.mem_of_find?_eq_some h
    simp only [decide_eq_true_eq] at hp
    rw [List.inj_on_of_nodup_map hl hj ha hp]

theorem filter_of_nodup_map {α β : Type} [DecidableEq α] [DecidableEq β] (f : α → β)
    (l : List α) (hl : (l.map f).Nodup) {a : α} (ha : a ∈ l) :
    l.filter (fun x => decide (f x ≠ f a)) = l.filter (fun x => decide (x ≠ a)) := by
  refine List.filter_congr (fun x hx => ?_)
  by_cases hxa : x = a
  · subst hxa; simp
  · have : f x ≠ f a := fun e => hxa (List.inj_on_of_nodup_map hl hx ha e)
    simp [hxa, this]

/-- C10 (IncidentResolved on an assigned incident): if the incident ids are pairwise
distinct and the event names a live incident `i` whose `Officer` is the live officer `o`,
then `processIncidentResolved` returns; afterwards no incident in the list has the id of
`i`, `o` is still in the officers list with `Incident` nil, and everything else is as
before: the officers list, every other officer object, the other fields of `o`, every
incident object, and the incidents list without `i`. -/
theorem resolved_assigned_incident (s : Store) (event : Event) (n : Int) (i o : Nat)
    (huniq : s.incidentIDs.Nodup) (hev : asFloat64 (event.get "incidentId") = some n)
    (hi : i ∈ s.incidents) (hid : (s.incidentAt i).ID = toInt n)
    (ho : (s.incidentAt i).Officer = some o) (hlive : o ∈ s.officers) :
    ∃ s1, processIncidentResolved s event = some s1 ∧
      (∀ j ∈ s1.incidents, (s1.incidentAt j).ID ≠ (s.incidentAt i).ID) ∧
      o ∈ s1.officers ∧ (s1.officerAt o).Incident = none ∧
      s1.officers = s.officers ∧
      (∀ a, a ≠ o → s1.officerAt a = s.officerAt a) ∧
      (s1.officerAt o).ID = (s.officerAt o).ID ∧
      (s1.officerAt o).BadgeName = (s.officerAt o).BadgeName ∧
      (s1.officerAt o).Loc = (s.officerAt o).Loc ∧
      s1.incidentAt = s.incidentAt ∧
      s1.incidents = s.incidents.filter (fun j => decide (j ≠ i)) := by
  have hfind : findIncidentByID s (toInt n) = some i := by
    unfold findIncidentByID
    rw [← hid]
    exact find_of_nodup_map (fun j => (s.incidentAt j).ID) s.incidents huniq hi
  have hlen : s.incidents.length ≠ 0 := by
    intro h0
    rw [List.length_eq_zero] at h0
    rw [h0] at hi
    simp at hi
  let keep : Nat → Bool := fun j => decide ((s.incidentAt j).ID ≠ (s.incidentAt i).ID)
  refine ⟨{ s.setOfficerIncident o none with incidents := s.incidents.filter keep }, ?_, ?_,
    hlive, ?_, rfl, ?_, ?_, ?_, ?_, rfl, ?_⟩
  · simp [processIncidentResolved, hev, hfind, ho, removeIncident, hlen, keep]
  · intro j hj
    simpa [keep] using (List.mem_filter.mp hj).2
  · simp
  · intro a ha
    simp [setOfficerIncident_officerAt, ha]
  · simp
  · simp
  · simp
  · exact filter_of_nodup_map (fun j => (s.incidentAt j).ID) s.incidents huniq hi

/-- C10 at scenario C: after `IncidentOccurred{10}` and `OfficerGoesOnline{5}`,
`IncidentResolved{10}` returns a store with an empty incidents list in which officer 5 is
still listed and has `Incident` nil. -/
theorem resolved_assigned_incident_witness :
    ∃ s1, processIncidentResolved (storeAfter runB) (incidentResolved 10) = some s1 ∧
      (∀ j ∈ s1.incidents, (s1.incidentAt j).ID ≠ ((storeAfter runB).incidentAt 0).ID) ∧
      0 ∈ s1.officers ∧ (s1.officerAt 0).Incident = none ∧
      s1.officers = (storeAfter runB).officers ∧
      (∀ a, a ≠ 0 → s1.officerAt a = (storeAfter runB).officerAt a) ∧
      (s1.officerAt 0).ID = ((storeAfter runB).officerAt 0).ID ∧
      (s1.officerAt 0).BadgeName = ((storeAfter runB).officerAt 0).BadgeName ∧
      (s1.officerAt 0).Loc = ((storeAfter runB).officerAt 0).Loc ∧
      s1.incidentAt = (storeAfter runB).incidentAt ∧
      s1.incidents = (storeAfter runB).incidents.filter (fun j => decide (j ≠ 0)) :=
  resolved_assigned_incident (storeAfter runB) (incidentResolved 10) 10 0 0
    (by decide) (by rfl) (by decide) (by decide) (by decide) (by decide)

/-! ## The handlers, one event at a time -/

theorem toInt_of_range {n : Int} (h1 : -2 ^ 63 ≤ n) (h2 : n < 2 ^ 63) : toInt n = n := by
  unfold toInt
  rw [if_pos ⟨h1, h2⟩]

/-- C11 (OfficerGoesOffline while assigned): if the officer ids are pairwise distinct and
the event names a live officer `o` whose `Incident` is `i`, then
`processOfficerGoesOffline` returns; afterwards no officer in the list has the id of `o`,
the incidents list is unchanged, so that `i` is still in it, `i` has `Officer` nil and
`OfficerId` 0, and everything else is as before: the other fields of `i`, every other
incident object, every other officer object, and the officers list without `o`. -/
theorem offline_assigned_officer (s : Store) (event : Event) (n : Int) (o i : Nat)
    (huniq : s.officerIDs.Nodup) (hev : asFloat64 (event.get "officerId") = some n)
    (ho : o ∈ s.officers) (hid : (s.officerAt o).ID = toInt n)
    (hoi : (s.officerAt o).Incident = some i) :
    ∃ s1, processOfficerGoesOffline s event = some s1 ∧
      (∀ a ∈ s1.officers, (s1.officerAt a).ID ≠ (s.officerAt o).ID) ∧
      (i ∈ s.incidents → i ∈ s1.incidents) ∧
      (s1.incidentAt i).Officer = none ∧ (s1.incidentAt i).OfficerId = 0 ∧
      (s1.incidentAt i).ID = (s.incidentAt i).ID ∧
      (s1.incidentAt i).CodeName = (s.incidentAt i).CodeName ∧
      (s1.incidentAt i).Loc = (s.incidentAt i).Loc ∧
      s1.incidents = s.incidents ∧
      (∀ a, a ≠ i → s1.incidentAt a = s.incidentAt a) ∧
      (∀ a, a ≠ o → s1.officerAt a = s.officerAt a) ∧
      s1.officers = s.officers.filter (fun a => decide (a ≠ o)) := by
  have hfind : findOfficer s (toInt n) = some o := by
    unfold findOfficer
    rw [← hid]
    exact find_of_nodup_map (fun a => (s.officerAt a).ID) s.officers huniq ho
  have hlen : s.officers.length ≠ 0 := by
    intro h0
    rw [List.length_eq_zero] at h0
    rw [h0] at ho
    simp at ho
  let keep : Nat → Bool := fun a => decide ((s.officerAt a).ID ≠ (s.officerAt o).ID)
  let s3 := ((s.setIncidentOfficer i none).setIncidentOfficerId i 0).setOfficerIncident o none
  refine ⟨{ s3 with officers := s.officers.filter keep }, ?_, ?_, id, ?_, ?_, ?_, ?_, ?_,
    rfl, ?_, ?_, ?_⟩
  · simp [processOfficerGoesOffline, hev, hfind, hoi, removeOfficer, hlen, keep, s3, hid]
  · intro a ha
    have := (List.mem_filter.mp ha).2
    simpa [keep, s3] using this
  · simp [s3]
  · simp [s3]
  · simp [s3]
  · simp [s3]
  · simp [s3]
  · intro a ha
    simp [s3, setIncidentOfficerId_incidentAt, setIncidentOfficer_incidentAt, ha]
  · intro a ha
    simp [s3, setOfficerIncident_officerAt, ha]
  · exact filter_of_nodup_map (fun a => (s.officerAt a).ID) s.officers huniq ho

/-- C11 at scenario D: after `IncidentOccurred{10}` and `OfficerGoesOnline{5}`,
`OfficerGoesOffline{5}` returns a store with an empty officers list in which incident 10
is still listed, with `Officer` nil and `OfficerId` 0. -/
theorem offline_assigned_officer_witness :
    ∃ s1, processOfficerGoesOffline (storeAfter runB) (officerGoesOffline 5) = some s1 ∧
      (∀ a ∈ s1.officers, (s1.officerAt a).ID ≠ ((storeAfter runB).officerAt 0).ID) ∧
      (0 ∈ (storeAfter runB).incidents → 0 ∈ s1.incidents) ∧
      (s1.incidentAt 0).Officer = none ∧ (s1.incidentAt 0).OfficerId = 0 ∧
      (s1.incidentAt 0).ID = ((storeAfter runB).incidentAt 0).ID ∧
      (s1.incidentAt 0).CodeName = ((storeAfter runB).incidentAt 0).CodeName ∧
      (s1.incidentAt 0).Loc = ((storeAfter runB).incidentAt 0).Loc ∧
      s1.incidents = (storeAfter runB).incidents ∧
      (∀ a, a ≠ 0 → s1.incidentAt a = (storeAfter runB).incidentAt a) ∧
      (∀ a, a ≠ 0 → s1.officerAt a = (storeAfter runB).officerAt a) ∧
      s1.officers = (storeAfter runB).officers.filter (fun a => decide (a ≠ 0)) :=
  offline_assigned_officer (storeAfter runB) (officerGoesOffline 5) 5 0 0
    (by decide) (by rfl) (by decide) (by decide) (by decide)

/-- An `OfficerLocationUpdated` whose id is the id of no officer in the list panics: the
nil result of `findOfficer` is dereferenced by `officer.Loc.X = ...`. -/
theorem processLocationUpdated_unknown (s : Store) (event : Event) (n : Int)
    (hev : asFloat64 (event.get "officerId") = some n) (hn : toInt n ∉ s.officerIDs) :
    processLocationUpdated s event = none := by
  have hfind : findOfficer s (toInt n) = none := by
    unfold findOfficer
    rw [List.find?_eq_none]
    intro o ho hp
    exact hn (List.mem_map.mpr ⟨o, ho, by simpa using hp⟩)
  unfold processLocationUpdated
  simp only [hev, hfind, Option.bind_eq_bind, Option.some_bind]
  cases asMap (event.get "loc") with
  | none => rfl
  | some locMap =>
    simp only [Option.some_bind]
    cases asFloat64 (Event.get locMap "x") <;> rfl

/-- C12 (OfficerLocationUpdated with an unknown officer), evaluated on the empty store
with `OfficerLocationUpdated{officerId: 5, loc: {x: 1, y: 2}}`: `findOfficer` returns nil
and the handler panics instead of reporting an error and returning. -/
theorem location_update_unknown_officer_panics :
    findOfficer emptyStore 5 = none ∧
      processLocationUpdated emptyStore (officerLocationUpdated 5 1 2) = none ∧
      processIncidentRaw emptyStore (some (officerLocationUpdated 5 1 2)) = none := by
  refine ⟨by decide, by rfl, by rfl⟩

/-- C13 (OfficerLocationUpdated with a known officer): for an event with integer
coordinates `(x, y)` in the `int` range whose `officerId` is the id of an officer in the
list, `processLocationUpdated` returns; the first officer `o` of the list with that id then
has `Loc == (x, y)`, its `ID`, `BadgeName` and `Incident` are unchanged, and so are every
other officer object, every incident object and both lists. -/
theorem location_updated_known (s : Store) (event locMap : Event) (n x y : Int)
    (hev : asFloat64 (event.get "officerId") = some n)
    (hloc : asMap (event.get "loc") = some locMap)
    (hx : asFloat64 (locMap.get "x") = some x) (hy : asFloat64 (locMap.get "y") = some y)
    (hxr : -2 ^ 63 ≤ x ∧ x < 2 ^ 63) (hyr : -2 ^ 63 ≤ y ∧ y < 2 ^ 63)
    (hknown : toInt n ∈ s.officerIDs) :
    ∃ o s1, findOfficer s (toInt n) = some o ∧ processLocationUpdated s event = some s1 ∧
      (s1.officerAt o).Loc = ⟨x, y⟩ ∧
      (s1.officerAt o).ID = (s.officerAt o).ID ∧
      (s1.officerAt o).BadgeName = (s.officerAt o).BadgeName ∧
      (s1.officerAt o).Incident = (s.officerAt o).Incident ∧
      (∀ a, a ≠ o → s1.officerAt a = s.officerAt a) ∧
      s1.incidentAt = s.incidentAt ∧ s1.officers = s.officers ∧ s1.incidents = s.incidents := by
  cases hfind : findOfficer s (toInt n) with
  | none => exact absurd hknown (findOfficer_none hfind)
  | some o =>
    refine ⟨o, (s.setOfficerLocX o (toInt x)).setOfficerLocY o (toInt y), rfl, ?_, ?_, ?_, ?_,
      ?_, ?_, rfl, rfl, rfl⟩
    · simp [processLocationUpdated, hev, hfind, hloc, hx, hy]
    · simp [toInt_of_range hxr.1 hxr.2, toInt_of_range hyr.1 hyr.2]
    · simp
    · simp
    · simp
    · intro a ha
      simp [setOfficerLocY_officerAt, setOfficerLocX_officerAt, ha]

/-- C13 with officers 5 and 6 online and `OfficerLocationUpdated{officerId: 6, loc: {x: 3,
y: -4}}`: officer 6 (address 1) moves to `(3, -4)`. -/
theorem location_updated_known_witness :
    ∃ o s1, findOfficer (storeAfter runTwoOfficers) (toInt 6) = some o ∧
      processLocationUpdated (storeAfter runTwoOfficers) (officerLocationUpdated 6 3 (-4))
        = some s1 ∧
      (s1.officerAt o).Loc = ⟨3, -4⟩ ∧
      (s1.officerAt o).ID = ((storeAfter runTwoOfficers).officerAt o).ID ∧
      (s1.officerAt o).BadgeName = ((storeAfter runTwoOfficers).officerAt o).BadgeName ∧
      (s1.officerAt o).Incident = ((storeAfter runTwoOfficers).officerAt o).Incident ∧
      (∀ a, a ≠ o → s1.officerAt a = (storeAfter runTwoOfficers).officerAt a) ∧
      s1.incidentAt = (storeAfter runTwoOfficers).incidentAt ∧
      s1.officers = (storeAfter runTwoOfficers).officers ∧
      s1.incidents = (storeAfter runTwoOfficers).incidents :=
  location_updated_known (storeAfter runTwoOfficers) (officerLocationUpdated 6 3 (-4))
    [("x", .num 3), ("y", .num (-4))] 6 3 (-4) (by rfl) (by rfl) (by rfl) (by rfl)
    (by decide) (by decide) (by decide)

/-- C16 (upsert does not overwrite): for an `OfficerGoesOnline` event whose `officerId` is
the id of an officer in the list, `processOfficerGoesOnline` returns whatever the event
carries as `badgeName` (even nothing); the officers list is unchanged and every officer
object keeps its `ID`, `BadgeName` and `Loc`. -/
theorem online_known_officer (s : Store) (event : Event) (n : Int)
    (hev : asFloat64 (event.get "officerId") = some n) (hknown : toInt n ∈ s.officerIDs) :
    ∃ s1, processOfficerGoesOnline s event = some s1 ∧ s1.officers = s.officers ∧
      ∀ a, (s1.officerAt a).ID = (s.officerAt a).ID ∧
        (s1.officerAt a).BadgeName = (s.officerAt a).BadgeName ∧
        (s1.officerAt a).Loc = (s.officerAt a).Loc := by
  cases hfind : findOfficer s (toInt n) with
  | none => exact absurd hknown (findOfficer_none hfind)
  | some o =>
    have hup : onlineOfficer s event = some (s, o) := by
      simp [onlineOfficer, hev, hfind]
    cases hinc : findFirstAvailableIncident s with
    | none =>
      refine ⟨s, ?_, rfl, fun a => ⟨rfl, rfl, rfl⟩⟩
      simp [processOfficerGoesOnline, hup, hinc]
    | some i =>
      refine ⟨assignOfficerToIncident s i o, ?_, rfl, fun a => ⟨by simp, by simp, by simp⟩⟩
      simp [processOfficerGoesOnline, hup, hinc]

/-- C16 with officers 5 (badge "B5") and 6 online and `OfficerGoesOnline{officerId: 5,
badgeName: "B5x"}`: the list is still `[0, 1]` and officer 5 keeps the badge "B5". -/
theorem online_known_officer_witness :
    (storeAfter runTwoOfficers).liveOfficers =
        [⟨5, "B5", ⟨0, 0⟩, none⟩, ⟨6, "B6", ⟨0, 0⟩, none⟩] ∧
      ∃ s1, processOfficerGoesOnline (storeAfter runTwoOfficers) (officerGoesOnline 5 "B5x")
          = some s1 ∧ s1.officers = (storeAfter runTwoOfficers).officers ∧
        ∀ a, (s1.officerAt a).ID = ((storeAfter runTwoOfficers).officerAt a).ID ∧
          (s1.officerAt a).BadgeName = ((storeAfter runTwoOfficers).officerAt a).BadgeName ∧
          (s1.officerAt a).Loc = ((storeAfter runTwoOfficers).officerAt a).Loc :=
  ⟨by decide, online_known_officer (storeAfter runTwoOfficers) (officerGoesOnline 5 "B5x") 5
    (by rfl) (by decide)⟩

theorem decode_of_isPlain {event : Event} {id : Int} {code : String}
    {loc : Location} (h : IsPlainIncidentOccurred event id code loc) :
    decodeIncidentOccurred event = some (id, code, loc) := by
  obtain ⟨h1, h2, ⟨kvs, h3, h4, h5, k4, k5⟩, k1, k2, k3, r1, r2, r3⟩ := h
  unfold decodeIncidentOccurred
  rw [decodeInt_sole 0 h1 k1 r1, decodeString_sole "" h2 k2,
    decodeLocation_sole ⟨0, 0⟩ h3 k3 h4 h5 k4 k5 r2 r3]
  rfl

theorem nearestAvailableOfficer_congr {s s1 : Store} (h1 : s1.officers = s.officers)
    (h2 : s1.officerAt = s.officerAt) (loc : Location) :
    nearestAvailableOfficer s1 loc = nearestAvailableOfficer s loc := by
  have : nearestStep s1 loc = nearestStep s loc := by
    funext res officer
    unfold nearestStep
    rw [h2]
  unfold nearestAvailableOfficer
  rw [h1, this]

/-- C14 (IncidentOccurred postcondition) fails as stated: the event is re-encoded through
JSON before it is stored.  The well-formed event with `incidentId` `2 ^ 62` yields an
incident with `ID` 4611686018427388000, the decimal `json.Marshal` prints for that
float64; and the well-formed event with `incidentId` 7 that also has a key `incidentid`
with value 8 yields an incident with `ID` 8. -/
theorem incident_id_reencoded :
    IsIncidentOccurred (incidentOccurred 4611686018427387904 "code" 12 123124)
        4611686018427387904 "code" ⟨12, 123124⟩ ∧
      (processIncidentOccurred emptyStore
          (incidentOccurred 4611686018427387904 "code" 12 123124)).liveIncidents
        = [⟨4611686018427388000, "code", ⟨12, 123124⟩, 0, none⟩] ∧
      ¬ IncidentOccurredPost emptyStore
          (processIncidentOccurred emptyStore
            (incidentOccurred 4611686018427387904 "code" 12 123124))
          4611686018427387904 "code" ⟨12, 123124⟩ ∧
      IsIncidentOccurred eventTwoIncidentIds 7 "code" ⟨12, 123124⟩ ∧
      (processIncidentOccurred emptyStore eventTwoIncidentIds).liveIncidents
        = [⟨8, "code", ⟨12, 123124⟩, 0, none⟩] ∧
      ¬ IncidentOccurredPost emptyStore (processIncidentOccurred emptyStore eventTwoIncidentIds)
          7 "code" ⟨12, 123124⟩ :=
  ⟨⟨rfl, rfl, ⟨[("x", .num 12), ("y", .num 123124)], rfl, rfl, rfl⟩,
      by unfold inIntRange; decide, by unfold inIntRange; decide,
      by unfold inIntRange; decide⟩,
    by decide,
    fun h => absurd h.2.2.2.2.1 (by decide),
    ⟨rfl, rfl, ⟨[("x", .num 12), ("y", .num 123124)], rfl, rfl, rfl⟩,
      by unfold inIntRange; decide, by unfold inIntRange; decide,
      by unfold inIntRange; decide⟩,
    by decide,
    fun h => absurd h.2.2.2.2.1 (by decide)⟩

/-- C14 as amended: for every store in which the pointers of the incidents list are
allocated addresses, and every well-formed `IncidentOccurred` event whose `incidentId`,
`loc.x` and `loc.y` are integers of magnitude below `2 ^ 53` and in which no other key
equals `incidentId`, `codeName` or `loc` (`x` or `y` inside `loc`) up to letter case,
`processIncidentOccurred` appends exactly one new incident carrying the event's id,
codeName and loc to the unchanged old list; if `nearestAvailableOfficer(loc)` returned `o`
the new incident has `Officer == o`, `OfficerId == o.ID` and `o.Incident` is the new
incident (nothing else of any officer changes); otherwise the new incident has `Officer`
nil and `OfficerId` 0 and no officer changes. -/
theorem incident_occurred_post (s : Store) (event : Event) (id : Int) (code : String)
    (loc : Location) (halloc : ∀ i ∈ s.incidents, i < s.nextIncident)
    (hwf : IsPlainIncidentOccurred event id code loc) :
    IncidentOccurredPost s (processIncidentOccurred s event) id code loc := by
  have hnew : s.nextIncident ∉ s.incidents := fun h => Nat.lt_irrefl _ (halloc _ h)
  have hnear : nearestAvailableOfficer (s.newIncident id code loc) loc =
      nearestAvailableOfficer s loc := nearestAvailableOfficer_congr rfl rfl loc
  unfold IncidentOccurredPost processIncidentOccurred
  rw [decode_of_isPlain hwf]
  simp only []
  unfold matchIncident
  simp only []
  rw [hnear]
  cases hres : nearestAvailableOfficer s loc with
  | none =>
    simp only []
    have hat : ∀ a, a ≠ s.nextIncident →
        (s.newIncident id code loc).incidentAt a = s.incidentAt a := by
      intro a ha
      rw [newIncident_incidentAt, if_neg ha]
    refine ⟨rfl, hnew, ?_, hat, ?_, ?_, ?_, rfl, ?_, ?_⟩
    · simp only [Store.liveIncidents, newIncident_incidents, List.map_append, List.map_cons,
        List.map_nil]
      congr 1
      exact List.map_congr_left (fun a ha => hat a (fun e => hnew (e ▸ ha)))
    · simp [newIncident_incidentAt]
    · simp [newIncident_incidentAt]
    · simp [newIncident_incidentAt]
    · intro o ho; simp at ho
    · intro _; simp [newIncident_incidentAt]
  | some o =>
    simp only []
    have hat : ∀ a, a ≠ s.nextIncident →
        (assignOfficerToIncident (s.newIncident id code loc) s.nextIncident o).incidentAt a
          = s.incidentAt a := by
      intro a ha
      simp [assignOfficerToIncident, setOfficerIncident_incidentAt,
        setIncidentOfficer_incidentAt, setIncidentOfficerId_incidentAt, ha,
        newIncident_incidentAt]
    refine ⟨rfl, hnew, ?_, hat, ?_, ?_, ?_, rfl, ?_, ?_⟩
    · simp only [Store.liveIncidents, assign_incidents, newIncident_incidents,
        List.map_append, List.map_cons, List.map_nil]
      congr 1
      exact List.map_congr_left (fun a ha => hat a (fun e => hnew (e ▸ ha)))
    · simp [newIncident_incidentAt]
    · simp [newIncident_incidentAt]
    · simp [newIncident_incidentAt]
    · intro o1 ho1
      simp only [Option.some.injEq] at ho1
      subst ho1
      refine ⟨by simp, by simp, by simp, by simp, by simp, by simp, ?_⟩
      intro a ha
      simp [assignOfficerToIncident, setOfficerIncident_officerAt, ha]
    · intro h; simp at h

/-- C14 as amended, at scenario A: `IncidentOccurred{10, "code", (12, 123124)}` on the
empty store gives one incident, with `OfficerId` 0 and `Officer` nil. -/
theorem incident_occurred_post_witness :
    IncidentOccurredPost emptyStore
        (processIncidentOccurred emptyStore (incidentOccurred 10 "code" 12 123124))
        10 "code" ⟨12, 123124⟩ ∧
      (processIncidentOccurred emptyStore (incidentOccurred 10 "code" 12 123124)).liveIncidents
        = [⟨10, "code", ⟨12, 123124⟩, 0, none⟩] :=
  ⟨incident_occurred_post emptyStore (incidentOccurred 10 "code" 12 123124) 10 "code"
    ⟨12, 123124⟩ (by decide)
    ⟨rfl, rfl, ⟨[("x", .num 12), ("y", .num 123124)], rfl, rfl, rfl,
        by unfold soleKey; decide, by unfold soleKey; decide⟩,
      by unfold soleKey; decide, by unfold soleKey; decide, by unfold soleKey; decide,
      by unfold safeInt; decide, by unfold safeInt; decide, by unfold safeInt; decide⟩,
   by decide⟩

theorem findFirstAvailableIncident_first {s : Store} {front back : List Nat} {i : Nat}
    (hsplit : s.incidents = front ++ i :: back) (hi : (s.incidentAt i).Officer = none)
    (hfront : ∀ j ∈ front, (s.incidentAt j).Officer ≠ none) :
    findFirstAvailableIncident s = some i := by
  unfold findFirstAvailableIncident
  rw [List.find?_eq_some]
  refine ⟨by simp [hi], front, back, hsplit, ?_⟩
  intro j hj
  cases hinc : (s.incidentAt j).Officer with
  | none => exact absurd hinc (hfront j hj)
  | some _ => rfl

theorem findFirstAvailableIncident_none {s : Store}
    (h : ∀ j ∈ s.incidents, (s.incidentAt j).Officer ≠ none) :
    findFirstAvailableIncident s = none := by
  unfold findFirstAvailableIncident
  rw [List.find?_eq_none]
  intro j hj
  cases hinc : (s.incidentAt j).Officer with
  | none => exact absurd hinc (h j hj)
  | some _ => simp

theorem findOfficer_eq_none {s : Store} {id : Int} (h : id ∉ s.officerIDs) :
    findOfficer s id = none := by
  unfold findOfficer
  rw [List.find?_eq_none]
  intro o ho hp
  exact h (List.mem_map.mpr ⟨o, ho, by simpa using hp⟩)

/-- C15 (OfficerGoesOnline for a new officer): for every store in which the pointers of
the officers list are allocated addresses, and every well-formed `OfficerGoesOnline` event
whose `officerId` is the id of no officer in the list, `processOfficerGoesOnline` returns;
afterwards the officers list is the unchanged old list with one new officer appended,
carrying that id and badgeName; the first incident of the list with `Officer` nil, if there
is one, gets `Officer ==` the new officer and `OfficerId == officerId` and is the new
officer's `Incident`; otherwise the new officer's `Incident` is nil; no other officer or
incident changes. -/
theorem online_new_officer (s : Store) (event : Event) (id : Int) (badge : String)
    (halloc : ∀ o ∈ s.officers, o < s.nextOfficer)
    (hid : event.get "officerId" = some (.num id)) (hrange : inIntRange id)
    (hbadge : event.get "badgeName" = some (.str badge)) (hnew : id ∉ s.officerIDs) :
    ∃ s1, processOfficerGoesOnline s event = some s1 ∧ NewOfficerPost s s1 id badge := by
  have hfresh : s.nextOfficer ∉ s.officers := fun h => Nat.lt_irrefl _ (halloc _ h)
  have hto : toInt id = id := toInt_of_range hrange.1 hrange.2
  have hup : onlineOfficer s event =
      some ({ s.newOfficer id badge with officers := s.officers ++ [s.nextOfficer] },
        s.nextOfficer) := by
    simp [onlineOfficer, hid, hbadge, asFloat64, asString, hto, findOfficer_eq_none hnew]
  let s2 : Store := { s.newOfficer id badge with officers := s.officers ++ [s.nextOfficer] }
  have hat : ∀ a, a ≠ s.nextOfficer → s2.officerAt a = s.officerAt a := by
    intro a ha
    show (s.newOfficer id badge).officerAt a = s.officerAt a
    rw [newOfficer_officerAt, if_neg ha]
  have hself : s2.officerAt s.nextOfficer = ⟨id, badge, ⟨0, 0⟩, none⟩ := by
    show (s.newOfficer id badge).officerAt s.nextOfficer = _
    rw [newOfficer_officerAt, if_pos rfl]
  have hrun : processOfficerGoesOnline s event =
      match findFirstAvailableIncident s with
      | none => some s2
      | some i => some (assignOfficerToIncident s2 i s.nextOfficer) := by
    unfold processOfficerGoesOnline
    rw [hup]
    rfl
  cases hinc : findFirstAvailableIncident s with
  | none =>
    refine ⟨s2, ?_, rfl, hfresh, ?_, hat, ?_, ?_, rfl, ?_, ?_⟩
    · rw [hrun, hinc]
    · simp only [Store.liveOfficers, List.map_append, List.map_cons, List.map_nil, s2]
      congr 1
      exact List.map_congr_left (fun a ha => hat a (fun e => hfresh (e ▸ ha)))
    · rw [hself]
    · rw [hself]
    · intro front i back hsplit hi hfront
      rw [findFirstAvailableIncident_first hsplit hi hfront] at hinc
      simp at hinc
    · intro _
      exact ⟨by rw [hself], rfl⟩
  | some i =>
    have hat1 : ∀ a, a ≠ s.nextOfficer →
        (assignOfficerToIncident s2 i s.nextOfficer).officerAt a = s.officerAt a := by
      intro a ha
      simp only [assignOfficerToIncident, setOfficerIncident_officerAt, if_neg ha,
        setIncidentOfficer_officerAt, setIncidentOfficerId_officerAt]
      exact hat a ha
    refine ⟨assignOfficerToIncident s2 i s.nextOfficer, ?_, rfl, hfresh, ?_, hat1, ?_, ?_,
      rfl, ?_, ?_⟩
    · rw [hrun, hinc]
    · simp only [Store.liveOfficers, assign_officers, List.map_append, List.map_cons,
        List.map_nil, s2]
      congr 1
      exact List.map_congr_left (fun a ha => hat1 a (fun e => hfresh (e ▸ ha)))
    · rw [assign_officerAt_ID, hself]
    · rw [assign_officerAt_BadgeName, hself]
    · intro front i1 back hsplit hi hfront
      rw [findFirstAvailableIncident_first hsplit hi hfront] at hinc
      simp only [Option.some.injEq] at hinc
      subst hinc
      refine ⟨by simp, ?_, by simp, by simp, by simp, by simp, ?_⟩
      · rw [assign_incidentAt_OfficerId, if_pos rfl, hself]
      · intro a ha
        show (assignOfficerToIncident s2 i1 s.nextOfficer).incidentAt a = s2.incidentAt a
        simp [assignOfficerToIncident, setIncidentOfficer_incidentAt,
          setIncidentOfficerId_incidentAt, ha]
    · intro hall
      rw [findFirstAvailableIncident_none hall] at hinc
      simp at hinc

/-- C15 at scenario B: after scenario A, `OfficerGoesOnline{5, "B5"}` returns a store in
which officer 5 is appended and incident 10 has `OfficerId` 5. -/
theorem online_new_officer_witness :
    ∃ s1, processOfficerGoesOnline (storeAfter runA) (officerGoesOnline 5 "B5") = some s1 ∧
      NewOfficerPost (storeAfter runA) s1 5 "B5" :=
  online_new_officer (storeAfter runA) (officerGoesOnline 5 "B5") 5 "B5" (by decide) rfl
    (by unfold inIntRange; decide) rfl (by decide)

theorem decode_illTyped {event : Event} (h : illTypedIncidentOccurred event = true) :
    decodeIncidentOccurred event = none := by
  unfold illTypedIncidentOccurred at h
  simp only [Bool.or_eq_true] at h
  unfold decodeIncidentOccurred
  rcases h with ((h | h) | h) | h
  · simp [decodeInt_wrong 0 h]
  · cases decodeInt event "incidentId" 0 <;> simp [decodeString_wrong "" h]
  · cases decodeInt event "incidentId" 0 <;> cases decodeString event "codeName" "" <;>
      simp [decodeLocation_wrong ⟨0, 0⟩ h]
  · have hloc : decodeLocation event "loc" ⟨0, 0⟩ = none := by
      split at h
      · rename_i kvs hkvs
        simp only [Bool.or_eq_true] at h
        exact decodeLocation_wrong_field ⟨0, 0⟩ hkvs h
      · simp at h
    cases decodeInt event "incidentId" 0 <;> cases decodeString event "codeName" "" <;>
      simp [hloc]

/-- C17 (malformed fields are dropped) fails as stated: an `IncidentOccurred` event
without `incidentId` is not dropped, an incident with id 0 is appended; and an
`OfficerGoesOffline` event without `officerId`, or an `OfficerGoesOnline` event whose
`officerId` is a string, makes the type assertion `.(float64)` panic. -/
theorem malformed_not_dropped :
    (processIncidentRaw emptyStore (some eventNoIncidentId)).map Store.liveIncidents =
        some [⟨0, "code", ⟨12, 123124⟩, 0, none⟩] ∧
      processIncidentRaw emptyStore (some eventNoOfficerId) = none ∧
      processIncidentRaw emptyStore (some eventStringOfficerId) = none := by
  refine ⟨by decide, by rfl, by rfl⟩

/-- C17 as amended: for every state and every decoded `IncidentOccurred` event in which
`incidentId`, `loc.x` or `loc.y` is present with a JSON type other than number, `codeName`
with a type other than string, or `loc` with a type other than object,
`processIncidentRaw` returns and leaves the store, and so both lists, unchanged. -/
theorem ill_typed_incident_dropped (s : Store) (event : Event)
    (htype : eventType event = "IncidentOccurred")
    (hill : illTypedIncidentOccurred event = true) :
    processIncidentRaw s (some event) = some s := by
  unfold processIncidentRaw
  simp only [htype, if_true]
  unfold processIncidentOccurred
  rw [decode_illTyped hill]

/-- C17 as amended, at an `IncidentOccurred` event whose `incidentId` is the string "10",
after scenario B: the store is unchanged. -/
theorem ill_typed_incident_dropped_witness :
    processIncidentRaw (storeAfter runB) (some eventStringIncidentId) = some (storeAfter runB) :=
  ill_typed_incident_dropped (storeAfter runB) eventStringIncidentId (by decide) (by decide)

/-- C18 (unrecognised or missing type is dropped): for every state and every payload that
does not decode as a JSON object, or decodes to an object whose `type` is absent, not a
string, or a string other than the five event names, `processIncidentRaw` returns and
leaves the store, and so both lists, unchanged. -/
theorem unrecognised_dropped (s : Store) (d : Option Event) (h : unrecognised d = true) :
    processIncidentRaw s d = some s := by
  cases d with
  | none => rfl
  | some event =>
    have key : ∀ t, recognisedType t = false → (if t = "IncidentOccurred" then
        some (processIncidentOccurred s event)
      else if t = "IncidentResolved" then processIncidentResolved s event
      else if t = "OfficerGoesOnline" then processOfficerGoesOnline s event
      else if t = "OfficerLocationUpdated" then processLocationUpdated s event
      else if t = "OfficerGoesOffline" then processOfficerGoesOffline s event
      else some s) = some s := by
      intro t ht
      simp only [recognisedType, Bool.or_eq_false_iff, beq_eq_false_iff_ne, ne_eq] at ht
      obtain ⟨⟨⟨⟨h1, h2⟩, h3⟩, h4⟩, h5⟩ := ht
      rw [if_neg h1, if_neg h2, if_neg h3, if_neg h4, if_neg h5]
    have hev : recognisedType (eventType event) = false := by
      simp only [unrecognised] at h
      unfold eventType
      cases hty : event.get "type" with
      | none => decide
      | some v =>
        rw [hty] at h
        cases v with
        | str t => simpa using h
        | null => decide
        | bool b => show recognisedType "" = false; decide
        | num n => show recognisedType "" = false; decide
        | arr xs => show recognisedType "" = false; decide
        | obj kvs => show recognisedType "" = false; decide
    exact key _ hev

/-- C18 after scenario B, at a payload that is not JSON, an object without `type`, an
object whose `type` is a number, and an object whose `type` is "Unknown": each time the
store is unchanged. -/
theorem unrecognised_dropped_witness :
    processIncidentRaw (storeAfter runB) none = some (storeAfter runB) ∧
      processIncidentRaw (storeAfter runB) (some [("officerId", .num 5)])
        = some (storeAfter runB) ∧
      processIncidentRaw (storeAfter runB) (some [("type", .num 1), ("officerId", .num 5)])
        = some (storeAfter runB) ∧
      processIncidentRaw (storeAfter runB)
        (some [("type", .str "Unknown"), ("officerId", .num 5)]) = some (storeAfter runB) :=
  ⟨unrecognised_dropped (storeAfter runB) none (by decide),
   unrecognised_dropped (storeAfter runB) (some [("officerId", .num 5)]) (by decide),
   unrecognised_dropped (storeAfter runB) (some [("type", .num 1), ("officerId", .num 5)])
     (by decide),
   unrecognised_dropped (storeAfter runB)
     (some [("type", .str "Unknown"), ("officerId", .num 5)]) (by decide)⟩

theorem mirrored_setOfficerIncident {s : Store} (h : Mirrored s) (o : Nat) (v : Option Nat) :
    Mirrored (s.setOfficerIncident o v) := by
  intro i
  simpa using h i

theorem mirrored_setOfficerLoc {s : Store} (h : Mirrored s) (o : Nat) (x y : Int) :
    Mirrored ((s.setOfficerLocX o x).setOfficerLocY o y) := by
  intro i
  simpa using h i

theorem mirrored_clear {s : Store} (h : Mirrored s) (i : Nat) :
    Mirrored ((s.setIncidentOfficer i none).setIncidentOfficerId i 0) := by
  intro a
  by_cases ha : a = i
  · subst ha; simp
  · simpa [ha] using h a

theorem mirrored_assign {s : Store} (h : Mirrored s) (i o : Nat) (ho : o < s.nextOfficer) :
    Mirrored (assignOfficerToIncident s i o) := by
  intro a
  by_cases ha : a = i
  · subst ha; simp [ho]
  · simpa [ha] using h a

theorem mirrored_newIncident {s : Store} (h : Mirrored s) (id : Int) (code : String)
    (loc : Location) : Mirrored (s.newIncident id code loc) := by
  intro a
  by_cases ha : a = s.nextIncident
  · subst ha; simp [newIncident_incidentAt]
  · simpa [newIncident_incidentAt, ha] using h a

theorem mirrored_newOfficer {s : Store} (h : Mirrored s) (id : Int) (badge : String) :
    Mirrored (s.newOfficer id badge) := by
  intro a
  refine ⟨(h a).1, fun o ho => ?_⟩
  obtain ⟨h1, h2⟩ := (h a).2 o ho
  refine ⟨Nat.lt_succ_of_lt h1, ?_⟩
  rw [newOfficer_officerAt, if_neg (Nat.ne_of_lt h1)]
  exact h2

theorem mirrored_lists {s : Store} (h : Mirrored s) (os is : List Nat) :
    Mirrored { s with officers := os, incidents := is } := h

theorem findOfficer_mem {s : Store} {id : Int} {o : Nat} (h : findOfficer s id = some o) :
    o ∈ s.officers := List.mem_of_find?_eq_some h

theorem mirrored_processIncidentOccurred {s : Store} (h : Mirrored s) (hok : OfficersOK s)
    (event : Event) : Mirrored (processIncidentOccurred s event) := by
  unfold processIncidentOccurred
  split
  · exact h
  · rename_i id code loc _
    refine mirrored_lists (s := matchIncident s id code loc) ?_ _ _
    unfold matchIncident
    simp only []
    split
    · exact mirrored_newIncident h id code loc
    · rename_i officer hnear
      have hmem := ((nearest_minimal_computed _ loc).2 officer hnear).1
      exact mirrored_assign (mirrored_newIncident h id code loc) _ _ (hok.fresh officer hmem)

theorem mirrored_processIncidentResolved {s s1 : Store} (h : Mirrored s) {event : Event}
    (hstep : processIncidentResolved s event = some s1) : Mirrored s1 := by
  unfold processIncidentResolved at hstep
  simp only [Option.bind_eq_bind, Option.bind_eq_some] at hstep
  obtain ⟨n, -, incident, -, officer, -, hstep⟩ := hstep
  unfold removeIncident at hstep
  split at hstep
  · simp at hstep
  · simp only [Option.some.injEq] at hstep
    subst hstep
    exact mirrored_lists (mirrored_setOfficerIncident h officer none) _ _

theorem mirrored_processLocationUpdated {s s1 : Store} (h : Mirrored s) {event : Event}
    (hstep : processLocationUpdated s event = some s1) : Mirrored s1 := by
  unfold processLocationUpdated at hstep
  simp only [Option.bind_eq_bind, Option.bind_eq_some, Option.some.injEq] at hstep
  obtain ⟨n, -, locMap, -, x, -, officer, -, y, -, hstep⟩ := hstep
  subst hstep
  exact mirrored_setOfficerLoc h officer _ _

theorem mirrored_removeOfficer {s s1 : Store} (h : Mirrored s) {id : Int}
    (hstep : removeOfficer s id = some s1) : Mirrored s1 := by
  unfold removeOfficer at hstep
  split at hstep
  · simp at hstep
  · simp only [Option.some.injEq] at hstep
    subst hstep
    exact mirrored_lists h _ _

theorem mirrored_processOfficerGoesOffline {s s1 : Store} (h : Mirrored s) {event : Event}
    (hstep : processOfficerGoesOffline s event = some s1) : Mirrored s1 := by
  unfold processOfficerGoesOffline at hstep
  simp only [Option.bind_eq_bind, Option.bind_eq_some] at hstep
  obtain ⟨n, -, hstep⟩ := hstep
  split at hstep
  · simp only [Option.some.injEq] at hstep; subst hstep; exact h
  · split at hstep
    · exact mirrored_removeOfficer h hstep
    · exact mirrored_removeOfficer (mirrored_setOfficerIncident (mirrored_clear h _) _ _) hstep

theorem mirrored_onlineOfficer {s s1 : Store} (h : Mirrored s) (hok : OfficersOK s)
    {event : Event} {officer : Nat} (hup : onlineOfficer s event = some (s1, officer)) :
    Mirrored s1 ∧ officer < s1.nextOfficer := by
  unfold onlineOfficer at hup
  simp only [Option.bind_eq_bind, Option.bind_eq_some] at hup
  obtain ⟨n, -, hup⟩ := hup
  split at hup
  · rename_i o hfind
    simp only [Option.some.injEq, Prod.mk.injEq] at hup
    obtain ⟨rfl, rfl⟩ := hup
    exact ⟨h, hok.fresh _ (findOfficer_mem hfind)⟩
  · simp only [Option.bind_eq_some, Option.some.injEq, Prod.mk.injEq] at hup
    obtain ⟨badge, -, rfl, rfl⟩ := hup
    exact ⟨mirrored_lists (mirrored_newOfficer h _ _) _ _, Nat.lt_succ_self _⟩

theorem mirrored_processOfficerGoesOnline {s s1 : Store} (h : Mirrored s) (hok : OfficersOK s)
    {event : Event} (hstep : processOfficerGoesOnline s event = some s1) : Mirrored s1 := by
  unfold processOfficerGoesOnline at hstep
  simp only [Option.bind_eq_bind, Option.bind_eq_some] at hstep
  obtain ⟨⟨s2, officer⟩, hup, hstep⟩ := hstep
  obtain ⟨h2, hlt⟩ := mirrored_onlineOfficer h hok hup
  simp only [] at hstep
  split at hstep
  · simp only [Option.some.injEq] at hstep; subst hstep; exact h2
  · simp only [Option.some.injEq] at hstep; subst hstep
    exact mirrored_assign h2 _ _ hlt

theorem mirrored_processIncidentRaw {s s1 : Store} (h : Mirrored s) (hok : OfficersOK s)
    {d : Option Event} (hstep : processIncidentRaw s d = some s1) : Mirrored s1 := by
  unfold processIncidentRaw at hstep
  split at hstep
  · simp only [Option.some.injEq] at hstep; subst hstep; exact h
  · simp only [] at hstep
    split_ifs at hstep
    · simp only [Option.some.injEq] at hstep; subst hstep
      exact mirrored_processIncidentOccurred h hok _
    · exact mirrored_processIncidentResolved h hstep
    · exact mirrored_processOfficerGoesOnline h hok hstep
    · exact mirrored_processLocationUpdated h hstep
    · exact mirrored_processOfficerGoesOffline h hstep
    · simp only [Option.some.injEq] at hstep; subst hstep; exact h

theorem reachable_mirrored {s : Store} (h : Reachable s) : Mirrored s := by
  induction h with
  | init => intro i; simp [emptyStore]
  | step d hs hstep ih => exact mirrored_processIncidentRaw ih (reachable_officersOK hs) hstep

/-- C19 (published officerID mirrors the back-reference): in every state reachable from
the empty store, every incident in the incidents list with `Officer` nil has `OfficerId`
0, and every incident with `Officer == o` has `OfficerId == o.ID`. -/
theorem officerId_mirrors_officer (s : Store) (h : Reachable s) :
    ∀ i ∈ s.incidents, ((s.incidentAt i).Officer = none → (s.incidentAt i).OfficerId = 0) ∧
      ∀ o, (s.incidentAt i).Officer = some o →
        (s.incidentAt i).OfficerId = (s.officerAt o).ID :=
  fun i _ => ⟨(reachable_mirrored h i).1, fun o ho => ((reachable_mirrored h i).2 o ho).2⟩

/-- C19 at the run `runMirror`: incident 10, now linked to officer 6, has `OfficerId` 6 and
the unassigned incident 11 has `OfficerId` 0. -/
theorem officerId_mirrors_officer_witness :
    (storeAfter runMirror).liveIncidents =
        [⟨10, "code", ⟨12, 123124⟩, 6, some 1⟩, ⟨11, "code", ⟨1, 2⟩, 0, none⟩] ∧
      ∀ i ∈ (storeAfter runMirror).incidents,
        (((storeAfter runMirror).incidentAt i).Officer = none →
          ((storeAfter runMirror).incidentAt i).OfficerId = 0) ∧
        ∀ o, ((storeAfter runMirror).incidentAt i).Officer = some o →
          ((storeAfter runMirror).incidentAt i).OfficerId
            = ((storeAfter runMirror).officerAt o).ID :=
  ⟨by decide, officerId_mirrors_officer (storeAfter runMirror)
    (storeAfter_reachable (s := storeAfter runMirror) (by rfl))⟩

/-! ## The relationship invariant -/

theorem linked_of_relInv {s : Store} (h : RelInv s) : Linked s :=
  ⟨fun o ho i hoi => ⟨h.officerLinks o ho i hoi,
      (h.sym o ho i (h.officerLinks o ho i hoi)).mp hoi⟩,
   fun i hi o hio => ⟨h.incidentLinks i hi o hio,
      (h.sym o (h.incidentLinks i hi o hio) i hi).mpr hio⟩⟩

theorem relInv_of_linked {s : Store} (ho : s.officerIDs.Nodup) (hi : s.incidentIDs.Nodup)
    (h : Linked s) : RelInv s :=
  ⟨ho, hi,
   fun o hom i him => ⟨fun hoi => (h.fromOfficer o hom i hoi).2,
      fun hio => (h.fromIncident i him o hio).2⟩,
   fun o hom i hoi => (h.fromOfficer o hom i hoi).1,
   fun i him o hio => (h.fromIncident i him o hio).1⟩

/-- Linking an unassigned live officer to an unassigned live incident. -/
theorem linked_assign {s : Store} (h : Linked s) {i o : Nat} (ho : o ∈ s.officers)
    (hoi : (s.officerAt o).Incident = none) (hi : i ∈ s.incidents)
    (hio : (s.incidentAt i).Officer = none) : Linked (assignOfficerToIncident s i o) := by
  constructor
  · intro o1 ho1 j hj
    simp only [assign_officers, assign_incidents, assign_officerAt_Incident,
      assign_incidentAt_Officer] at ho1 hj ⊢
    by_cases e : o1 = o
    · subst e
      simp only [if_true, Option.some.injEq] at hj
      subst hj
      exact ⟨hi, by simp⟩
    · rw [if_neg e] at hj
      obtain ⟨h1, h2⟩ := h.fromOfficer o1 ho1 j hj
      have hne : j ≠ i := by
        rintro rfl
        rw [hio] at h2
        simp at h2
      exact ⟨h1, by rw [if_neg hne]; exact h2⟩
  · intro j hj o1 ho1
    simp only [assign_officers, assign_incidents, assign_officerAt_Incident,
      assign_incidentAt_Officer] at hj ho1 ⊢
    by_cases e : j = i
    · subst e
      simp only [if_true, Option.some.injEq] at ho1
      subst ho1
      exact ⟨ho, by simp⟩
    · rw [if_neg e] at ho1
      obtain ⟨h1, h2⟩ := h.fromIncident j hj o1 ho1
      have hne : o1 ≠ o := by
        rintro rfl
        rw [hoi] at h2
        simp at h2
      exact ⟨h1, by rw [if_neg hne]; exact h2⟩

/-- Appending a freshly allocated, unassigned incident. -/
theorem linked_newIncident {s : Store} (h : Linked s) (ha : ∀ i ∈ s.incidents, i < s.nextIncident)
    (id : Int) (code : String) (loc : Location) :
    Linked { s.newIncident id code loc with incidents := s.incidents ++ [s.nextIncident] } := by
  have hnew : s.nextIncident ∉ s.incidents := fun hm => Nat.lt_irrefl _ (ha _ hm)
  constructor
  · intro o ho i hoi
    obtain ⟨h1, h2⟩ := h.fromOfficer o ho i hoi
    refine ⟨List.mem_append_left _ h1, ?_⟩
    show ((s.newIncident id code loc).incidentAt i).Officer = some o
    rw [newIncident_incidentAt, if_neg (fun (e : i = s.nextIncident) => hnew (e ▸ h1))]
    exact h2
  · intro i hi o hio
    change ((s.newIncident id code loc).incidentAt i).Officer = some o at hio
    change i ∈ s.incidents ++ [s.nextIncident] at hi
    rw [newIncident_incidentAt] at hio
    by_cases e : i = s.nextIncident
    · rw [if_pos e] at hio; simp at hio
    · rw [if_neg e] at hio
      rcases List.mem_append.mp hi with hi | hi
      · exact h.fromIncident i hi o hio
      · exact absurd (List.mem_singleton.mp hi) e

/-- Appending a freshly allocated, unassigned officer. -/
theorem linked_newOfficer {s : Store} (h : Linked s) (ha : ∀ o ∈ s.officers, o < s.nextOfficer)
    (id : Int) (badge : String) :
    Linked { s.newOfficer id badge with officers := s.officers ++ [s.nextOfficer] } := by
  have hnew : s.nextOfficer ∉ s.officers := fun hm => Nat.lt_irrefl _ (ha _ hm)
  constructor
  · intro o ho i hoi
    change ((s.newOfficer id badge).officerAt o).Incident = some i at hoi
    change o ∈ s.officers ++ [s.nextOfficer] at ho
    rw [newOfficer_officerAt] at hoi
    by_cases e : o = s.nextOfficer
    · rw [if_pos e] at hoi; simp at hoi
    · rw [if_neg e] at hoi
      rcases List.mem_append.mp ho with ho | ho
      · exact h.fromOfficer o ho i hoi
      · exact absurd (List.mem_singleton.mp ho) e
  · intro i hi o hio
    obtain ⟨h1, h2⟩ := h.fromIncident i hi o hio
    refine ⟨List.mem_append_left _ h1, ?_⟩
    show ((s.newOfficer id badge).officerAt o).Incident = some i
    rw [newOfficer_officerAt, if_neg (fun (e : o = s.nextOfficer) => hnew (e ▸ h1))]
    exact h2

/-- Clearing the officer side of a link and removing the incident. -/
theorem linked_resolve {s s1 : Store} (h : Linked s) (hu : s.incidentIDs.Nodup) {i o : Nat}
    (hi : i ∈ s.incidents) (hio : (s.incidentAt i).Officer = some o)
    (hstep : removeIncident (s.setOfficerIncident o none) i = some s1) : Linked s1 := by
  obtain ⟨holive, hoi⟩ := h.fromIncident i hi o hio
  have hinj : ∀ j ∈ s.incidents, j ≠ i → (s.incidentAt j).ID ≠ (s.incidentAt i).ID :=
    fun j hj hne e => hne (List.inj_on_of_nodup_map hu hj hi e)
  unfold removeIncident at hstep
  split at hstep
  · simp at hstep
  · simp only [Option.some.injEq] at hstep
    subst hstep
    constructor
    · intro o1 ho1 j hj
      change ((s.setOfficerIncident o none).officerAt o1).Incident = some j at hj
      change o1 ∈ s.officers at ho1
      rw [setOfficerIncident_Incident] at hj
      by_cases e : o1 = o
      · rw [if_pos e] at hj; simp at hj
      · rw [if_neg e] at hj
        obtain ⟨h1, h2⟩ := h.fromOfficer o1 ho1 j hj
        have hne : j ≠ i := by
          rintro rfl
          rw [hio] at h2
          exact e (Option.some.inj h2).symm
        exact ⟨List.mem_filter.mpr ⟨h1, by simpa using hinj j h1 hne⟩, h2⟩
    · intro j hj o1 ho1
      change (s.incidentAt j).Officer = some o1 at ho1
      obtain ⟨hj1, hj2⟩ := List.mem_filter.mp hj
      have hne : j ≠ i := by
        rintro rfl
        simp at hj2
      obtain ⟨h1, h2⟩ := h.fromIncident j hj1 o1 ho1
      refine ⟨h1, ?_⟩
      show ((s.setOfficerIncident o none).officerAt o1).Incident = some j
      rw [setOfficerIncident_Incident]
      have : o1 ≠ o := by
        rintro rfl
        rw [hoi] at h2
        exact hne (Option.some.inj h2).symm
      rw [if_neg this]
      exact h2

/-- Removing an unassigned officer. -/
theorem linked_removeUnassigned {s s1 : Store} (h : Linked s) (hu : s.officerIDs.Nodup)
    {o : Nat} (ho : o ∈ s.officers) (hoi : (s.officerAt o).Incident = none)
    (hstep : removeOfficer s (s.officerAt o).ID = some s1) : Linked s1 := by
  have hinj : ∀ a ∈ s.officers, a ≠ o → (s.officerAt a).ID ≠ (s.officerAt o).ID :=
    fun a ha hne e => hne (List.inj_on_of_nodup_map hu ha ho e)
  unfold removeOfficer at hstep
  split at hstep
  · simp at hstep
  · simp only [Option.some.injEq] at hstep
    subst hstep
    constructor
    · intro o1 ho1 j hj
      exact h.fromOfficer o1 (List.mem_filter.mp ho1).1 j hj
    · intro j hj o1 ho1
      obtain ⟨h1, h2⟩ := h.fromIncident j hj o1 ho1
      have hne : o1 ≠ o := by
        rintro rfl
        rw [hoi] at h2
        simp at h2
      exact ⟨List.mem_filter.mpr ⟨h1, by simpa using hinj o1 h1 hne⟩, h2⟩

/-- Clearing both sides of a link and removing the officer. -/
theorem linked_removeAssigned {s s1 : Store} (h : Linked s) (hu : s.officerIDs.Nodup)
    {o i : Nat} (ho : o ∈ s.officers) (hoi : (s.officerAt o).Incident = some i)
    (hstep : removeOfficer
      (((s.setIncidentOfficer i none).setIncidentOfficerId i 0).setOfficerIncident o none)
      (s.officerAt o).ID = some s1) : Linked s1 := by
  obtain ⟨hilive, hio⟩ := h.fromOfficer o ho i hoi
  have hinj : ∀ a ∈ s.officers, a ≠ o → (s.officerAt a).ID ≠ (s.officerAt o).ID :=
    fun a ha hne e => hne (List.inj_on_of_nodup_map hu ha ho e)
  unfold removeOfficer at hstep
  split at hstep
  · simp at hstep
  · simp only [Option.some.injEq] at hstep
    subst hstep
    constructor
    · intro o1 ho1 j hj
      simp only [setOfficerIncident_officers, setIncidentOfficerId_officers,
        setIncidentOfficer_officers, setOfficerIncident_ID, setIncidentOfficerId_officerAt,
        setIncidentOfficer_officerAt, setOfficerIncident_Incident,
        setOfficerIncident_incidents, setIncidentOfficerId_incidents,
        setIncidentOfficer_incidents, setOfficerIncident_incidentAt,
        setIncidentOfficerId_Officer, setIncidentOfficer_Officer] at ho1 hj ⊢
      obtain ⟨hm, hid⟩ := List.mem_filter.mp ho1
      have hne : o1 ≠ o := by
        rintro rfl
        simp at hid
      rw [if_neg hne] at hj
      obtain ⟨h1, h2⟩ := h.fromOfficer o1 hm j hj
      have hji : j ≠ i := by
        rintro rfl
        rw [hio] at h2
        exact hne (Option.some.inj h2).symm
      exact ⟨h1, by rw [if_neg hji]; exact h2⟩
    · intro j hj o1 ho1
      simp only [setOfficerIncident_officers, setIncidentOfficerId_officers,
        setIncidentOfficer_officers, setOfficerIncident_ID, setIncidentOfficerId_officerAt,
        setIncidentOfficer_officerAt, setOfficerIncident_Incident,
        setOfficerIncident_incidents, setIncidentOfficerId_incidents,
        setIncidentOfficer_incidents, setOfficerIncident_incidentAt,
        setIncidentOfficerId_Officer, setIncidentOfficer_Officer] at hj ho1 ⊢
      by_cases e : j = i
      · rw [if_pos e] at ho1; simp at ho1
      · rw [if_neg e] at ho1
        obtain ⟨h1, h2⟩ := h.fromIncident j hj o1 ho1
        have hne : o1 ≠ o := by
          rintro rfl
          rw [hoi] at h2
          exact e (Option.some.inj h2).symm
        exact ⟨List.mem_filter.mpr ⟨h1, by simpa using hinj o1 h1 hne⟩,
          by rw [if_neg hne]; exact h2⟩

/-- An update of an officer's location. -/
theorem linked_setOfficerLoc {s : Store} (h : Linked s) (o : Nat) (x y : Int) :
    Linked ((s.setOfficerLocX o x).setOfficerLocY o y) := by
  constructor
  · intro o1 ho1 j hj
    simp only [setOfficerLocY_officers, setOfficerLocX_officers, setOfficerLocY_Incident,
      setOfficerLocX_Incident, setOfficerLocY_incidents, setOfficerLocX_incidents,
      setOfficerLocY_incidentAt, setOfficerLocX_incidentAt] at ho1 hj ⊢
    exact h.fromOfficer o1 ho1 j hj
  · intro j hj o1 ho1
    simp only [setOfficerLocY_officers, setOfficerLocX_officers, setOfficerLocY_Incident,
      setOfficerLocX_Incident, setOfficerLocY_incidents, setOfficerLocX_incidents,
      setOfficerLocY_incidentAt, setOfficerLocX_incidentAt] at hj ho1 ⊢
    exact h.fromIncident j hj o1 ho1

theorem linked_processIncidentOccurred {s : Store} (h : Linked s)
    (ha : ∀ i ∈ s.incidents, i < s.nextIncident) (event : Event) :
    Linked (processIncidentOccurred s event) := by
  unfold processIncidentOccurred
  split
  · exact h
  · rename_i id code loc _
    have hbase := linked_newIncident h ha id code loc
    unfold matchIncident
    simp only []
    split
    · exact hbase
    · rename_i officer hnear
      obtain ⟨hmem, hav, -⟩ := (nearest_minimal_computed _ loc).2 officer hnear
      have := linked_assign hbase (i := s.nextIncident) (o := officer) hmem hav
        (List.mem_append_right _ (List.mem_singleton.mpr rfl))
        (by show ((s.newIncident id code loc).incidentAt s.nextIncident).Officer = none
            rw [newIncident_incidentAt, if_pos rfl])
      exact this

theorem linked_processIncidentResolved {s s1 : Store} (h : Linked s) (hu : s.incidentIDs.Nodup)
    {event : Event} (hstep : processIncidentResolved s event = some s1) : Linked s1 := by
  unfold processIncidentResolved at hstep
  simp only [Option.bind_eq_bind, Option.bind_eq_some] at hstep
  obtain ⟨n, -, incident, hfind, officer, hoff, hstep⟩ := hstep
  exact linked_resolve h hu (List.mem_of_find?_eq_some hfind) hoff hstep

theorem linked_processLocationUpdated {s s1 : Store} (h : Linked s) {event : Event}
    (hstep : processLocationUpdated s event = some s1) : Linked s1 := by
  unfold processLocationUpdated at hstep
  simp only [Option.bind_eq_bind, Option.bind_eq_some, Option.some.injEq] at hstep
  obtain ⟨n, -, locMap, -, x, -, officer, -, y, -, hstep⟩ := hstep
  subst hstep
  exact linked_setOfficerLoc h officer _ _

theorem findOfficer_ID {s : Store} {id : Int} {o : Nat} (h : findOfficer s id = some o) :
    (s.officerAt o).ID = id := by
  have := List.find?_some h
  simpa using this

theorem linked_processOfficerGoesOffline {s s1 : Store} (h : Linked s)
    (hu : s.officerIDs.Nodup) {event : Event}
    (hstep : processOfficerGoesOffline s event = some s1) : Linked s1 := by
  unfold processOfficerGoesOffline at hstep
  simp only [Option.bind_eq_bind, Option.bind_eq_some] at hstep
  obtain ⟨n, -, hstep⟩ := hstep
  split at hstep
  · simp only [Option.some.injEq] at hstep; subst hstep; exact h
  · rename_i officer hfind
    have hmem := findOfficer_mem hfind
    rw [← findOfficer_ID hfind] at hstep
    split at hstep
    · rename_i hinc
      exact linked_removeUnassigned h hu hmem hinc hstep
    · rename_i inc hinc
      exact linked_removeAssigned h hu hmem hinc hstep

theorem linked_processOfficerGoesOnline {s s1 : Store} (h : Linked s)
    (ha : ∀ o ∈ s.officers, o < s.nextOfficer) {event : Event}
    (hB : reonlineAssigned s (some event) = false)
    (htype : eventType event = "OfficerGoesOnline")
    (hstep : processOfficerGoesOnline s event = some s1) : Linked s1 := by
  unfold processOfficerGoesOnline at hstep
  simp only [Option.bind_eq_bind, Option.bind_eq_some] at hstep
  obtain ⟨⟨s2, officer⟩, hup, hstep⟩ := hstep
  have h2 : Linked s2 ∧ officer ∈ s2.officers ∧ (s2.officerAt officer).Incident = none := by
    unfold onlineOfficer at hup
    simp only [Option.bind_eq_bind, Option.bind_eq_some] at hup
    obtain ⟨n, hn, hup⟩ := hup
    split at hup
    · rename_i o hfind
      simp only [Option.some.injEq, Prod.mk.injEq] at hup
      obtain ⟨rfl, rfl⟩ := hup
      refine ⟨h, findOfficer_mem hfind, ?_⟩
      simp only [reonlineAssigned, htype, decide_True, Bool.true_and, hn, hfind] at hB
      cases hinc : (s.officerAt o).Incident with
      | none => rfl
      | some i => rw [hinc] at hB; simp at hB
    · simp only [Option.bind_eq_some, Option.some.injEq, Prod.mk.injEq] at hup
      obtain ⟨badge, -, rfl, rfl⟩ := hup
      refine ⟨linked_newOfficer h ha _ _, List.mem_append_right _ (List.mem_singleton.mpr rfl),
        ?_⟩
      show ((s.newOfficer (toInt n) badge).officerAt s.nextOfficer).Incident = none
      rw [newOfficer_officerAt, if_pos rfl]
  simp only [] at hstep
  split at hstep
  · simp only [Option.some.injEq] at hstep; subst hstep; exact h2.1
  · rename_i i hfirst
    simp only [Option.some.injEq] at hstep; subst hstep
    have hi : i ∈ s2.incidents := List.mem_of_find?_eq_some hfirst
    have hio : (s2.incidentAt i).Officer = none := by
      have := List.find?_some hfirst
      simpa using this
    exact linked_assign h2.1 h2.2.1 h2.2.2 hi hio

theorem linked_processIncidentRaw {s s1 : Store} {d : Option Event} (ha : Allocated s)
    (hinv : RelInv s) (hB : reonlineAssigned s d = false)
    (hstep : processIncidentRaw s d = some s1) : Linked s1 := by
  have h := linked_of_relInv hinv
  unfold processIncidentRaw at hstep
  split at hstep
  · simp only [Option.some.injEq] at hstep; subst hstep; exact h
  · simp only [] at hstep
    split_ifs at hstep with t1 t2 t3 t4 t5
    · simp only [Option.some.injEq] at hstep; subst hstep
      exact linked_processIncidentOccurred h ha.incidents _
    · exact linked_processIncidentResolved h hinv.incidentIDs hstep
    · exact linked_processOfficerGoesOnline h ha.officers hB t3 hstep
    · exact linked_processLocationUpdated h hstep
    · exact linked_processOfficerGoesOffline h hinv.officerIDs hstep
    · simp only [Option.some.injEq] at hstep; subst hstep; exact h

/-- The relationship invariant is preserved by every payload that is handled without a
panic and is neither (a) an `IncidentOccurred` reusing the id of a live incident nor (b) an
`OfficerGoesOnline` naming an officer with an assigned incident. -/
theorem relInv_preserved {s s1 : Store} {d : Option Event} (ha : Allocated s) (hinv : RelInv s)
    (hA : reusesIncidentID s d = false) (hB : reonlineAssigned s d = false)
    (hstep : processIncidentRaw s d = some s1) : Allocated s1 ∧ RelInv s1 := by
  have ho := ok_processIncidentRaw ⟨ha.officers, hinv.officerIDs⟩ hstep
  have hi := iok_processIncidentRaw ⟨ha.incidents, hinv.incidentIDs⟩ hA hstep
  exact ⟨⟨ho.fresh, hi.fresh⟩,
    relInv_of_linked ho.nodup hi.nodup (linked_processIncidentRaw ha hinv hB hstep)⟩

theorem asFloat64_of_isNumber {v : Option JVal} (h : isNumber v = true) :
    ∃ n, asFloat64 v = some n := by
  unfold isNumber at h
  split at h
  · exact ⟨_, rfl⟩
  · simp at h

theorem asString_of_isString {v : Option JVal} (h : isString v = true) :
    ∃ b, asString v = some b := by
  unfold isString at h
  split at h
  · exact ⟨_, rfl⟩
  · simp at h

theorem asMap_of_isLocation {v : Option JVal} (h : isLocation v = true) :
    ∃ kvs x y, asMap v = some kvs ∧ asFloat64 (Event.get kvs "x") = some x ∧
      asFloat64 (Event.get kvs "y") = some y := by
  unfold isLocation at h
  split at h
  · rename_i kvs
    simp only [Bool.and_eq_true] at h
    obtain ⟨x, hx⟩ := asFloat64_of_isNumber h.1
    obtain ⟨y, hy⟩ := asFloat64_of_isNumber h.2
    exact ⟨kvs, x, y, rfl, hx, hy⟩
  · simp at h

theorem removeOfficer_isSome {s : Store} {o : Nat} (ho : o ∈ s.officers) (id : Int) :
    ∃ s1, removeOfficer s id = some s1 := by
  unfold removeOfficer
  have : s.officers.length ≠ 0 := by
    intro h0
    rw [List.length_eq_zero] at h0
    rw [h0] at ho
    simp at ho
  rw [if_neg this]
  exact ⟨_, rfl⟩

theorem removeIncident_isSome {s : Store} {i : Nat} (hi : i ∈ s.incidents) (j : Nat) :
    ∃ s1, removeIncident s j = some s1 := by
  unfold removeIncident
  have : s.incidents.length ≠ 0 := by
    intro h0
    rw [List.length_eq_zero] at h0
    rw [h0] at hi
    simp at hi
  rw [if_neg this]
  exact ⟨_, rfl⟩

/-- A well-formed event is handled without a panic unless it is (c) an `IncidentResolved`
naming an unknown or unassigned incident, or an `OfficerLocationUpdated` naming an unknown
officer. -/
theorem wellFormed_completes (s : Store) (event : Event) (hwf : wellFormedEvent event = true)
    (hC : resolvesUnassigned s (some event) = false)
    (hD : updatesUnknownOfficer s (some event) = false) :
    ∃ s1, processIncidentRaw s (some event) = some s1 := by
  unfold wellFormedEvent at hwf
  unfold processIncidentRaw
  simp only []
  split_ifs at hwf ⊢ with t1 t2 t3 t4 t5
  · exact ⟨_, rfl⟩
  · obtain ⟨n, hn⟩ := asFloat64_of_isNumber hwf
    simp only [resolvesUnassigned, t2, decide_True, Bool.true_and, hn] at hC
    cases hfind : findIncidentByID s (toInt n) with
    | none => rw [hfind] at hC; simp at hC
    | some i =>
      rw [hfind] at hC
      simp only [] at hC
      cases hoff : (s.incidentAt i).Officer with
      | none => rw [hoff] at hC; simp at hC
      | some o =>
        have hi : i ∈ s.incidents := List.mem_of_find?_eq_some hfind
        obtain ⟨s1, h1⟩ := removeIncident_isSome (s := s.setOfficerIncident o none) hi i
        exact ⟨s1, by simp [processIncidentResolved, hn, hfind, hoff, h1]⟩
  · simp only [Bool.and_eq_true] at hwf
    obtain ⟨n, hn⟩ := asFloat64_of_isNumber hwf.1
    obtain ⟨b, hb⟩ := asString_of_isString hwf.2
    have hup : ∃ r, onlineOfficer s event = some r := by
      unfold onlineOfficer
      simp only [hn, hb, Option.bind_eq_bind, Option.some_bind]
      cases findOfficer s (toInt n) <;> exact ⟨_, rfl⟩
    obtain ⟨⟨s2, o⟩, hup⟩ := hup
    unfold processOfficerGoesOnline
    simp only [hup, Option.bind_eq_bind, Option.some_bind]
    cases findFirstAvailableIncident s2 <;> exact ⟨_, rfl⟩
  · simp only [Bool.and_eq_true] at hwf
    obtain ⟨n, hn⟩ := asFloat64_of_isNumber hwf.1
    obtain ⟨kvs, x, y, hm, hx, hy⟩ := asMap_of_isLocation hwf.2
    simp only [updatesUnknownOfficer, t4, decide_True, Bool.true_and, hn] at hD
    cases hfind : findOfficer s (toInt n) with
    | none => rw [hfind] at hD; simp at hD
    | some o =>
      exact ⟨(s.setOfficerLocX o (toInt x)).setOfficerLocY o (toInt y),
        by simp [processLocationUpdated, hn, hm, hx, hy, hfind]⟩
  · obtain ⟨n, hn⟩ := asFloat64_of_isNumber hwf
    unfold processOfficerGoesOffline
    simp only [hn, Option.bind_eq_bind, Option.some_bind]
    cases hfind : findOfficer s (toInt n) with
    | none => exact ⟨_, rfl⟩
    | some o =>
      simp only []
      have ho := findOfficer_mem hfind
      cases (s.officerAt o).Incident with
      | none => exact removeOfficer_isSome ho _
      | some i =>
        exact removeOfficer_isSome (s := ((s.setIncidentOfficer i none).setIncidentOfficerId
          i 0).setOfficerIncident o none) ho _

/-- From a state satisfying the relationship invariant, an admissible payload is handled
without a panic and leads to a state satisfying the invariant. -/
theorem admissible_step {s : Store} {d : Option Event} (ha : Allocated s) (hinv : RelInv s)
    (hadm : admissible s d = true) :
    ∃ s1, processIncidentRaw s d = some s1 ∧ Allocated s1 ∧ RelInv s1 := by
  cases d with
  | none => simp [admissible] at hadm
  | some event =>
    simp only [admissible, Bool.and_eq_true, Bool.not_eq_true'] at hadm
    obtain ⟨⟨⟨⟨hwf, hA⟩, hB⟩, hC⟩, hD⟩ := hadm
    obtain ⟨s1, hstep⟩ := wellFormed_completes s event hwf hC hD
    exact ⟨s1, hstep, relInv_preserved ha hinv hA hB hstep⟩

theorem relInv_emptyStore : Allocated emptyStore ∧ RelInv emptyStore := by
  refine ⟨⟨?_, ?_⟩, ⟨?_, ?_, ?_, ?_, ?_⟩⟩
  · intro o ho; simp [emptyStore] at ho
  · intro i hi; simp [emptyStore] at hi
  · simp [Store.officerIDs, emptyStore]
  · simp [Store.incidentIDs, emptyStore]
  · intro o ho; simp [emptyStore] at ho
  · intro o ho; simp [emptyStore] at ho
  · intro i hi; simp [emptyStore] at hi

/-- Every state reached from the empty store by admissible payloads satisfies the
relationship invariant. -/
theorem reachableAdmissible_relInv {s : Store} (h : ReachableAdmissible s) :
    Allocated s ∧ RelInv s := by
  induction h with
  | init => exact relInv_emptyStore
  | step d _ hadm hstep ih =>
    obtain ⟨s2, h2, hres⟩ := admissible_step ih.1 ih.2 hadm
    rw [hstep] at h2
    simp only [Option.some.injEq] at h2
    subst h2
    exact hres

theorem admissibleRun_reachable {s : Store} (hs : ReachableAdmissible s) :
    ∀ (ds : List (Option Event)) {s1 : Store}, admissibleRun s ds = true →
      runEvents s ds = some s1 → ReachableAdmissible s1 := by
  intro ds
  induction ds generalizing s with
  | nil => intro s1 _ h; simp [runEvents] at h; subst h; exact hs
  | cons d ds ih =>
    intro s1 hf h
    simp only [runEvents] at h
    simp only [admissibleRun, Bool.and_eq_true] at hf
    cases hd : processIncidentRaw s d with
    | none => rw [hd] at h; simp at h
    | some s2 =>
      rw [hd] at h hf
      exact ih (ReachableAdmissible.step d hs hf.1 hd) hf.2 h

/-- C20 (conditional preservation of the relationship invariant), evaluated after
scenario B with `OfficerLocationUpdated{officerId: 7, loc: {x: 1, y: 2}}`: the state
satisfies the invariant, the event is well-formed and is none of (a), (b), (c), yet the
handler panics because officer 7 is unknown. -/
theorem relInv_step_panics_on_unknown_officer :
    RelInv (storeAfter runB) ∧
      wellFormedEvent (officerLocationUpdated 7 1 2) = true ∧
      reusesIncidentID (storeAfter runB) (some (officerLocationUpdated 7 1 2)) = false ∧
      reonlineAssigned (storeAfter runB) (some (officerLocationUpdated 7 1 2)) = false ∧
      resolvesUnassigned (storeAfter runB) (some (officerLocationUpdated 7 1 2)) = false ∧
      findOfficer (storeAfter runB) 7 = none ∧
      processIncidentRaw (storeAfter runB) (some (officerLocationUpdated 7 1 2)) = none := by
  refine ⟨?_, by decide, by decide, by decide, by decide, by decide, by rfl⟩
  exact (reachableAdmissible_relInv
    (admissibleRun_reachable ReachableAdmissible.init runB (by decide) (by rfl))).2
end Dispatch
